import Mathlib

/-!
Creature pack procedural mesh: render packet, scene proxy and bounds.

A shallow embedding of `CustomPackProceduralMeshComponent.cpp`.

Modelling conventions.

* The `float` values of the source arrays are finite and are modelled by
  rationals `ℚ`; the build and the bounds scan only copy and compare them.
  The arithmetic of the bounds scaling (`+`, `-`, `*`, lines 936-938) is
  binary32 arithmetic: every result is rounded to nearest, ties to even, a
  result out of range becomes an infinity, and `inf - inf` is a NaN
  (`FloatVal`, `roundToFloat`).  Vector normalisation is engine code
  (`FVector::GetSafeNormal`) and is a parameter of the model (`Engine`).
* `int32` counters are modelled by `Int`, `uint32`/`uint8` values by `Nat`.
  The indices `pos_idx`, `uv_idx` of the build and their offsets wrap around
  to 32 bits (`wrapInt32`).  The same indices in `AddRenderPacket`, which runs
  after the build of the same packet has returned, and in `ProcessCalcBounds`
  are computed over the natural numbers.  A 32-bit shift takes its count
  modulo 32.
* Raw pointers (`points`, `uvs`, `indices`, `region_alphas`) are modelled by
  lists holding the current content of the pointed-to arrays.  Every array
  access is fallible: an access outside the list makes the operation return
  `none`.  The same holds for the range-checked `TArray` accesses and for
  `check(...)` assertions.
* The sequential (`#else`) branch of the `CREATURE_MULTICORE` conditionals is
  the one embedded.
* Objects the source shares by pointer (packets in a proxy, the proxy of a
  component) are carried by value; a method returns the updated object.
* GPU buffers (RHI) and materials are left out.  The proxy lock and the
  render-command queue appear in the traced form of the proxy methods
  (`AddRenderPacket_traced` and the like), which pass a list of lock, access
  and enqueue events along with the proxy.
-/

namespace CreaturePack

/-! ## Engine value types -/

/-- Engine type `FVector` with rational components. -/
structure FVector where
  X : ℚ
  Y : ℚ
  Z : ℚ
deriving DecidableEq

namespace FVector

/-- Engine `FVector::operator-`. -/
def sub (a b : FVector) : FVector := ⟨a.X - b.X, a.Y - b.Y, a.Z - b.Z⟩

/-- Engine `FVector::operator+`. -/
def add (a b : FVector) : FVector := ⟨a.X + b.X, a.Y + b.Y, a.Z + b.Z⟩

/-- Engine `FVector::operator*(const FVector&)`: component-wise product. -/
def mul (a b : FVector) : FVector := ⟨a.X * b.X, a.Y * b.Y, a.Z * b.Z⟩

/-- Engine `FVector::operator*(float)`. -/
def scale (a : FVector) (s : ℚ) : FVector := ⟨a.X * s, a.Y * s, a.Z * s⟩

/-- Engine `FVector::operator^`: cross product. -/
def cross (a b : FVector) : FVector :=
  ⟨a.Y * b.Z - a.Z * b.Y, a.Z * b.X - a.X * b.Z, a.X * b.Y - a.Y * b.X⟩

end FVector

/-- A `float` value as arithmetic produces it: a finite number, an infinity
or a NaN.  The two signed zeros are not told apart. -/
inductive FloatVal
  | finite (q : ℚ)
  | inf (negative : Bool)
  | nan
deriving DecidableEq

instance (n : Nat) : OfNat FloatVal n := ⟨.finite n⟩

instance : Neg FloatVal :=
  ⟨fun x => match x with
    | .finite q => .finite (-q)
    | .inf s => .inf (!s)
    | .nan => .nan⟩

/-- The power `2 ^ e` for an integer exponent. -/
def pow2 (e : Int) : ℚ := if 0 ≤ e then (2 : ℚ) ^ e.toNat else 1 / (2 : ℚ) ^ (-e).toNat

/-- Number of binary digits of `n`, by halving; `fuel` bounds the number of
steps. -/
def bitLengthAux : Nat → Nat → Nat
  | 0, _ => 0
  | fuel + 1, n => if n = 0 then 0 else bitLengthAux fuel (n / 2) + 1

/-- Number of binary digits of `n`. -/
def bitLength (n : Nat) : Nat := bitLengthAux n n

/-- The exponent `e` with `2 ^ e ≤ a < 2 ^ (e + 1)` of a positive rational. -/
def binadeExp (a : ℚ) : Int :=
  let e0 : Int := (bitLength a.num.toNat : Int) - (bitLength a.den : Int)
  if pow2 e0 ≤ a then e0 else e0 - 1

/-- Nearest integer to a non-negative rational, ties to the even one. -/
def roundHalfEven (q : ℚ) : Nat :=
  let f : Nat := q.num.toNat / q.den
  let r : ℚ := q - f
  if r < 1 / 2 then f else if 1 / 2 < r then f + 1 else if f % 2 = 0 then f else f + 1

/-- Rounding of an exact result to binary32 (24 significant bits, least
exponent `-126`, round to nearest, ties to even): a result that rounds to
`2 ^ 128` or more in magnitude becomes an infinity. -/
def roundToFloat (q : ℚ) : FloatVal :=
  if q = 0 then .finite 0
  else
    let a := |q|
    let e := max (binadeExp a) (-126)
    let ulp := pow2 (e - 23)
    let r := (roundHalfEven (a / ulp) : ℚ) * ulp
    if pow2 128 ≤ r then .inf (decide (q < 0))
    else .finite (if q < 0 then -r else r)

namespace FloatVal

/-- Negation of a `float`. -/
def neg (x : FloatVal) : FloatVal := -x

/-- The `float` sum. -/
def add : FloatVal → FloatVal → FloatVal
  | finite a, finite b => roundToFloat (a + b)
  | finite _, inf s => inf s
  | inf s, finite _ => inf s
  | inf s, inf t => if s = t then inf s else nan
  | _, _ => nan

/-- The `float` difference. -/
def sub (x y : FloatVal) : FloatVal := x.add y.neg

/-- The `float` product. -/
def mul : FloatVal → FloatVal → FloatVal
  | finite a, finite b => roundToFloat (a * b)
  | finite a, inf s => if a = 0 then nan else inf (xor s (decide (a < 0)))
  | inf s, finite b => if b = 0 then nan else inf (xor s (decide (b < 0)))
  | inf s, inf t => inf (xor s t)
  | _, _ => nan

/-- The `float` comparison `x <= y`; it is false when an operand is a NaN. -/
def le : FloatVal → FloatVal → Bool
  | finite a, finite b => decide (a ≤ b)
  | finite _, inf s => !s
  | inf s, finite _ => s
  | inf s, inf t => s || !t
  | _, _ => false

end FloatVal

/-- An `FVector` as `float` arithmetic produces it: a component may be an
infinity or a NaN. -/
structure FloatVector where
  X : FloatVal
  Y : FloatVal
  Z : FloatVal
deriving DecidableEq

namespace FloatVector

/-- A vector of finite components as a `float` vector. -/
def ofFVector (v : FVector) : FloatVector := ⟨.finite v.X, .finite v.Y, .finite v.Z⟩

/-- Engine `FVector::operator-` in `float` arithmetic. -/
def sub (a b : FloatVector) : FloatVector := ⟨a.X.sub b.X, a.Y.sub b.Y, a.Z.sub b.Z⟩

/-- Engine `FVector::operator+` in `float` arithmetic. -/
def add (a b : FloatVector) : FloatVector := ⟨a.X.add b.X, a.Y.add b.Y, a.Z.add b.Z⟩

/-- Engine `FVector::operator*(const FVector&)` in `float` arithmetic. -/
def mul (a b : FloatVector) : FloatVector := ⟨a.X.mul b.X, a.Y.mul b.Y, a.Z.mul b.Z⟩

/-- Engine `FVector::operator*(float)` in `float` arithmetic. -/
def scale (a : FloatVector) (s : FloatVal) : FloatVector := ⟨a.X.mul s, a.Y.mul s, a.Z.mul s⟩

end FloatVector

/-- Engine type `FVector2D`. -/
structure FVector2D where
  X : ℚ
  Y : ℚ
deriving DecidableEq

/-- Engine type `FColor`; the channels are `uint8` values. -/
structure FColor where
  R : Nat
  G : Nat
  B : Nat
  A : Nat
deriving DecidableEq

/-- Modelled from the spec: the engine vertex type `FDynamicMeshVertex` is not
part of the source file.  Following the spec's data model a vertex carries a
position, a colour, a tangent basis of three vectors (as handed to
`SetTangents`) and `MAX_STATIC_TEXCOORDS` texture coordinate pairs. -/
structure FDynamicMeshVertex where
  Position : FVector
  TextureCoordinate : List FVector2D
  TangentX : FVector
  TangentY : FVector
  TangentZ : FVector
  Color : FColor
deriving DecidableEq

/-- Modelled from the spec: `FDynamicMeshVertex::SetTangents` stores the three
basis vectors and leaves every other field of the vertex alone. -/
def FDynamicMeshVertex.SetTangents (v : FDynamicMeshVertex)
    (InTangentX InTangentY InTangentZ : FVector) : FDynamicMeshVertex :=
  { v with TangentX := InTangentX, TangentY := InTangentY, TangentZ := InTangentZ }

/-- Engine constant `MAX_STATIC_TEXCOORDS`. -/
def MAX_STATIC_TEXCOORDS : Nat := 8

/-- Engine constant `INDEX_NONE`. -/
def INDEX_NONE : Int := -1

/-- The constant `FLT_MAX` of `<cfloat>`: `(2 - 2^-23) * 2^127`. -/
def FLT_MAX : ℚ := (2 ^ 24 - 1) * 2 ^ 104

/-- The constant `FLT_MIN` of `<cfloat>`: `2^-126`. -/
def FLT_MIN : ℚ := 1 / 2 ^ 126

/-- Engine services the source calls but does not define: vector
normalisation and the content of freshly added, uninitialised array slots. -/
structure Engine where
  GetSafeNormal : FVector → FVector
  Uninitialized : Nat → FDynamicMeshVertex

/-- Conversion `uint32 → int32` as done by the assignment
`IndexBuffer.Indices[i] = cur_packet.indices[i]`. -/
def toInt32 (n : Nat) : Int :=
  if n % 2 ^ 32 < 2 ^ 31 then (n % 2 ^ 32 : Nat) else (n % 2 ^ 32 : Nat) - 2 ^ 32

/-! ## Geometry source and render packet -/

/-- Geometry source `FProceduralPackMeshTriData` (the lock is left out). -/
structure FProceduralPackMeshTriData where
  indices : List Nat
  points : List ℚ
  uvs : List ℚ
  point_num : Int
  indices_num : Int
  region_alphas : List Nat
deriving DecidableEq

/-- Render packet `FProceduralPackMeshRenderPacket`.  `VertexBufferVertices`
is `VertexBuffer.Vertices`, `IndexBufferIndices` is `IndexBuffer.Indices`.
`VertexCacheResets` is a ghost counter: the number of times the
`Reset`/`AddUninitialized` branch of `CreateDirectVertexData` has run. -/
structure FProceduralPackMeshRenderPacket where
  indices : List Nat
  points : List ℚ
  uvs : List ℚ
  point_num : Int
  indices_num : Int
  real_indices_num : Int
  region_alphas : List Nat
  should_release : Bool
  VertexCache : List FDynamicMeshVertex
  VertexBufferVertices : List FDynamicMeshVertex
  IndexBufferIndices : List Int
  VertexCacheResets : Nat
deriving DecidableEq

/-- Source constant `x_id`. -/
def x_id : Nat := 0

/-- Source constant `y_id`. -/
def y_id : Nat := 2

/-- Source constant `z_id`. -/
def z_id : Nat := 1

/-- Lines 366-370 of `CreateDirectVertexData`: the cache is reset and refilled
with uninitialised slots only when its length differs from `point_num`.
A negative `point_num` fails (`AddUninitialized` of a negative count). -/
def resizeVertexCache (E : Engine) (pkt : FProceduralPackMeshRenderPacket) :
    Option FProceduralPackMeshRenderPacket :=
  if (pkt.VertexCache.length : Int) ≠ pkt.point_num then
    if pkt.point_num < 0 then none
    else some { pkt with
      VertexCache := (List.range pkt.point_num.toNat).map E.Uninitialized,
      VertexCacheResets := pkt.VertexCacheResets + 1 }
  else some pkt

/-- The value an `int` expression has after two's complement wrap-around to
32 bits. -/
def wrapInt32 (z : Int) : Int := (z + 2 ^ 31) % 2 ^ 32 - 2 ^ 31

/-- Read `p[idx]` through a raw pointer `p` to an array with the elements `l`,
with an `int` index: an index below zero or past the end is out of range. -/
def readAt {α : Type} (l : List α) (idx : Int) : Option α :=
  if idx < 0 then none else l[idx.toNat]?

/-- Body of the per-point loop of `CreateDirectVertexData` (lines 377-391).
The indices `pos_idx`, `uv_idx` and their offsets are `int` values. -/
def pointStep (pkt : FProceduralPackMeshRenderPacket)
    (cache : List FDynamicMeshVertex) (i : Nat) : Option (List FDynamicMeshVertex) := do
  let curVert ← cache[i]?
  let pos_idx := wrapInt32 ((i : Int) * 3)
  let px ← readAt pkt.points (wrapInt32 (pos_idx + x_id))
  let py ← readAt pkt.points (wrapInt32 (pos_idx + y_id))
  let pz ← readAt pkt.points (wrapInt32 (pos_idx + z_id))
  let set_alpha ← pkt.region_alphas[i]?
  let uv_idx := wrapInt32 ((i : Int) * 2)
  let u ← readAt pkt.uvs uv_idx
  let v ← readAt pkt.uvs (wrapInt32 (uv_idx + 1))
  some (cache.set i { curVert with
    Position := ⟨px, py, pz⟩,
    Color := ⟨set_alpha, set_alpha, set_alpha, set_alpha⟩,
    TextureCoordinate := List.replicate MAX_STATIC_TEXCOORDS ⟨u, v⟩ })

/-- The tangent basis `(TangentX, TangentY, TangentZ)` of lines 409-414 for a
triangle with corner positions `p0 p1 p2`. -/
def triangleBasis (E : Engine) (p0 p1 p2 : FVector) : FVector × FVector × FVector :=
  let Edge01 := p1.sub p0
  let Edge02 := p2.sub p0
  let TangentX := E.GetSafeNormal Edge01
  let TangentZ := E.GetSafeNormal (Edge02.cross Edge01)
  let TangentY := E.GetSafeNormal (TangentX.cross TangentZ)
  (TangentX, TangentY, TangentZ)

/-- Body of the per-triangle loop (lines 405-418, and the identical lines
567-580 of `AddRenderPacket`).  `SetTangents` only overwrites the tangent
fields, so writing back the vertices read at the start of the iteration is
the same as updating in place, also when two corners are the same vertex. -/
def tangentStep (E : Engine) (indices : List Nat)
    (cache : List FDynamicMeshVertex) (cur_indice : Nat) : Option (List FDynamicMeshVertex) := do
  let i0 ← indices[cur_indice]?
  let i1 ← indices[cur_indice + 1]?
  let i2 ← indices[cur_indice + 2]?
  let vert0 ← cache[i0]?
  let vert1 ← cache[i1]?
  let vert2 ← cache[i2]?
  let T := triangleBasis E vert0.Position vert1.Position vert2.Position
  some (((cache.set i0 (vert0.SetTangents T.1 T.2.1 T.2.2)).set i1
    (vert1.SetTangents T.1 T.2.1 T.2.2)).set i2 (vert2.SetTangents T.1 T.2.1 T.2.2))

/-- Number of iterations of `for (c = 0; c < indices_num; c += 3)`. -/
def triangleIterations (indices_num : Int) : Nat := (indices_num.toNat + 2) / 3

/-- The per-point loop `for (i = 0; i < point_num; i++)`. -/
def pointLoop (pkt : FProceduralPackMeshRenderPacket)
    (cache : List FDynamicMeshVertex) : Option (List FDynamicMeshVertex) :=
  (List.range pkt.point_num.toNat).foldlM (pointStep pkt) cache

/-- The per-triangle loop; iteration `k` has `cur_indice = 3 * k`. -/
def tangentLoop (E : Engine) (indices : List Nat) (indices_num : Int)
    (cache : List FDynamicMeshVertex) : Option (List FDynamicMeshVertex) :=
  (List.range (triangleIterations indices_num)).foldlM
    (fun c k => tangentStep E indices c (3 * k)) cache

/-- Method `FProceduralPackMeshRenderPacket::CreateDirectVertexData`. -/
def CreateDirectVertexData (E : Engine) (pkt : FProceduralPackMeshRenderPacket) :
    Option FProceduralPackMeshRenderPacket := do
  let pkt1 ← resizeVertexCache E pkt
  let cache1 ← pointLoop pkt1 pkt1.VertexCache
  let cache2 ← tangentLoop E pkt1.indices pkt1.indices_num cache1
  some { pkt1 with VertexCache := cache2 }

/-- Member initialisation of the packet constructor (lines 319-327): the
packet refers to the arrays of `data_in`; its own arrays start empty. -/
def bindTriData (data_in : FProceduralPackMeshTriData) : FProceduralPackMeshRenderPacket :=
  { indices := data_in.indices
    points := data_in.points
    uvs := data_in.uvs
    point_num := data_in.point_num
    indices_num := data_in.indices_num
    real_indices_num := data_in.indices_num
    region_alphas := data_in.region_alphas
    should_release := false
    VertexCache := []
    VertexBufferVertices := []
    IndexBufferIndices := []
    VertexCacheResets := 0 }

/-- Constructor of `FProceduralPackMeshRenderPacket` (lines 316-331): member
initialisation followed by `CreateDirectVertexData`. -/
def newRenderPacket (E : Engine) (data_in : FProceduralPackMeshTriData) :
    Option FProceduralPackMeshRenderPacket :=
  CreateDirectVertexData E (bindTriData data_in)

/-- Method `setRealIndicesNum`. -/
def setRealIndicesNum (pkt : FProceduralPackMeshRenderPacket) (num_in : Int) :
    FProceduralPackMeshRenderPacket :=
  { pkt with real_indices_num := if num_in > 0 then num_in else pkt.indices_num }

/-- Method `InitForRender`; the resource initialisation itself is GPU work. -/
def InitForRender (pkt : FProceduralPackMeshRenderPacket) : FProceduralPackMeshRenderPacket :=
  { pkt with should_release := true }

/-- Method `UpdateDirectVertexData`: the `check` fails when the cache length
differs from `point_num`; otherwise the cache is copied to the vertex buffer. -/
def UpdateDirectVertexData (pkt : FProceduralPackMeshRenderPacket) :
    Option FProceduralPackMeshRenderPacket :=
  if (pkt.VertexCache.length : Int) = pkt.point_num then
    some { pkt with VertexBufferVertices := pkt.VertexCache }
  else none

/-- Method `UpdateDirectIndexData`: copies `indices_num` source indices to the
GPU index buffer; only the reads of the source array are modelled. -/
def UpdateDirectIndexData (pkt : FProceduralPackMeshRenderPacket) :
    Option FProceduralPackMeshRenderPacket :=
  if 0 ≤ pkt.indices_num ∧ pkt.indices_num ≤ (pkt.indices.length : Int) then some pkt else none

/-! ## Scene proxy -/

/-- Scene proxy `FCProceduralPackMeshSceneProxy`: the packets
(`TIndirectArray renderPackets`), the active index and the pending-update
flags. -/
structure FCProceduralPackMeshSceneProxy where
  renderPackets : List FProceduralPackMeshRenderPacket
  active_render_packet_idx : Int
  needs_index_updating : Bool
  needs_index_update_num : Int
  needs_material_updating : Bool
deriving DecidableEq

/-- Range-checked element access `renderPackets[idx]` with an `int` index. -/
def packetAt (packets : List FProceduralPackMeshRenderPacket) (idx : Int) :
    Option FProceduralPackMeshRenderPacket :=
  if idx < 0 then none else packets[idx.toNat]?

/-- Engine `TArray::IsValidIndex`. -/
def IsValidIndex (packets : List FProceduralPackMeshRenderPacket) (idx : Int) : Bool :=
  decide (0 ≤ idx ∧ idx < (packets.length : Int))

/-- Method `GetActiveRenderPacket`; `none` is the null pointer. -/
def GetActiveRenderPacket (proxy : FCProceduralPackMeshSceneProxy) :
    Option FProceduralPackMeshRenderPacket :=
  if !IsValidIndex proxy.renderPackets proxy.active_render_packet_idx then none
  else packetAt proxy.renderPackets proxy.active_render_packet_idx

/-- Method `UpdateMaterial`; the material itself is left out. -/
def UpdateMaterial (proxy : FCProceduralPackMeshSceneProxy) : FCProceduralPackMeshSceneProxy :=
  { proxy with needs_material_updating := false }

/-- State set up by the constructor before the optional `AddRenderPacket`. -/
def emptyProxy : FCProceduralPackMeshSceneProxy :=
  { renderPackets := []
    active_render_packet_idx := INDEX_NONE
    needs_index_updating := false
    needs_index_update_num := -1
    needs_material_updating := false }

/-- Body of the index copy loop (line 540):
`IndexBuffer.Indices[i] = cur_packet.indices[i]`. -/
def indexCopyStep (indices : List Nat) (Indices : List Int) (i : Nat) : Option (List Int) := do
  let x ← indices[i]?
  if i < Indices.length then some (Indices.set i (toInt32 x)) else none

/-- The call `IndexBuffer.Indices.SetNum(indices_num)` on the empty array (line 534),
which fails on a negative count, followed by the copy loop of lines 538-541. -/
def fillIndexBuffer (indices : List Nat) (indices_num : Int) : Option (List Int) :=
  if indices_num < 0 then none
  else (List.range indices_num.toNat).foldlM (indexCopyStep indices)
    (List.replicate indices_num.toNat 0)

/-- Body of the "fill initial points" loop of `AddRenderPacket` (lines 550-561). -/
def initialPointStep (pkt : FProceduralPackMeshRenderPacket) (startColorIn : FColor)
    (verts : List FDynamicMeshVertex) (i : Nat) : Option (List FDynamicMeshVertex) := do
  let Vert ← verts[i]?
  let pos_idx := i * 3
  let px ← pkt.points[pos_idx + x_id]?
  let py ← pkt.points[pos_idx + y_id]?
  let pz ← pkt.points[pos_idx + z_id]?
  let uv_idx := i * 2
  let u ← pkt.uvs[uv_idx]?
  let v ← pkt.uvs[uv_idx + 1]?
  some (verts.set i
    { ({ Vert with Position := ⟨px, py, pz⟩, Color := startColorIn }.SetTangents
        ⟨1, 0, 0⟩ ⟨0, 1, 0⟩ ⟨0, 0, 1⟩) with
      TextureCoordinate := List.replicate MAX_STATIC_TEXCOORDS ⟨u, v⟩ })

/-- Lines 534-581 of `AddRenderPacket`: the staged index and vertex data of a
freshly constructed packet. -/
def fillInitialBuffers (E : Engine) (cur_packet : FProceduralPackMeshRenderPacket)
    (startColorIn : FColor) : Option FProceduralPackMeshRenderPacket := do
  let Indices ← fillIndexBuffer cur_packet.indices cur_packet.indices_num
  let Vertices0 ← if cur_packet.point_num < 0 then none
    else some ((List.range cur_packet.point_num.toNat).map E.Uninitialized)
  let Vertices1 ← (List.range cur_packet.point_num.toNat).foldlM
    (initialPointStep cur_packet startColorIn) Vertices0
  let Vertices2 ← tangentLoop E cur_packet.indices cur_packet.indices_num Vertices1
  some { cur_packet with IndexBufferIndices := Indices, VertexBufferVertices := Vertices2 }

/-- Method `AddRenderPacket`. -/
def AddRenderPacket (E : Engine) (proxy : FCProceduralPackMeshSceneProxy)
    (targetTrisIn : FProceduralPackMeshTriData) (startColorIn : FColor) :
    Option FCProceduralPackMeshSceneProxy := do
  let new_packet ← newRenderPacket E targetTrisIn
  let cur_packet ← fillInitialBuffers E new_packet startColorIn
  let cur_packet := InitForRender cur_packet
  some { proxy with
    renderPackets := proxy.renderPackets ++ [cur_packet],
    active_render_packet_idx :=
      if proxy.active_render_packet_idx = INDEX_NONE then 0
      else proxy.active_render_packet_idx }

/-- Constructor of the scene proxy (lines 460-479). -/
def newSceneProxy (E : Engine) (targetTrisIn : Option FProceduralPackMeshTriData)
    (startColorIn : FColor) : Option FCProceduralPackMeshSceneProxy :=
  match targetTrisIn with
  | some tris => AddRenderPacket E (UpdateMaterial emptyProxy) tris startColorIn
  | none => some (UpdateMaterial emptyProxy)

/-- Method `ResetAllRenderPackets`. -/
def ResetAllRenderPackets (proxy : FCProceduralPackMeshSceneProxy) :
    FCProceduralPackMeshSceneProxy :=
  { proxy with renderPackets := [], active_render_packet_idx := INDEX_NONE }

/-- Method `SetActiveRenderPacketIdx`. -/
def SetActiveRenderPacketIdx (proxy : FCProceduralPackMeshSceneProxy) (idxIn : Int) :
    FCProceduralPackMeshSceneProxy :=
  { proxy with active_render_packet_idx := idxIn }

/-- Method `UpdateDynamicComponentData`. -/
def UpdateDynamicComponentData (E : Engine) (proxy : FCProceduralPackMeshSceneProxy) :
    Option FCProceduralPackMeshSceneProxy :=
  if proxy.active_render_packet_idx < 0 then some proxy
  else do
    let proxy1 := if proxy.needs_material_updating then UpdateMaterial proxy else proxy
    let cur_packet ← packetAt proxy1.renderPackets proxy1.active_render_packet_idx
    let cur_packet ← CreateDirectVertexData E cur_packet
    some { proxy1 with
      renderPackets := proxy1.renderPackets.set proxy1.active_render_packet_idx.toNat cur_packet }

/-- Method `SetNeedsMaterialUpdate`. -/
def SetNeedsMaterialUpdate (proxy : FCProceduralPackMeshSceneProxy) (flag_in : Bool) :
    FCProceduralPackMeshSceneProxy :=
  { proxy with needs_material_updating := flag_in }

/-- Method `SetNeedsIndexUpdate`. -/
def SetNeedsIndexUpdate (proxy : FCProceduralPackMeshSceneProxy) (flag_in : Bool)
    (index_new_num : Int) : FCProceduralPackMeshSceneProxy :=
  { proxy with needs_index_updating := flag_in, needs_index_update_num := index_new_num }

/-- Method `SetDynamicData_RenderThread`. -/
def SetDynamicData_RenderThread (proxy : FCProceduralPackMeshSceneProxy) :
    Option FCProceduralPackMeshSceneProxy :=
  if proxy.active_render_packet_idx < 0 then some proxy
  else do
    let cur_packet ← packetAt proxy.renderPackets proxy.active_render_packet_idx
    let cur_packet ← UpdateDirectVertexData cur_packet
    if proxy.needs_index_updating then
      let cur_packet ← UpdateDirectIndexData (setRealIndicesNum cur_packet proxy.needs_index_update_num)
      some { proxy with
        renderPackets := proxy.renderPackets.set proxy.active_render_packet_idx.toNat cur_packet,
        needs_index_updating := false,
        needs_index_update_num := -1 }
    else
      some { proxy with
        renderPackets := proxy.renderPackets.set proxy.active_render_packet_idx.toNat cur_packet }

/-- Conversion `int32 → uint32` of the assignments to `NumPrimitives` and
`MaxVertexIndex`. -/
def toUInt32 (z : Int) : Nat := (z % 2 ^ 32).toNat

/-- One emitted draw item: the view it is added for and the fields of its
`FMeshBatchElement` that the source sets from packet data. -/
structure FMeshBatchElement where
  ViewIndex : Nat
  FirstIndex : Nat
  NumPrimitives : Nat
  MinVertexIndex : Nat
  MaxVertexIndex : Nat
deriving DecidableEq

/-- The test `VisibilityMap & (1 << ViewIndex)` of line 692 on the `uint32`
mask: the 32-bit shift takes its count modulo 32, so view 32 is tested
against bit 0 again. -/
def viewVisible (VisibilityMap : Nat) (ViewIndex : Nat) : Bool :=
  VisibilityMap.testBit (ViewIndex % 32)

/-- Body of the per-view loop of `GetDynamicMeshElements` (lines 692-713). -/
def viewStep (cur_packet : FProceduralPackMeshRenderPacket) (VisibilityMap : Nat)
    (Collector : List FMeshBatchElement) (ViewIndex : Nat) : Option (List FMeshBatchElement) :=
  if viewVisible VisibilityMap ViewIndex then
    some (Collector ++ [{
      ViewIndex := ViewIndex
      FirstIndex := 0
      NumPrimitives := toUInt32 (Int.tdiv cur_packet.real_indices_num 3)
      MinVertexIndex := 0
      MaxVertexIndex := toUInt32 ((cur_packet.VertexBufferVertices.length : Int) - 1) }])
  else some Collector

/-- Method `GetDynamicMeshElements`: `showFlag` is the value of the console
variable `creature.ShowMeshes`, `numViews` is `Views.Num()`; the result is the
list of meshes added to the collector. -/
def GetDynamicMeshElements (showFlag : Int) (proxy : FCProceduralPackMeshSceneProxy)
    (numViews : Nat) (VisibilityMap : Nat) : Option (List FMeshBatchElement) :=
  if showFlag = 0 then some []
  else if proxy.active_render_packet_idx < 0 then some []
  else do
    let cur_packet ← packetAt proxy.renderPackets proxy.active_render_packet_idx
    if cur_packet.point_num ≤ 0 then some []
    else (List.range numViews).foldlM (viewStep cur_packet VisibilityMap) []

/-! ## Mesh component: bounds -/

/-- The fields of `UCustomPackProceduralMeshComponent` used by the embedded
methods.  `SceneProxy` is the proxy `GetLocalRenderProxy()` returns (`none` is
the null pointer); the three flags record the engine calls
`MarkRenderStateDirty`, `MarkRenderTransformDirty` and
`MarkRenderDynamicDataDirty`.  The cached corners are results of `float`
arithmetic. -/
structure UCustomPackProceduralMeshComponent where
  defaultTriData : FProceduralPackMeshTriData
  bounds_scale : ℚ
  bounds_offset : FVector
  render_proxy_ready : Bool
  recreate_render_proxy : Bool
  calc_local_vec_min : FloatVector
  calc_local_vec_max : FloatVector
  SceneProxy : Option FCProceduralPackMeshSceneProxy
  renderStateDirty : Bool
  renderTransformDirty : Bool
  renderDynamicDataDirty : Bool
deriving DecidableEq

/-- Source constant `bounds_max_scalar`. -/
def bounds_max_scalar : ℚ := 100000

/-- The sentinel test of lines 897-898 and, negated, of lines 915-918: some
coordinate equals `FLT_MIN` or `FLT_MAX`. -/
def isSentinelPoint (p : FVector) : Bool :=
  (p.X == FLT_MIN || p.Y == FLT_MIN || p.Z == FLT_MIN)
    || (p.X == FLT_MAX || p.Y == FLT_MAX || p.Z == FLT_MAX)

/-- The reads `posX, posY, posZ` of lines 910-913 for point `i`. -/
def boundsPoint (cur_pts : List ℚ) (i : Nat) : Option FVector := do
  let ptIdx := i * 3
  let posX ← cur_pts[ptIdx + x_id]?
  let posY ← cur_pts[ptIdx + y_id]?
  let posZ ← cur_pts[ptIdx + z_id]?
  some ⟨posX, posY, posZ⟩

/-- Lines 896-904: the initial value of `vecMin` and `vecMax`. -/
def boundsInit (cur_pts : List ℚ) : Option FVector := do
  let x ← cur_pts[x_id]?
  let y ← cur_pts[y_id]?
  let z ← cur_pts[z_id]?
  let vecMin : FVector := ⟨x, y, z⟩
  if isSentinelPoint vecMin then some ⟨0, 0, 0⟩ else some vecMin

/-- Lines 918-930: the update of `(vecMin, vecMax)` by one position. -/
def boundsAccumulate (acc : FVector × FVector) (pos : FVector) : FVector × FVector :=
  if !isSentinelPoint pos then
    (⟨if acc.1.X > pos.X then pos.X else acc.1.X,
      if acc.1.Y > pos.Y then pos.Y else acc.1.Y,
      if acc.1.Z > pos.Z then pos.Z else acc.1.Z⟩,
     ⟨if acc.2.X < pos.X then pos.X else acc.2.X,
      if acc.2.Y < pos.Y then pos.Y else acc.2.Y,
      if acc.2.Z < pos.Z then pos.Z else acc.2.Z⟩)
  else acc

/-- Body of the scan loop (lines 910-930). -/
def boundsScanStep (cur_pts : List ℚ) (acc : FVector × FVector) (i : Nat) :
    Option (FVector × FVector) := do
  let pos ← boundsPoint cur_pts i
  some (boundsAccumulate acc pos)

/-- Lines 893-931: initialisation and scan; the result is `(vecMin, vecMax)`
before scaling. -/
def boundsScan (cur_pts : List ℚ) (point_num : Int) : Option (FVector × FVector) := do
  let vecMin ← boundsInit cur_pts
  (List.range point_num.toNat).foldlM (boundsScanStep cur_pts) (vecMin, vecMin)

/-- The test of lines 940-943 on the scaled corners, with `float`
comparisons. -/
def touchesBoundsLimit (vecMin vecMax : FloatVector) : Bool :=
  (vecMin.X.le (.finite (-bounds_max_scalar)) || vecMin.Y.le (.finite (-bounds_max_scalar))
      || vecMin.Z.le (.finite (-bounds_max_scalar))
    || FloatVal.le (.finite bounds_max_scalar) vecMin.X
      || FloatVal.le (.finite bounds_max_scalar) vecMin.Y
      || FloatVal.le (.finite bounds_max_scalar) vecMin.Z)
  || (vecMax.X.le (.finite (-bounds_max_scalar)) || vecMax.Y.le (.finite (-bounds_max_scalar))
      || vecMax.Z.le (.finite (-bounds_max_scalar))
    || FloatVal.le (.finite bounds_max_scalar) vecMax.X
      || FloatVal.le (.finite bounds_max_scalar) vecMax.Y
      || FloatVal.le (.finite bounds_max_scalar) vecMax.Z)

/-- Lines 933-947: scaling about the midpoint, every operation a `float`
operation, and the fallback cube. -/
def scaleBounds (lscale : ℚ) (acc : FVector × FVector) : FloatVector × FloatVector :=
  let lScaleVec : FloatVector := ⟨.finite lscale, .finite lscale, .finite lscale⟩
  let vecMin0 := FloatVector.ofFVector acc.1
  let vecMax0 := FloatVector.ofFVector acc.2
  let vecMidPt := (vecMax0.add vecMin0).scale (.finite (1 / 2))
  let vecMax := ((vecMax0.sub vecMidPt).mul lScaleVec).add vecMidPt
  let vecMin := ((vecMin0.sub vecMidPt).mul lScaleVec).add vecMidPt
  if touchesBoundsLimit vecMin vecMax then
    (⟨.finite (-bounds_max_scalar), .finite (-bounds_max_scalar), .finite (-bounds_max_scalar)⟩,
     ⟨.finite bounds_max_scalar, .finite bounds_max_scalar, .finite bounds_max_scalar⟩)
  else (vecMin, vecMax)

/-- Method `ProcessCalcBounds`; `localRenderProxy = none` is the null
pointer.  The debug sphere is left out. -/
def ProcessCalcBounds (comp : UCustomPackProceduralMeshComponent)
    (localRenderProxy : Option FCProceduralPackMeshSceneProxy) :
    Option UCustomPackProceduralMeshComponent :=
  let cur_packet : Option FProceduralPackMeshRenderPacket :=
    if comp.render_proxy_ready then localRenderProxy.bind GetActiveRenderPacket else none
  let can_calc : Bool :=
    match cur_packet with
    | some p => decide (p.point_num > 0)
    | none => false
  let comp1 := { comp with
    calc_local_vec_min :=
      ⟨.finite (-bounds_max_scalar), .finite (-bounds_max_scalar), .finite (-bounds_max_scalar)⟩,
    calc_local_vec_max :=
      ⟨.finite bounds_max_scalar, .finite bounds_max_scalar, .finite bounds_max_scalar⟩ }
  match can_calc, cur_packet with
  | true, some p => do
    let acc ← boundsScan p.points p.point_num
    let r := scaleBounds comp.bounds_scale acc
    some { comp1 with calc_local_vec_min := r.1, calc_local_vec_max := r.2 }
  | _, _ => some comp1

/-- Constructor of the component (lines 753-766), for a given initial
geometry member. -/
def newComponent (defaultTriData : FProceduralPackMeshTriData) :
    UCustomPackProceduralMeshComponent :=
  { defaultTriData := defaultTriData
    bounds_scale := 1
    bounds_offset := ⟨0, 0, 0⟩
    render_proxy_ready := false
    recreate_render_proxy := false
    calc_local_vec_min := ⟨.finite FLT_MIN, .finite FLT_MIN, .finite FLT_MIN⟩
    calc_local_vec_max := ⟨.finite FLT_MAX, .finite FLT_MAX, .finite FLT_MAX⟩
    SceneProxy := none
    renderStateDirty := false
    renderTransformDirty := false
    renderDynamicDataDirty := false }

/-- Method `SetProceduralMeshTriData`. -/
def SetProceduralMeshTriData (comp : UCustomPackProceduralMeshComponent)
    (TriData : FProceduralPackMeshTriData) : UCustomPackProceduralMeshComponent :=
  { comp with defaultTriData := TriData, renderStateDirty := true }

/-- Method `RecreateRenderProxy`. -/
def RecreateRenderProxy (comp : UCustomPackProceduralMeshComponent) (flag_in : Bool) :
    UCustomPackProceduralMeshComponent :=
  { comp with recreate_render_proxy := flag_in }

/-- Method `SetBoundsScale`. -/
def SetBoundsScale (comp : UCustomPackProceduralMeshComponent) (value_in : ℚ) :
    UCustomPackProceduralMeshComponent :=
  { comp with bounds_scale := value_in }

/-- Method `SetBoundsOffset`. -/
def SetBoundsOffset (comp : UCustomPackProceduralMeshComponent) (offset_in : FVector) :
    UCustomPackProceduralMeshComponent :=
  { comp with bounds_offset := offset_in }

/-- Method `ForceAnUpdate`.  The proxy is shared by pointer in the source; here
the component carries its current state, so the updated proxy is stored back. -/
def ForceAnUpdate (E : Engine) (comp : UCustomPackProceduralMeshComponent)
    (render_packet_idx : Int) (markDirty : Bool) :
    Option UCustomPackProceduralMeshComponent :=
  if comp.recreate_render_proxy then
    if markDirty then
      some { comp with renderStateDirty := true, recreate_render_proxy := false }
    else some comp
  else
    match comp.SceneProxy with
    | some localRenderProxy =>
      if comp.render_proxy_ready then do
        let proxy1 :=
          if render_packet_idx ≥ 0 then SetActiveRenderPacketIdx localRenderProxy render_packet_idx
          else localRenderProxy
        let proxy2 ← UpdateDynamicComponentData E proxy1
        let comp1 ← ProcessCalcBounds comp (some proxy2)
        let comp2 := { comp1 with SceneProxy := some proxy2 }
        if markDirty then
          some { comp2 with renderTransformDirty := true, renderDynamicDataDirty := true }
        else some comp2
      else some comp
    | none => some comp

/-- Method `CreateSceneProxy`; `not_editor_mode` is the outcome of the world
type test of lines 849-850.  The result carries the updated component and the
returned proxy pointer (`none` is `NULL`).  The render command enqueued by
`SendRenderDynamicData_Concurrent` is left out. -/
def CreateSceneProxy (E : Engine) (comp : UCustomPackProceduralMeshComponent)
    (not_editor_mode : Bool) :
    Option (UCustomPackProceduralMeshComponent × Option FCProceduralPackMeshSceneProxy) :=
  if comp.defaultTriData.point_num > 0 then do
    let start_color : FColor := if not_editor_mode then ⟨0, 0, 0, 0⟩ else ⟨255, 255, 255, 255⟩
    let Proxy ← newSceneProxy E (some comp.defaultTriData) start_color
    let comp1 ← ProcessCalcBounds { comp with render_proxy_ready := true } (some Proxy)
    some (comp1, some Proxy)
  else some (comp, none)

/-- Method `GetNumMaterials`. -/
def GetNumMaterials (_ : UCustomPackProceduralMeshComponent) : Int := 1

/-- Method `InitializeComponent`. -/
def InitializeComponent (comp : UCustomPackProceduralMeshComponent) :
    UCustomPackProceduralMeshComponent :=
  { comp with render_proxy_ready := false, renderStateDirty := true }

/-! ## Proxy operations with their lock and queue events

The proxy methods once more, with explicit state passing over a proxy and a
list of recorded events: in source order, what a method does to the proxy lock
`renderPacketsCS`, every read and write of `active_render_packet_idx` and of
`renderPackets`, and every render command it enqueues.  The methods reach the
active index and the packet sequence only through the accessors below, and
each accessor records its event.  Interleavings of threads are not modelled. -/

/-- Events of a proxy method: construction of the `FScopeLock` on
`renderPacketsCS`, its release at scope exit, reads and writes of
`active_render_packet_idx`, reads and writes of `renderPackets` (the array or
a packet in it), and the enqueueing of a render command. -/
inductive ProxyEvent where
  | Lock
  | Unlock
  | ReadActiveIndex
  | WriteActiveIndex
  | ReadPackets
  | WritePackets
  | Enqueue
deriving DecidableEq

/-- State of a traced run: the proxy and the events recorded so far. -/
structure ProxyRun where
  proxy : FCProceduralPackMeshSceneProxy
  trace : List ProxyEvent
deriving DecidableEq

namespace ProxyRun

/-- Record one event. -/
def record (r : ProxyRun) (e : ProxyEvent) : ProxyRun := { r with trace := r.trace ++ [e] }

/-- Construction of `FScopeLock packetLock(&renderPacketsCS)`. -/
def lock (r : ProxyRun) : ProxyRun := r.record .Lock

/-- Destruction of the scope lock at the end of its scope. -/
def unlock (r : ProxyRun) : ProxyRun := r.record .Unlock

/-- One `ENQUEUE_RENDER_COMMAND`, directly or through `BeginInitResource`. -/
def enqueue (r : ProxyRun) : ProxyRun := r.record .Enqueue

/-- Read of `active_render_packet_idx`. -/
def getActiveIndex (r : ProxyRun) : Int × ProxyRun :=
  (r.proxy.active_render_packet_idx, r.record .ReadActiveIndex)

/-- Assignment to `active_render_packet_idx`. -/
def setActiveIndex (r : ProxyRun) (idx : Int) : ProxyRun :=
  { (r.record .WriteActiveIndex) with proxy := { r.proxy with active_render_packet_idx := idx } }

/-- Element access `renderPackets[idx]`. -/
def getPacket (r : ProxyRun) (idx : Int) : Option (FProceduralPackMeshRenderPacket × ProxyRun) :=
  (packetAt r.proxy.renderPackets idx).map (fun pkt => (pkt, r.record .ReadPackets))

/-- Update of the packet `renderPackets[idx]` through a reference to it. -/
def setPacket (r : ProxyRun) (idx : Int) (pkt : FProceduralPackMeshRenderPacket) : ProxyRun :=
  { (r.record .WritePackets) with
    proxy := { r.proxy with renderPackets := r.proxy.renderPackets.set idx.toNat pkt } }

/-- The call `renderPackets.Add`. -/
def addPacket (r : ProxyRun) (pkt : FProceduralPackMeshRenderPacket) : ProxyRun :=
  { (r.record .WritePackets) with
    proxy := { r.proxy with renderPackets := r.proxy.renderPackets ++ [pkt] } }

/-- The call `renderPackets.Last()`. -/
def lastPacket (r : ProxyRun) : Option (FProceduralPackMeshRenderPacket × ProxyRun) :=
  r.proxy.renderPackets.getLast?.map (fun pkt => (pkt, r.record .ReadPackets))

/-- Update of the last packet through the reference `renderPackets.Last()`. -/
def setLastPacket (r : ProxyRun) (pkt : FProceduralPackMeshRenderPacket) : ProxyRun :=
  { (r.record .WritePackets) with
    proxy := { r.proxy with renderPackets := r.proxy.renderPackets.dropLast ++ [pkt] } }

/-- The call `renderPackets.Reset()`. -/
def resetPackets (r : ProxyRun) : ProxyRun :=
  { (r.record .WritePackets) with proxy := { r.proxy with renderPackets := [] } }

/-- Assignment to the pending-update flags of the proxy; no event is recorded
for them. -/
def setFlags (r : ProxyRun) (needs_index_updating : Bool) (needs_index_update_num : Int)
    (needs_material_updating : Bool) : ProxyRun :=
  { r with proxy := { r.proxy with
    needs_index_updating := needs_index_updating,
    needs_index_update_num := needs_index_update_num,
    needs_material_updating := needs_material_updating } }

end ProxyRun

/-- Method `AddRenderPacket` with its events: lock (line 521), construction
of the packet and `renderPackets.Add` (526), `renderPackets.Last()` (527),
filling the packet's buffers (534-581), `VertexFactory.InitResource()` which
enqueues a render command (584, line 215), `InitForRender()` with its three
`BeginInitResource` calls (587, lines 349-353), the test of the active index
(589), its assignment when it was `INDEX_NONE` (591), scope exit (593). -/
def AddRenderPacket_traced (E : Engine) (r : ProxyRun)
    (targetTrisIn : FProceduralPackMeshTriData) (startColorIn : FColor) : Option ProxyRun := do
  let r := r.lock
  let new_packet ← newRenderPacket E targetTrisIn
  let r := r.addPacket new_packet
  let (cur_packet, r) ← r.lastPacket
  let cur_packet ← fillInitialBuffers E cur_packet startColorIn
  let r := r.setLastPacket cur_packet
  let r := r.enqueue
  let r := r.enqueue
  let r := r.enqueue
  let r := r.enqueue
  let r := r.setLastPacket (InitForRender cur_packet)
  let (idx, r) := r.getActiveIndex
  let r := if idx = INDEX_NONE then r.setActiveIndex 0 else r
  some r.unlock

/-- Method `ResetAllRenderPackets` with its events (lines 597-601). -/
def ResetAllRenderPackets_traced (r : ProxyRun) : ProxyRun :=
  ((r.lock.resetPackets).setActiveIndex INDEX_NONE).unlock

/-- Method `SetActiveRenderPacketIdx` with its events (lines 605-607). -/
def SetActiveRenderPacketIdx_traced (r : ProxyRun) (idxIn : Int) : ProxyRun :=
  (r.lock.setActiveIndex idxIn).unlock

/-- Method `UpdateDynamicComponentData` with its events: the test of the
active index (line 611), the material update (616-619), then lock (621),
`renderPackets[active_render_packet_idx]` (623), `CreateDirectVertexData` on
that packet (624), scope exit (625). -/
def UpdateDynamicComponentData_traced (E : Engine) (r : ProxyRun) : Option ProxyRun :=
  let (idx, r) := r.getActiveIndex
  if idx < 0 then some r
  else do
    let r := if r.proxy.needs_material_updating then
        r.setFlags r.proxy.needs_index_updating r.proxy.needs_index_update_num false
      else r
    let r := r.lock
    let (idx, r) := r.getActiveIndex
    let (cur_packet, r) ← r.getPacket idx
    let cur_packet ← CreateDirectVertexData E cur_packet
    let r := r.setPacket idx cur_packet
    some r.unlock

/-- Method `SetDynamicData_RenderThread` with its events: lock (line 640), the
test of the active index (642), `renderPackets[active_render_packet_idx]`
(647), `UpdateDirectVertexData` (649), the index update when one is pending
(650-656), scope exit. -/
def SetDynamicData_RenderThread_traced (r : ProxyRun) : Option ProxyRun :=
  let r := r.lock
  let (idx, r) := r.getActiveIndex
  if idx < 0 then some r.unlock
  else do
    let (idx, r) := r.getActiveIndex
    let (cur_packet, r) ← r.getPacket idx
    let cur_packet ← UpdateDirectVertexData cur_packet
    let r := r.setPacket idx cur_packet
    if r.proxy.needs_index_updating then
      let cur_packet ← UpdateDirectIndexData
        (setRealIndicesNum cur_packet r.proxy.needs_index_update_num)
      let r := r.setPacket idx cur_packet
      let r := r.setFlags false (-1) r.proxy.needs_material_updating
      some r.unlock
    else some r.unlock

/-- Method `GetDynamicMeshElements` with its events: the show flag (line 665),
the test of the active index (671), lock (676),
`renderPackets[active_render_packet_idx]` (678), the point count test (684),
the per-view loop over the packet (690-716), scope exit. -/
def GetDynamicMeshElements_traced (showFlag : Int) (r : ProxyRun) (numViews : Nat)
    (VisibilityMap : Nat) : Option (List FMeshBatchElement × ProxyRun) :=
  if showFlag = 0 then some ([], r)
  else
    let (idx, r) := r.getActiveIndex
    if idx < 0 then some ([], r)
    else do
      let r := r.lock
      let (idx, r) := r.getActiveIndex
      let (cur_packet, r) ← r.getPacket idx
      if cur_packet.point_num ≤ 0 then some ([], r.unlock)
      else
        let Collector ← (List.range numViews).foldlM (viewStep cur_packet VisibilityMap) []
        some (Collector, r.unlock)

/-- The state a traced run starts in: the given proxy and no event yet. -/
def startRun (proxy : FCProceduralPackMeshSceneProxy) : ProxyRun := { proxy := proxy, trace := [] }

/-- Every event of a trace paired with whether the lock is held when it
happens; `held` is the state before the first event. -/
def withLockState : Bool → List ProxyEvent → List (Bool × ProxyEvent)
  | _, [] => []
  | held, e :: rest =>
    (held, e) :: withLockState
      (match e with
       | .Lock => true
       | .Unlock => false
       | _ => held) rest

/-- The event reads or writes `active_render_packet_idx`. -/
def touchesActiveIndex (e : ProxyEvent) : Bool :=
  e == .ReadActiveIndex || e == .WriteActiveIndex

/-- The event reads or writes `renderPackets`. -/
def touchesPackets (e : ProxyEvent) : Bool :=
  e == .ReadPackets || e == .WritePackets

/-- Every read or write of the active index and of the packet sequence
happens while the lock is held. -/
def AccessesUnderLock (trace : List ProxyEvent) : Prop :=
  ∀ x ∈ withLockState false trace, (touchesActiveIndex x.2 || touchesPackets x.2) = true →
    x.1 = true

instance (trace : List ProxyEvent) : Decidable (AccessesUnderLock trace) := by
  unfold AccessesUnderLock
  infer_instance

/-- Every read or write of the packet sequence happens while the lock is held. -/
def PacketsUnderLock (trace : List ProxyEvent) : Prop :=
  ∀ x ∈ withLockState false trace, touchesPackets x.2 = true → x.1 = true

instance (trace : List ProxyEvent) : Decidable (PacketsUnderLock trace) := by
  unfold PacketsUnderLock
  infer_instance

/-- No render command is enqueued while the lock is held. -/
def NoEnqueueUnderLock (trace : List ProxyEvent) : Prop :=
  ∀ x ∈ withLockState false trace, x.2 = ProxyEvent.Enqueue → x.1 = false

instance (trace : List ProxyEvent) : Decidable (NoEnqueueUnderLock trace) := by
  unfold NoEnqueueUnderLock
  infer_instance

/-- The lock is free after the last event of the trace. -/
def lockFreeAfter : Bool → List ProxyEvent → Bool
  | held, [] => !held
  | held, e :: rest =>
    lockFreeAfter
      (match e with
       | .Lock => true
       | .Unlock => false
       | _ => held) rest

/-! ## Specification vocabulary -/

/-- The snapshot invariant of the data model (`indices[i] < pointCount`,
`indexCount % 3 == 0`) for the arrays a packet refers to, together with the
arrays being long enough for the declared counts and every position index
`3 * i + 2` of a point `i < point_num` being an `int` value. -/
def WellFormed (pkt : FProceduralPackMeshRenderPacket) : Prop :=
  0 ≤ pkt.point_num ∧ 0 ≤ pkt.indices_num ∧ pkt.indices_num % 3 = 0 ∧
  3 * pkt.point_num ≤ (pkt.points.length : Int) ∧
  2 * pkt.point_num ≤ (pkt.uvs.length : Int) ∧
  pkt.point_num ≤ (pkt.region_alphas.length : Int) ∧
  pkt.indices_num ≤ (pkt.indices.length : Int) ∧
  (∀ x ∈ pkt.indices.take pkt.indices_num.toNat, (x : Int) < pkt.point_num) ∧
  3 * pkt.point_num ≤ 2 ^ 31

instance (pkt : FProceduralPackMeshRenderPacket) : Decidable (WellFormed pkt) := by
  unfold WellFormed
  infer_instance

/-- Triangle `t` of the index list has `v` as one of its three corners. -/
def triangleUses (indices : List Nat) (t v : Nat) : Prop :=
  indices[3 * t]? = some v ∨ indices[3 * t + 1]? = some v ∨ indices[3 * t + 2]? = some v

instance (indices : List Nat) (t v : Nat) : Decidable (triangleUses indices t v) := by
  unfold triangleUses
  infer_instance

/-- The tangent basis of triangle `t` computed from the positions stored in
`cache`. -/
def triangleBasisAt (E : Engine) (indices : List Nat) (cache : List FDynamicMeshVertex)
    (t : Nat) : Option (FVector × FVector × FVector) := do
  let i0 ← indices[3 * t]?
  let i1 ← indices[3 * t + 1]?
  let i2 ← indices[3 * t + 2]?
  let vert0 ← cache[i0]?
  let vert1 ← cache[i1]?
  let vert2 ← cache[i2]?
  some (triangleBasis E vert0.Position vert1.Position vert2.Position)

/-- The tangent basis stored in a vertex. -/
def tangentsOf (v : FDynamicMeshVertex) : FVector × FVector × FVector :=
  (v.TangentX, v.TangentY, v.TangentZ)

/-- Vertex `new` is vertex `old` after iteration `i` of the per-point loop:
position `(points[3i], points[3i+2], points[3i+1])`, the alpha of point `i` in
all four colour channels, the texture pair of point `i` in every channel, and
the tangent fields of `old`. -/
def PointWritten (pkt : FProceduralPackMeshRenderPacket) (old new : FDynamicMeshVertex)
    (i : Nat) : Prop :=
  ∃ px py pz a u v, pkt.points[3 * i]? = some px ∧
    pkt.points[3 * i + 2]? = some py ∧ pkt.points[3 * i + 1]? = some pz ∧
    pkt.region_alphas[i]? = some a ∧ pkt.uvs[2 * i]? = some u ∧
    pkt.uvs[2 * i + 1]? = some v ∧
    new = { old with
      Position := ⟨px, py, pz⟩,
      Color := ⟨a, a, a, a⟩,
      TextureCoordinate := List.replicate MAX_STATIC_TEXCOORDS ⟨u, v⟩ }

/-- Vertices `old` and `new` differ at most in their tangent fields. -/
def SameButTangents (old new : FDynamicMeshVertex) : Prop :=
  new.Position = old.Position ∧ new.Color = old.Color ∧
    new.TextureCoordinate = old.TextureCoordinate

/-- The raw `points` layout of a list of axis-remapped positions: point `p`
occupies three consecutive floats `p.X, p.Z, p.Y` (source index `y_id = 2`,
`z_id = 1`). -/
def flattenPoints : List FVector → List ℚ
  | [] => []
  | p :: ps => p.X :: p.Z :: p.Y :: flattenPoints ps

/-- The fixed fallback cube `(-100000,-100000,-100000)` to
`(100000,100000,100000)`. -/
def fallbackCube : FloatVector × FloatVector :=
  (⟨.finite (-100000), .finite (-100000), .finite (-100000)⟩,
   ⟨.finite 100000, .finite 100000, .finite 100000⟩)

/-- Spec wording of one component of the midpoint `c = (m + M) / 2`: the
`float` sum, halved. -/
def specMid (m M : ℚ) : FloatVal := ((FloatVal.finite m).add (.finite M)).mul (.finite (1 / 2))

/-- Spec wording of the midpoint `c = (m + M) / 2`, component by component. -/
def specMidpoint (m M : FVector) : FloatVector :=
  ⟨specMid m.X M.X, specMid m.Y M.Y, specMid m.Z M.Z⟩

/-- Spec wording of one component of a scaled corner `(p - c) * s + c`, in
`float` arithmetic. -/
def specScaled (p : ℚ) (c : FloatVal) (s : ℚ) : FloatVal :=
  (((FloatVal.finite p).sub c).mul (.finite s)).add c

/-- Spec wording of a scaled corner `(p - c) * s + c`, component by component. -/
def specScaledCorner (p : FVector) (c : FloatVector) (s : ℚ) : FloatVector :=
  ⟨specScaled p.X c.X s, specScaled p.Y c.Y s, specScaled p.Z c.Z s⟩

/-- Spec wording of the fallback condition: some component of either scaled
corner is `≤ -100000` or `≥ 100000`. -/
def SpecTouchesLimit (lo hi : FloatVector) : Prop :=
  ∃ x ∈ [lo.X, lo.Y, lo.Z, hi.X, hi.Y, hi.Z],
    x.le (.finite (-100000)) = true ∨ FloatVal.le (.finite 100000) x = true

instance (lo hi : FloatVector) : Decidable (SpecTouchesLimit lo hi) := by
  unfold SpecTouchesLimit
  infer_instance

/-- Spec wording of the cached bound for scanned corners `m`, `M` and scale
`s`: the corners scaled about the midpoint, or the fallback cube when a scaled
corner touches the limit. -/
def specBounds (s : ℚ) (m M : FVector) : FloatVector × FloatVector :=
  if SpecTouchesLimit (specScaledCorner m (specMidpoint m M) s)
      (specScaledCorner M (specMidpoint m M) s) then fallbackCube
  else (specScaledCorner m (specMidpoint m M) s, specScaledCorner M (specMidpoint m M) s)

/-- The points a snapshot is compared with once its single invalid point,
standing between `pre` and `post`, is taken out: the remaining points, headed
by the origin when the invalid point was the first one. -/
def remainingPoints (pre post : List FVector) : List FVector :=
  match pre with
  | [] => ⟨0, 0, 0⟩ :: post
  | p :: rest => (p :: rest) ++ post

/-- The proxy invariant of the data model: `activeIndex` is "none" or a valid
index into the packet sequence. -/
def ActiveIndexValid (proxy : FCProceduralPackMeshSceneProxy) : Prop :=
  proxy.active_render_packet_idx = INDEX_NONE ∨
    (0 ≤ proxy.active_render_packet_idx ∧
      proxy.active_render_packet_idx < (proxy.renderPackets.length : Int))

instance (proxy : FCProceduralPackMeshSceneProxy) : Decidable (ActiveIndexValid proxy) := by
  unfold ActiveIndexValid
  infer_instance

/-- Proxy states reachable from construction by `AddRenderPacket`,
`ResetAllRenderPackets` and `SetActiveRenderPacketIdx` calls; `guard p idx`
restricts the indices the callers pass to `SetActiveRenderPacketIdx` in
state `p`. -/
inductive Reachable (E : Engine) (guard : FCProceduralPackMeshSceneProxy → Int → Prop) :
    FCProceduralPackMeshSceneProxy → Prop
  | construct (targetTrisIn : Option FProceduralPackMeshTriData) (startColorIn : FColor)
      (p : FCProceduralPackMeshSceneProxy) :
      newSceneProxy E targetTrisIn startColorIn = some p → Reachable E guard p
  | add (p p' : FCProceduralPackMeshSceneProxy) (targetTrisIn : FProceduralPackMeshTriData)
      (startColorIn : FColor) :
      Reachable E guard p → AddRenderPacket E p targetTrisIn startColorIn = some p' →
      Reachable E guard p'
  | reset (p : FCProceduralPackMeshSceneProxy) :
      Reachable E guard p → Reachable E guard (ResetAllRenderPackets p)
  | setActive (p : FCProceduralPackMeshSceneProxy) (idxIn : Int) :
      Reachable E guard p → guard p idxIn → Reachable E guard (SetActiveRenderPacketIdx p idxIn)

/-- Callers may pass any integer to `SetActiveRenderPacketIdx`. -/
def anyIndex (_ : FCProceduralPackMeshSceneProxy) (_ : Int) : Prop := True

/-- No call of `SetActiveRenderPacketIdx` is made. -/
def noIndex (_ : FCProceduralPackMeshSceneProxy) (_ : Int) : Prop := False

/-- Vertex `new` is what iteration `i` of the "fill initial points" loop of
`AddRenderPacket` writes: the axis-remapped position of point `i`, the start
colour, the unit tangent basis and the texture pair of point `i` in every
channel. -/
def InitialPointWritten (pkt : FProceduralPackMeshRenderPacket) (startColorIn : FColor)
    (new : FDynamicMeshVertex) (i : Nat) : Prop :=
  ∃ px py pz u v, pkt.points[3 * i]? = some px ∧
    pkt.points[3 * i + 2]? = some py ∧ pkt.points[3 * i + 1]? = some pz ∧
    pkt.uvs[2 * i]? = some u ∧ pkt.uvs[2 * i + 1]? = some v ∧
    new = { Position := ⟨px, py, pz⟩
            TextureCoordinate := List.replicate MAX_STATIC_TEXCOORDS ⟨u, v⟩
            TangentX := ⟨1, 0, 0⟩
            TangentY := ⟨0, 1, 0⟩
            TangentZ := ⟨0, 0, 1⟩
            Color := startColorIn }

/-- Spec wording of one draw item for view `ViewIndex`: first index 0,
primitive count `realIndexCount / 3`, minimum vertex index 0 and maximum
vertex index `stagedVertexCount - 1`, the two computed values stored in
`uint32` fields. -/
def specDrawItem (realIndexCount stagedVertexCount : Int) (ViewIndex : Nat) :
    FMeshBatchElement :=
  { ViewIndex := ViewIndex
    FirstIndex := 0
    NumPrimitives := toUInt32 (Int.tdiv realIndexCount 3)
    MinVertexIndex := 0
    MaxVertexIndex := toUInt32 (stagedVertexCount - 1) }

/-- Spec wording of the draw batch: one draw item per view index below
`numViews` whose bit is set in the mask, in view order, none for the others. -/
def specDrawBatch (pkt : FProceduralPackMeshRenderPacket) (numViews VisibilityMap : Nat) :
    List FMeshBatchElement :=
  ((List.range numViews).filter (fun i => VisibilityMap.testBit i)).map
    (specDrawItem pkt.real_indices_num (pkt.VertexBufferVertices.length : Int))

/-- The proxy after the optional switch of `ForceAnUpdate` (lines 818-821):
the active index is set when `render_packet_idx >= 0`. -/
def proxyAfterSwitch (proxy : FCProceduralPackMeshSceneProxy) (render_packet_idx : Int) :
    FCProceduralPackMeshSceneProxy :=
  if render_packet_idx ≥ 0 then SetActiveRenderPacketIdx proxy render_packet_idx else proxy

/-- Dot product of two vectors. -/
def FVector.dot (a b : FVector) : ℚ := a.X * b.X + a.Y * b.Y + a.Z * b.Z

/-- Vector `r` is a scalar multiple of `v` of length 1, as a normalisation of
`v` returns for a non-zero `v`. -/
def IsUnitMultipleOf (r v : FVector) : Prop := ∃ k : ℚ, r = v.scale k ∧ r.dot r = 1

/-- The three vectors are mutually orthonormal: each has length 1 and every
pairwise dot product is 0. -/
def Orthonormal (a b c : FVector) : Prop :=
  a.dot a = 1 ∧ b.dot b = 1 ∧ c.dot c = 1 ∧ a.dot b = 0 ∧ a.dot c = 0 ∧ b.dot c = 0

instance (a b c : FVector) : Decidable (Orthonormal a b c) := by
  unfold Orthonormal
  infer_instance

/-! ## Sample data -/

/-- A sample engine: normalisation is the identity and uninitialised slots
hold zeros. -/
def sampleEngine : Engine :=
  { GetSafeNormal := fun v => v
    Uninitialized := fun _ =>
      { Position := ⟨0, 0, 0⟩
        TextureCoordinate := []
        TangentX := ⟨0, 0, 0⟩
        TangentY := ⟨0, 0, 0⟩
        TangentZ := ⟨0, 0, 0⟩
        Color := ⟨0, 0, 0, 0⟩ } }

/-- A sample snapshot: a quad of four points and two triangles sharing the
edge between points 1 and 2. -/
def sampleTriData : FProceduralPackMeshTriData :=
  { indices := [0, 1, 2, 2, 1, 3]
    points := [0, 0, 0, 1, 5, 0, 0, 6, 2, 1, 7, 2]
    uvs := [0, 0, 1, 0, 0, 1, 1, 1]
    point_num := 4
    indices_num := 6
    region_alphas := [255, 255, 128, 0] }

/-- A freshly bound packet for `sampleTriData`, before its first build. -/
def samplePacket : FProceduralPackMeshRenderPacket := bindTriData sampleTriData

/-- The sample packet with a vertex cache that already has four entries. -/
def sampleWarmPacket : FProceduralPackMeshRenderPacket :=
  { samplePacket with
    VertexCache := (List.range 4).map sampleEngine.Uninitialized
    VertexCacheResets := 1 }

/-- A component in its constructed state with the proxy marked ready. -/
def sampleComponent : UCustomPackProceduralMeshComponent :=
  { defaultTriData := sampleTriData
    bounds_scale := 1
    bounds_offset := ⟨0, 0, 0⟩
    render_proxy_ready := true
    recreate_render_proxy := false
    calc_local_vec_min := ⟨.finite FLT_MIN, .finite FLT_MIN, .finite FLT_MIN⟩
    calc_local_vec_max := ⟨.finite FLT_MAX, .finite FLT_MAX, .finite FLT_MAX⟩
    SceneProxy := none
    renderStateDirty := false
    renderTransformDirty := false
    renderDynamicDataDirty := false }

/-- A proxy whose only packet, the active one, refers to the given points. -/
def boundsProxy (pts : List ℚ) (n : Int) : FCProceduralPackMeshSceneProxy :=
  { emptyProxy with
    renderPackets := [{ samplePacket with points := pts, point_num := n }]
    active_render_packet_idx := 0 }

/-- A valid sample position. -/
def sampleValidA : FVector := ⟨1, 2, 3⟩

/-- Another valid sample position. -/
def sampleValidB : FVector := ⟨5, 5, 5⟩

/-- An invalid sample position: its first coordinate is `FLT_MAX`. -/
def sampleInvalidA : FVector := ⟨FLT_MAX, 0, 0⟩

/-- An invalid sample position: its last raw coordinate is `FLT_MIN`. -/
def sampleInvalidB : FVector := ⟨1, FLT_MIN, 2⟩

/-- A second sample snapshot: a single triangle. -/
def sampleTriData2 : FProceduralPackMeshTriData :=
  { indices := [0, 1, 2]
    points := [0, 0, 0, 3, 0, 0, 0, 0, 4]
    uvs := [0, 0, 1, 0, 0, 1]
    point_num := 3
    indices_num := 3
    region_alphas := [10, 20, 30] }

/-- A sample start colour. -/
def sampleColor : FColor := ⟨0, 0, 0, 0⟩

/-- The sample packet with four cached and four staged vertices. -/
def sampleStagedPacket : FProceduralPackMeshRenderPacket :=
  { sampleWarmPacket with
    VertexBufferVertices := (List.range 4).map sampleEngine.Uninitialized
    IndexBufferIndices := [0, 1, 2, 2, 1, 3] }

/-- A proxy whose only packet, the active one, is `sampleStagedPacket`. -/
def sampleProxy : FCProceduralPackMeshSceneProxy :=
  { emptyProxy with
    renderPackets := [sampleStagedPacket]
    active_render_packet_idx := 0 }

/-- The sample component owning `sampleProxy`. -/
def sampleReadyComponent : UCustomPackProceduralMeshComponent :=
  { sampleComponent with SceneProxy := some sampleProxy }

/-- A component whose stored snapshot has no points. -/
def sampleEmptyComponent : UCustomPackProceduralMeshComponent :=
  newComponent { sampleTriData with point_num := 0, indices_num := 0 }

/-- A snapshot of `715827883` points with arrays of exactly the declared
sizes and no triangles: the position index `3 * 715827882 + 2` of its last
point is `2 ^ 31`, one past the largest `int`. -/
def hugePacket : FProceduralPackMeshRenderPacket :=
  { indices := []
    points := List.replicate 2147483649 0
    uvs := List.replicate 1431655766 0
    point_num := 715827883
    indices_num := 0
    real_indices_num := 0
    region_alphas := List.replicate 715827883 0
    should_release := false
    VertexCache := []
    VertexBufferVertices := []
    IndexBufferIndices := []
    VertexCacheResets := 0 }

/-- A cache of three vertices at `(0,0,0)`, `(1,0,0)` and `(0,0,1)`: a right
triangle whose edges from the first vertex have length 1. -/
def unitTriangleCache : List FDynamicMeshVertex :=
  [{ sampleEngine.Uninitialized 0 with Position := ⟨0, 0, 0⟩ },
   { sampleEngine.Uninitialized 1 with Position := ⟨1, 0, 0⟩ },
   { sampleEngine.Uninitialized 2 with Position := ⟨0, 0, 1⟩ }]

/-! ## Loop lemmas -/

/-- Invariant rule for a fallible loop over `0, 1, ..., N-1`: the loop returns
and its result satisfies the invariant. -/
theorem foldlM_range_inv {α : Type} (f : α → Nat → Option α) (P : Nat → α → Prop)
    (a : α) (N : Nat) (h0 : P 0 a)
    (hstep : ∀ n c, n < N → P n c → ∃ c', f c n = some c' ∧ P (n + 1) c') :
    ∃ c', (List.range N).foldlM f a = some c' ∧ P N c' := by
  induction N with
  | zero => exact ⟨a, by simp, h0⟩
  | succ k ih =>
    obtain ⟨c, hc, hP⟩ := ih (fun n c hn hp => hstep n c (Nat.lt_succ_of_lt hn) hp)
    obtain ⟨c', hc', hP'⟩ := hstep k c (Nat.lt_succ_self k) hP
    refine ⟨c', ?_, hP'⟩
    rw [List.range_succ, List.foldlM_append, hc]
    simp [hc']

/-- One iteration of the per-point loop succeeds on in-range data and writes
the axis-remapped position, the replicated alpha and the texture coordinates. -/
theorem pointStep_eq (pkt : FProceduralPackMeshRenderPacket)
    (cache : List FDynamicMeshVertex) (i : Nat)
    (hc : i < cache.length) (hp : 3 * i + 2 < pkt.points.length)
    (ha : i < pkt.region_alphas.length) (hu : 2 * i + 1 < pkt.uvs.length)
    (h32 : 3 * i + 2 < 2 ^ 31) :
    ∃ old px py pz a u v, cache[i]? = some old ∧ pkt.points[3 * i]? = some px ∧
      pkt.points[3 * i + 2]? = some py ∧ pkt.points[3 * i + 1]? = some pz ∧
      pkt.region_alphas[i]? = some a ∧ pkt.uvs[2 * i]? = some u ∧
      pkt.uvs[2 * i + 1]? = some v ∧
      pointStep pkt cache i = some (cache.set i { old with
        Position := ⟨px, py, pz⟩,
        Color := ⟨a, a, a, a⟩,
        TextureCoordinate := List.replicate MAX_STATIC_TEXCOORDS ⟨u, v⟩ }) := by
  have h0 : 3 * i < pkt.points.length := by omega
  have h1 : 3 * i + 1 < pkt.points.length := by omega
  have hu0 : 2 * i < pkt.uvs.length := by omega
  refine ⟨cache[i], pkt.points[3 * i], pkt.points[3 * i + 2], pkt.points[3 * i + 1],
    pkt.region_alphas[i], pkt.uvs[2 * i], pkt.uvs[2 * i + 1],
    List.getElem?_eq_getElem hc, List.getElem?_eq_getElem h0, List.getElem?_eq_getElem hp,
    List.getElem?_eq_getElem h1, List.getElem?_eq_getElem ha, List.getElem?_eq_getElem hu0,
    List.getElem?_eq_getElem hu, ?_⟩
  have w0 : wrapInt32 ((i : Int) * 3) = ((3 * i : Nat) : Int) := by
    unfold wrapInt32
    omega
  have w1 : wrapInt32 ((i : Int) * 2) = ((2 * i : Nat) : Int) := by
    unfold wrapInt32
    omega
  have e0 : wrapInt32 (((3 * i : Nat) : Int) + (x_id : Nat)) = ((3 * i : Nat) : Int) := by
    unfold wrapInt32 x_id
    omega
  have e1 : wrapInt32 (((3 * i : Nat) : Int) + (y_id : Nat)) = ((3 * i + 2 : Nat) : Int) := by
    unfold wrapInt32 y_id
    omega
  have e2 : wrapInt32 (((3 * i : Nat) : Int) + (z_id : Nat)) = ((3 * i + 1 : Nat) : Int) := by
    unfold wrapInt32 z_id
    omega
  have e3 : wrapInt32 (((2 * i : Nat) : Int) + 1) = ((2 * i + 1 : Nat) : Int) := by
    unfold wrapInt32
    omega
  have r : ∀ {α : Type} (l : List α) (n : Nat), readAt l (n : Int) = l[n]? := by
    intro α l n
    unfold readAt
    rw [if_neg (by omega), Int.toNat_ofNat]
  simp only [pointStep, w0, w1, e0, e1, e2, e3, r, List.getElem?_eq_getElem hc,
    List.getElem?_eq_getElem h0, List.getElem?_eq_getElem hp, List.getElem?_eq_getElem h1,
    List.getElem?_eq_getElem ha, List.getElem?_eq_getElem hu0, List.getElem?_eq_getElem hu]
  rfl

/-- The per-point loop returns on in-range data; it keeps the cache length and
rewrites every entry as `PointWritten` describes. -/
theorem pointLoop_spec (pkt : FProceduralPackMeshRenderPacket)
    (cache : List FDynamicMeshVertex)
    (hc : cache.length = pkt.point_num.toNat)
    (hp : 3 * pkt.point_num.toNat ≤ pkt.points.length)
    (ha : pkt.point_num.toNat ≤ pkt.region_alphas.length)
    (hu : 2 * pkt.point_num.toNat ≤ pkt.uvs.length)
    (h32 : 3 * pkt.point_num.toNat ≤ 2 ^ 31) :
    ∃ cache', pointLoop pkt cache = some cache' ∧ cache'.length = cache.length ∧
      ∀ i, i < cache.length → ∃ old new, cache[i]? = some old ∧ cache'[i]? = some new ∧
        PointWritten pkt old new i := by
  have key := foldlM_range_inv (pointStep pkt)
    (fun n cur => cur.length = cache.length ∧
      (∀ i, i < n → ∃ old new, cache[i]? = some old ∧ cur[i]? = some new ∧
        PointWritten pkt old new i) ∧
      (∀ i, n ≤ i → cur[i]? = cache[i]?))
    cache pkt.point_num.toNat ⟨rfl, fun i hi => absurd hi (Nat.not_lt_zero i), fun _ _ => rfl⟩
    (by
      intro n c hn ⟨hlen, hdone, hrest⟩
      obtain ⟨old, px, py, pz, a, u, v, hold, h0, h2, h1, hal, hu0, hu1, hstep⟩ :=
        pointStep_eq pkt c n (by omega) (by omega) (by omega) (by omega) (by omega)
      refine ⟨_, hstep, by simp [hlen], ?_, ?_⟩
      · intro i hi
        rcases Nat.lt_succ_iff_lt_or_eq.mp hi with hlt | heq
        · obtain ⟨o, nw, ho, hn', hw⟩ := hdone i hlt
          exact ⟨o, nw, ho, by rw [List.getElem?_set_ne (by omega)]; exact hn', hw⟩
        · subst heq
          refine ⟨old, _, ?_, List.getElem?_set_self (by omega), px, py, pz, a, u, v,
            h0, h2, h1, hal, hu0, hu1, rfl⟩
          rw [← hrest i (le_refl i)]; exact hold
      · intro i hi
        rw [List.getElem?_set_ne (by omega)]
        exact hrest i (by omega))
  obtain ⟨c', hc', hlen, hdone, _⟩ := key
  exact ⟨c', hc', hlen, fun i hi => hdone i (by omega)⟩

/-- Binding a vertex read to a function of its position only depends on the
position read. -/
theorem bind_position_congr {β : Type} (a b : Option FDynamicMeshVertex)
    (F G : FVector → Option β)
    (h : a.map (fun v => v.Position) = b.map (fun v => v.Position))
    (hFG : ∀ p, F p = G p) :
    (a.bind fun v => F v.Position) = (b.bind fun v => G v.Position) := by
  cases a <;> cases b <;> simp_all

/-- The basis of a triangle depends on the cache only through the positions. -/
theorem triangleBasisAt_congr (E : Engine) (indices : List Nat)
    (c1 c2 : List FDynamicMeshVertex) (t : Nat)
    (h : ∀ j : Nat, (c1[j]?).map (fun v => v.Position) = (c2[j]?).map (fun v => v.Position)) :
    triangleBasisAt E indices c1 t = triangleBasisAt E indices c2 t := by
  unfold triangleBasisAt
  cases h0 : indices[3 * t]? with
  | none => rfl
  | some i0 =>
    cases h1 : indices[3 * t + 1]? with
    | none => rfl
    | some i1 =>
      cases h2 : indices[3 * t + 2]? with
      | none => rfl
      | some i2 =>
        show (c1[i0]?.bind fun v0 => (fun p0 => c1[i1]?.bind fun v1 =>
            (fun p1 => c1[i2]?.bind fun v2 =>
              (fun p2 => some (triangleBasis E p0 p1 p2)) v2.Position) v1.Position) v0.Position)
          = (c2[i0]?.bind fun v0 => (fun p0 => c2[i1]?.bind fun v1 =>
            (fun p1 => c2[i2]?.bind fun v2 =>
              (fun p2 => some (triangleBasis E p0 p1 p2)) v2.Position) v1.Position) v0.Position)
        exact bind_position_congr _ _
          (fun p0 => c1[i1]?.bind fun v1 => (fun p1 => c1[i2]?.bind fun v2 =>
            (fun p2 => some (triangleBasis E p0 p1 p2)) v2.Position) v1.Position)
          (fun p0 => c2[i1]?.bind fun v1 => (fun p1 => c2[i2]?.bind fun v2 =>
            (fun p2 => some (triangleBasis E p0 p1 p2)) v2.Position) v1.Position)
          (h i0) (fun p0 =>
          bind_position_congr _ _
            (fun p1 => c1[i2]?.bind fun v2 =>
              (fun p2 => some (triangleBasis E p0 p1 p2)) v2.Position)
            (fun p1 => c2[i2]?.bind fun v2 =>
              (fun p2 => some (triangleBasis E p0 p1 p2)) v2.Position)
            (h i1) (fun p1 =>
            bind_position_congr _ _ (fun p2 => some (triangleBasis E p0 p1 p2))
              (fun p2 => some (triangleBasis E p0 p1 p2)) (h i2) (fun p2 => rfl)))

/-- One iteration of the per-triangle loop succeeds when the three indices of
triangle `t` are in range; it stores the basis of triangle `t` at the three
corners and leaves every other entry alone. -/
theorem tangentStep_eq (E : Engine) (indices : List Nat)
    (cache : List FDynamicMeshVertex) (t : Nat)
    (hidx : ∀ k, k < 3 → ∃ v, indices[3 * t + k]? = some v ∧ v < cache.length) :
    ∃ cache' T, tangentStep E indices cache (3 * t) = some cache' ∧
      triangleBasisAt E indices cache t = some T ∧
      cache'.length = cache.length ∧
      ∀ j old, cache[j]? = some old →
        (triangleUses indices t j → cache'[j]? = some (old.SetTangents T.1 T.2.1 T.2.2)) ∧
        (¬ triangleUses indices t j → cache'[j]? = some old) := by
  obtain ⟨i0, h0, l0⟩ := hidx 0 (by omega)
  obtain ⟨i1, h1, l1⟩ := hidx 1 (by omega)
  obtain ⟨i2, h2, l2⟩ := hidx 2 (by omega)
  simp only [Nat.add_zero] at h0
  have g0 := List.getElem?_eq_getElem l0
  have g1 := List.getElem?_eq_getElem l1
  have g2 := List.getElem?_eq_getElem l2
  have hT : triangleBasisAt E indices cache t =
      some (triangleBasis E cache[i0].Position cache[i1].Position cache[i2].Position) := by
    simp [triangleBasisAt, h0, h1, h2, g0, g1, g2]
  have hS : ∃ r, tangentStep E indices cache (3 * t) = some r ∧
      r = ((cache.set i0 (cache[i0].SetTangents
        (triangleBasis E cache[i0].Position cache[i1].Position cache[i2].Position).1
        (triangleBasis E cache[i0].Position cache[i1].Position cache[i2].Position).2.1
        (triangleBasis E cache[i0].Position cache[i1].Position cache[i2].Position).2.2)).set i1
        (cache[i1].SetTangents
        (triangleBasis E cache[i0].Position cache[i1].Position cache[i2].Position).1
        (triangleBasis E cache[i0].Position cache[i1].Position cache[i2].Position).2.1
        (triangleBasis E cache[i0].Position cache[i1].Position cache[i2].Position).2.2)).set i2
        (cache[i2].SetTangents
        (triangleBasis E cache[i0].Position cache[i1].Position cache[i2].Position).1
        (triangleBasis E cache[i0].Position cache[i1].Position cache[i2].Position).2.1
        (triangleBasis E cache[i0].Position cache[i1].Position cache[i2].Position).2.2) := by
    refine ⟨_, ?_, rfl⟩
    simp [tangentStep, h0, h1, h2, g0, g1, g2]
  obtain ⟨r, hr, hreq⟩ := hS
  refine ⟨r, _, hr, hT, ?_, ?_⟩
  · simp [hreq]
  subst hreq
  intro j old hj
  simp only [triangleUses, h0, h1, h2, Option.some.injEq]
  constructor
  · intro huse
    by_cases e2 : i2 = j
    · subst e2
      rw [List.getElem?_set_self (by simpa using l2)]
      rw [g2] at hj
      simp only [Option.some.injEq] at hj
      rw [hj]
    · rw [List.getElem?_set_ne e2]
      by_cases e1 : i1 = j
      · subst e1
        rw [List.getElem?_set_self (by simpa using l1)]
        rw [g1] at hj
        simp only [Option.some.injEq] at hj
        rw [hj]
      · rw [List.getElem?_set_ne e1]
        have e0 : i0 = j := by
          rcases huse with h | h | h
          · exact h
          · exact absurd h e1
          · exact absurd h e2
        subst e0
        rw [List.getElem?_set_self l0]
        rw [g0] at hj
        simp only [Option.some.injEq] at hj
        rw [hj]
  · intro hno
    have n0 : i0 ≠ j := fun h => hno (Or.inl h)
    have n1 : i1 ≠ j := fun h => hno (Or.inr (Or.inl h))
    have n2 : i2 ≠ j := fun h => hno (Or.inr (Or.inr h))
    rw [List.getElem?_set_ne n2, List.getElem?_set_ne n1, List.getElem?_set_ne n0]
    exact hj

/-- Positions agree entry by entry when every entry differs at most in its
tangent fields. -/
theorem position_eq_of_same (cache cur : List FDynamicMeshVertex)
    (hlen : cur.length = cache.length)
    (h : ∀ (j : Nat) old, cache[j]? = some old →
      ∃ new, cur[j]? = some new ∧ SameButTangents old new) (j : Nat) :
    (cur[j]?).map (fun v => v.Position) = (cache[j]?).map (fun v => v.Position) := by
  cases hc : cache[j]? with
  | none =>
    have hj : cur.length ≤ j := by
      rw [hlen]
      exact List.getElem?_eq_none_iff.mp hc
    rw [List.getElem?_eq_none hj]
  | some old =>
    obtain ⟨new, hn, hs⟩ := h j old hc
    rw [hn]
    simp [hs.1]

/-- The per-triangle loop returns when all indices it reads are in range.  It
changes tangent fields only, leaves untouched every vertex no triangle uses,
and a vertex used by some triangle ends with the basis of the last triangle
that uses it. -/
theorem tangentLoop_spec (E : Engine) (indices : List Nat) (indices_num : Int)
    (cache : List FDynamicMeshVertex)
    (hidx : ∀ k, k < 3 * triangleIterations indices_num →
      ∃ v, indices[k]? = some v ∧ v < cache.length) :
    ∃ cache', tangentLoop E indices indices_num cache = some cache' ∧
      cache'.length = cache.length ∧
      ∀ (j : Nat) old, cache[j]? = some old → ∃ new, cache'[j]? = some new ∧
        SameButTangents old new ∧
        ((∀ t, t < triangleIterations indices_num → ¬ triangleUses indices t j) → new = old) ∧
        (∀ t, t < triangleIterations indices_num → triangleUses indices t j →
          (∀ t', t < t' → t' < triangleIterations indices_num → ¬ triangleUses indices t' j) →
          triangleBasisAt E indices cache t = some (tangentsOf new)) := by
  unfold tangentLoop
  refine foldlM_range_inv (fun cur k => tangentStep E indices cur (3 * k))
    (fun n cur => cur.length = cache.length ∧
      ∀ (j : Nat) old, cache[j]? = some old → ∃ new, cur[j]? = some new ∧
        SameButTangents old new ∧
        ((∀ t, t < n → ¬ triangleUses indices t j) → new = old) ∧
        (∀ t, t < n → triangleUses indices t j →
          (∀ t', t < t' → t' < n → ¬ triangleUses indices t' j) →
          triangleBasisAt E indices cache t = some (tangentsOf new)))
    cache (triangleIterations indices_num) ?_ ?_
  · refine ⟨rfl, fun j old hj => ⟨old, hj, ⟨rfl, rfl, rfl⟩, fun _ => rfl, ?_⟩⟩
    intro t ht
    exact absurd ht (Nat.not_lt_zero t)
  · intro n cur hn ⟨hlen, hinv⟩
    obtain ⟨cur', T, hstep, hT, hlen', hupd⟩ := tangentStep_eq E indices cur n (by
      intro k hk
      obtain ⟨v, hv, hvl⟩ := hidx (3 * n + k) (by omega)
      exact ⟨v, hv, by omega⟩)
    have hpos := position_eq_of_same cache cur hlen
      (fun j old hj => by
        obtain ⟨new, h1, h2, _⟩ := hinv j old hj
        exact ⟨new, h1, h2⟩)
    have hT' : triangleBasisAt E indices cache n = some T := by
      rw [← triangleBasisAt_congr E indices cur cache n hpos]
      exact hT
    refine ⟨cur', hstep, by omega, ?_⟩
    intro j old hj
    obtain ⟨new, hnew, hsame, hunused, hlast⟩ := hinv j old hj
    by_cases huse : triangleUses indices n j
    · refine ⟨_, (hupd j new hnew).1 huse, hsame, ?_, ?_⟩
      · intro hno
        exact absurd huse (hno n (Nat.lt_succ_self n))
      · intro t ht hut hlater
        have htn : t = n := by
          by_contra hne
          exact hlater n (by omega) (Nat.lt_succ_self n) huse
        subst htn
        rw [hT']
        rfl
    · refine ⟨new, (hupd j new hnew).2 huse, hsame, ?_, ?_⟩
      · intro hno
        exact hunused (fun t ht => hno t (Nat.lt_succ_of_lt ht))
      · intro t ht hut hlater
        have htn : t < n := by
          rcases Nat.lt_succ_iff_lt_or_eq.mp ht with h | h
          · exact h
          · subst h
            exact absurd hut huse
        exact hlast t htn hut (fun t' h1 h2 => hlater t' h1 (Nat.lt_succ_of_lt h2))

/-- Consequences of `WellFormed` in terms of natural numbers. -/
theorem WellFormed.nat_bounds {pkt : FProceduralPackMeshRenderPacket} (h : WellFormed pkt) :
    (pkt.point_num.toNat : Int) = pkt.point_num ∧
    3 * pkt.point_num.toNat ≤ pkt.points.length ∧
    2 * pkt.point_num.toNat ≤ pkt.uvs.length ∧
    pkt.point_num.toNat ≤ pkt.region_alphas.length ∧
    3 * triangleIterations pkt.indices_num = pkt.indices_num.toNat ∧
    ∀ k, k < 3 * triangleIterations pkt.indices_num →
      ∃ v, pkt.indices[k]? = some v ∧ v < pkt.point_num.toNat := by
  obtain ⟨h1, h2, h3, h4, h5, h6, h7, h8, _⟩ := h
  have e : 3 * triangleIterations pkt.indices_num = pkt.indices_num.toNat := by
    unfold triangleIterations
    omega
  refine ⟨by omega, by omega, by omega, by omega, e, ?_⟩
  intro k hk
  have hkl : k < pkt.indices.length := by omega
  refine ⟨pkt.indices[k], List.getElem?_eq_getElem hkl, ?_⟩
  have hmem : pkt.indices[k] ∈ pkt.indices.take pkt.indices_num.toNat := by
    rw [List.mem_take_iff_getElem]
    exact ⟨k, by simp; omega, rfl⟩
  have := h8 _ hmem
  omega

/-- The position indices of a well-formed packet are `int` values. -/
theorem WellFormed.int32_bound {pkt : FProceduralPackMeshRenderPacket} (h : WellFormed pkt) :
    3 * pkt.point_num.toNat ≤ 2 ^ 31 := by
  obtain ⟨h1, _, _, _, _, _, _, _, h9⟩ := h
  omega

/-- The resize step on a non-negative point count: it returns, the cache has
`point_num` entries afterwards, and the packet is untouched when the cache
already had that length. -/
theorem resizeVertexCache_spec (E : Engine) (pkt : FProceduralPackMeshRenderPacket)
    (h0 : 0 ≤ pkt.point_num) :
    ∃ pkt1, resizeVertexCache E pkt = some pkt1 ∧
      pkt1.VertexCache.length = pkt.point_num.toNat ∧
      ((pkt.VertexCache.length : Int) = pkt.point_num → pkt1 = pkt) ∧
      ((pkt.VertexCache.length : Int) ≠ pkt.point_num → pkt1 = { pkt with
        VertexCache := (List.range pkt.point_num.toNat).map E.Uninitialized,
        VertexCacheResets := pkt.VertexCacheResets + 1 }) := by
  unfold resizeVertexCache
  by_cases hlen : (pkt.VertexCache.length : Int) = pkt.point_num
  · refine ⟨pkt, by simp [hlen], by omega, fun _ => rfl, fun h => absurd hlen h⟩
  · refine ⟨_, by simp [hlen, not_lt.mpr h0], by simp, fun h => absurd h hlen, fun _ => rfl⟩

/-- The resize step never changes the source arrays or the counts. -/
theorem resizeVertexCache_fields (E : Engine) (pkt pkt1 : FProceduralPackMeshRenderPacket)
    (h : resizeVertexCache E pkt = some pkt1) :
    pkt1.indices = pkt.indices ∧ pkt1.points = pkt.points ∧ pkt1.uvs = pkt.uvs ∧
    pkt1.point_num = pkt.point_num ∧ pkt1.indices_num = pkt.indices_num ∧
    pkt1.real_indices_num = pkt.real_indices_num ∧
    pkt1.region_alphas = pkt.region_alphas ∧ pkt1.should_release = pkt.should_release ∧
    pkt1.VertexBufferVertices = pkt.VertexBufferVertices ∧
    pkt1.IndexBufferIndices = pkt.IndexBufferIndices := by
  unfold resizeVertexCache at h
  split at h
  · split at h
    · exact absurd h (by simp)
    · simp only [Option.some.injEq] at h
      subst h
      exact ⟨rfl, rfl, rfl, rfl, rfl, rfl, rfl, rfl, rfl, rfl⟩
  · simp only [Option.some.injEq] at h
    subst h
    exact ⟨rfl, rfl, rfl, rfl, rfl, rfl, rfl, rfl, rfl, rfl⟩

/-- Full description of `CreateDirectVertexData` on a well-formed packet: it
returns; the result is the resized packet with a new cache of `point_num`
entries; entry `j` is the resized cache's entry rewritten by the per-point
loop, then given the basis of the last triangle using `j`, if any. -/
theorem CreateDirectVertexData_spec (E : Engine) (pkt : FProceduralPackMeshRenderPacket)
    (hwf : WellFormed pkt) :
    ∃ pkt1 cache', resizeVertexCache E pkt = some pkt1 ∧
      CreateDirectVertexData E pkt = some { pkt1 with VertexCache := cache' } ∧
      pkt1.VertexCache.length = pkt.point_num.toNat ∧
      cache'.length = pkt.point_num.toNat ∧
      ∀ j, j < pkt.point_num.toNat → ∃ old mid new,
        pkt1.VertexCache[j]? = some old ∧ PointWritten pkt old mid j ∧
        cache'[j]? = some new ∧ SameButTangents mid new ∧
        ((∀ t, t < triangleIterations pkt.indices_num → ¬ triangleUses pkt.indices t j) →
          new = mid) ∧
        (∀ t, t < triangleIterations pkt.indices_num → triangleUses pkt.indices t j →
          (∀ t', t < t' → t' < triangleIterations pkt.indices_num →
            ¬ triangleUses pkt.indices t' j) →
          triangleBasisAt E pkt.indices cache' t = some (tangentsOf new)) := by
  obtain ⟨hN, hp, hu, ha, _, hidx⟩ := hwf.nat_bounds
  obtain ⟨pkt1, hres, hlen1, _, _⟩ := resizeVertexCache_spec E pkt hwf.1
  obtain ⟨fi, fp, fu, fn, fm, _, fa, _⟩ := resizeVertexCache_fields E pkt pkt1 hres
  obtain ⟨cache1, hloop1, hlen2, hpts⟩ := pointLoop_spec pkt1 pkt1.VertexCache
    (by rw [fn]; exact hlen1) (by rw [fn, fp]; exact hp) (by rw [fn, fa]; exact ha)
    (by rw [fn, fu]; exact hu) (by rw [fn]; exact hwf.int32_bound)
  obtain ⟨cache2, hloop2, hlen3, htan⟩ := tangentLoop_spec E pkt1.indices pkt1.indices_num cache1
    (by
      intro k hk
      rw [fm] at hk
      obtain ⟨v, hv, hvl⟩ := hidx k hk
      exact ⟨v, by rw [fi]; exact hv, by omega⟩)
  have hpos := position_eq_of_same cache1 cache2 hlen3
    (fun j old hj => by
      obtain ⟨new, h1, h2, _⟩ := htan j old hj
      exact ⟨new, h1, h2⟩)
  refine ⟨pkt1, cache2, hres, ?_, hlen1, by omega, ?_⟩
  · simp [CreateDirectVertexData, hres, hloop1, hloop2]
  · intro j hj
    obtain ⟨old, mid, hold, hmid, hw⟩ := hpts j (by omega)
    obtain ⟨new, hnew, hsame, hunused, hlast⟩ := htan j mid hmid
    refine ⟨old, mid, new, hold, ?_, hnew, hsame, ?_, ?_⟩
    · obtain ⟨px, py, pz, a, u, v, h0, h2, h1, hal, hu0, hu1, heq⟩ := hw
      exact ⟨px, py, pz, a, u, v, by rw [← fp]; exact h0, by rw [← fp]; exact h2,
        by rw [← fp]; exact h1, by rw [← fa]; exact hal, by rw [← fu]; exact hu0,
        by rw [← fu]; exact hu1, heq⟩
    · intro hno
      exact hunused (by rw [fm, fi]; exact hno)
    · intro t ht hut hlater
      rw [triangleBasisAt_congr E pkt.indices cache2 cache1 t hpos, ← fi]
      exact hlast t (by rw [fm]; exact ht) (by rw [fi]; exact hut)
        (by rw [fm, fi]; exact hlater)

/-! ## Render packet claims -/

/-- C1: on a well-formed packet the build returns, and for every point
`i < point_num` the position stored in vertex-cache entry `i` is
`(points[3i], points[3i+2], points[3i+1])`, which is also the triple
`(posX, posY, posZ)` the bounds scan reads for point `i`. -/
theorem axis_remap_consistent (E : Engine) (pkt : FProceduralPackMeshRenderPacket)
    (hwf : WellFormed pkt) (i : Nat) (hi : (i : Int) < pkt.point_num) :
    ∃ pkt' vert px py pz, CreateDirectVertexData E pkt = some pkt' ∧
      pkt'.VertexCache[i]? = some vert ∧
      pkt.points[3 * i]? = some px ∧ pkt.points[3 * i + 2]? = some py ∧
      pkt.points[3 * i + 1]? = some pz ∧
      vert.Position = ⟨px, py, pz⟩ ∧
      boundsPoint pkt.points i = some vert.Position := by
  obtain ⟨pkt1, cache', _, hrun, _, _, hall⟩ := CreateDirectVertexData_spec E pkt hwf
  obtain ⟨old, mid, new, _, ⟨px, py, pz, a, u, v, h0, h2, h1, _, _, _, hmid⟩, hnew, hsame, _⟩ :=
    hall i (by omega)
  have hpos : new.Position = ⟨px, py, pz⟩ := by rw [hsame.1, hmid]
  refine ⟨_, new, px, py, pz, hrun, hnew, h0, h2, h1, hpos, ?_⟩
  have e0 : i * 3 + x_id = 3 * i := by simp [x_id]; omega
  have e1 : i * 3 + y_id = 3 * i + 2 := by simp [y_id]; omega
  have e2 : i * 3 + z_id = 3 * i + 1 := by simp [z_id]; omega
  simp [boundsPoint, e0, e1, e2, h0, h1, h2, hpos]

/-- Witness for C1 on the sample packet, point 2. -/
theorem axis_remap_consistent_witness :
    ∃ pkt' vert px py pz, CreateDirectVertexData sampleEngine samplePacket = some pkt' ∧
      pkt'.VertexCache[2]? = some vert ∧
      samplePacket.points[3 * 2]? = some px ∧ samplePacket.points[3 * 2 + 2]? = some py ∧
      samplePacket.points[3 * 2 + 1]? = some pz ∧
      vert.Position = ⟨px, py, pz⟩ ∧
      boundsPoint samplePacket.points 2 = some vert.Position :=
  axis_remap_consistent sampleEngine samplePacket (by decide) 2 (by decide)

/-- C3: last triangle wins.  On a well-formed packet, if triangle `t` uses
vertex `v` and no later triangle does, then after the build the tangent basis
stored at vertex-cache entry `v` is the basis of triangle `t`, computed from
the positions of the final cache. -/
theorem last_triangle_wins (E : Engine) (pkt : FProceduralPackMeshRenderPacket)
    (hwf : WellFormed pkt) (v t : Nat)
    (ht : t < triangleIterations pkt.indices_num)
    (huse : triangleUses pkt.indices t v)
    (hlast : ∀ t', t < t' → t' < triangleIterations pkt.indices_num →
      ¬ triangleUses pkt.indices t' v) :
    ∃ pkt' vert, CreateDirectVertexData E pkt = some pkt' ∧
      pkt'.VertexCache[v]? = some vert ∧
      triangleBasisAt E pkt.indices pkt'.VertexCache t = some (tangentsOf vert) := by
  obtain ⟨_, _, _, _, _, hidx⟩ := hwf.nat_bounds
  have hv : v < pkt.point_num.toNat := by
    rcases huse with h | h | h
    · obtain ⟨w, hw, hwl⟩ := hidx (3 * t) (by omega)
      rw [h] at hw
      simp only [Option.some.injEq] at hw
      omega
    · obtain ⟨w, hw, hwl⟩ := hidx (3 * t + 1) (by omega)
      rw [h] at hw
      simp only [Option.some.injEq] at hw
      omega
    · obtain ⟨w, hw, hwl⟩ := hidx (3 * t + 2) (by omega)
      rw [h] at hw
      simp only [Option.some.injEq] at hw
      omega
  obtain ⟨pkt1, cache', _, hrun, _, _, hall⟩ := CreateDirectVertexData_spec E pkt hwf
  obtain ⟨old, mid, new, _, _, hnew, _, _, hl⟩ := hall v hv
  exact ⟨_, new, hrun, hnew, hl t ht huse hlast⟩

/-- Witness for C3 on the sample packet: vertex 2 is used by both triangles
and ends with the basis of triangle 1. -/
theorem last_triangle_wins_witness :
    ∃ pkt' vert, CreateDirectVertexData sampleEngine samplePacket = some pkt' ∧
      pkt'.VertexCache[2]? = some vert ∧
      triangleBasisAt sampleEngine samplePacket.indices pkt'.VertexCache 1
        = some (tangentsOf vert) :=
  last_triangle_wins sampleEngine samplePacket (by decide) 2 1 (by decide) (by decide)
    (fun t' h1 h2 => by
      have : triangleIterations samplePacket.indices_num = 2 := by decide
      omega)

/-- C4: on a well-formed packet with `point_num > 0` the build returns and the
vertex cache has exactly `point_num` entries, so the `check` of
`UpdateDirectVertexData` passes.  When the cache already had `point_num`
entries the resize branch is not taken: the resize step returns the packet
itself and the reset counter is unchanged; otherwise the branch runs once. -/
theorem cache_length_and_no_realloc (E : Engine) (pkt : FProceduralPackMeshRenderPacket)
    (hwf : WellFormed pkt) (hN : 0 < pkt.point_num) :
    ∃ pkt', CreateDirectVertexData E pkt = some pkt' ∧
      (pkt'.VertexCache.length : Int) = pkt.point_num ∧
      UpdateDirectVertexData pkt' = some { pkt' with VertexBufferVertices := pkt'.VertexCache } ∧
      ((pkt.VertexCache.length : Int) = pkt.point_num →
        resizeVertexCache E pkt = some pkt ∧
        pkt'.VertexCacheResets = pkt.VertexCacheResets) ∧
      ((pkt.VertexCache.length : Int) ≠ pkt.point_num →
        pkt'.VertexCacheResets = pkt.VertexCacheResets + 1) := by
  obtain ⟨hcast, _⟩ := hwf.nat_bounds
  obtain ⟨pkt1, cache', hres, hrun, _, hlen, _⟩ := CreateDirectVertexData_spec E pkt hwf
  obtain ⟨pkt2, hres2, _, hsame, hdiff⟩ := resizeVertexCache_spec E pkt (le_of_lt hN)
  have h12 : pkt1 = pkt2 := by
    rw [hres] at hres2
    exact Option.some.inj hres2
  subst h12
  obtain ⟨_, _, _, fn, _⟩ := resizeVertexCache_fields E pkt pkt1 hres
  have hl : ((cache'.length : Nat) : Int) = pkt.point_num := by omega
  refine ⟨_, hrun, hl, ?_, ?_, ?_⟩
  · simp [UpdateDirectVertexData, hl, fn]
  · intro h
    have := hsame h
    subst this
    exact ⟨hres, rfl⟩
  · intro h
    rw [hdiff h]

/-- Witness for C4 on the sample packet with a cache of the right length. -/
theorem cache_length_and_no_realloc_witness :
    ∃ pkt', CreateDirectVertexData sampleEngine sampleWarmPacket = some pkt' ∧
      (pkt'.VertexCache.length : Int) = sampleWarmPacket.point_num ∧
      UpdateDirectVertexData pkt' = some { pkt' with VertexBufferVertices := pkt'.VertexCache } ∧
      ((sampleWarmPacket.VertexCache.length : Int) = sampleWarmPacket.point_num →
        resizeVertexCache sampleEngine sampleWarmPacket = some sampleWarmPacket ∧
        pkt'.VertexCacheResets = sampleWarmPacket.VertexCacheResets) ∧
      ((sampleWarmPacket.VertexCache.length : Int) ≠ sampleWarmPacket.point_num →
        pkt'.VertexCacheResets = sampleWarmPacket.VertexCacheResets + 1) :=
  cache_length_and_no_realloc sampleEngine sampleWarmPacket (by decide) (by decide)

/-! ## Scene proxy lemmas -/

/-- The predicate `WellFormed` only looks at the source arrays and the two counts. -/
theorem WellFormed.congr {a b : FProceduralPackMeshRenderPacket} (h : WellFormed a)
    (hi : b.indices = a.indices) (hp : b.points = a.points) (hu : b.uvs = a.uvs)
    (hn : b.point_num = a.point_num) (hm : b.indices_num = a.indices_num)
    (ha : b.region_alphas = a.region_alphas) : WellFormed b := by
  unfold WellFormed at h ⊢
  rw [hi, hp, hu, hn, hm, ha]
  exact h

/-- A successful build keeps the source arrays, the counts and the staged
buffers of the packet. -/
theorem CreateDirectVertexData_fields (E : Engine) (pkt pkt' : FProceduralPackMeshRenderPacket)
    (h : CreateDirectVertexData E pkt = some pkt') :
    pkt'.indices = pkt.indices ∧ pkt'.points = pkt.points ∧ pkt'.uvs = pkt.uvs ∧
    pkt'.point_num = pkt.point_num ∧ pkt'.indices_num = pkt.indices_num ∧
    pkt'.real_indices_num = pkt.real_indices_num ∧
    pkt'.region_alphas = pkt.region_alphas ∧ pkt'.should_release = pkt.should_release ∧
    pkt'.VertexBufferVertices = pkt.VertexBufferVertices ∧
    pkt'.IndexBufferIndices = pkt.IndexBufferIndices := by
  unfold CreateDirectVertexData at h
  cases hres : resizeVertexCache E pkt with
  | none => simp [hres] at h
  | some pkt1 =>
    have hf := resizeVertexCache_fields E pkt pkt1 hres
    simp only [hres, Option.bind_eq_bind, Option.some_bind] at h
    cases h1 : pointLoop pkt1 pkt1.VertexCache with
    | none => simp [h1] at h
    | some cache1 =>
      simp only [h1, Option.some_bind] at h
      cases h2 : tangentLoop E pkt1.indices pkt1.indices_num cache1 with
      | none => simp [h2] at h
      | some cache2 =>
        simp only [h2, Option.some_bind, Option.some.injEq] at h
        subst h
        exact hf

/-- The index copy of `AddRenderPacket` returns when `indices_num` source
indices are available; the staged buffer holds them converted to `int32`. -/
theorem fillIndexBuffer_spec (indices : List Nat) (indices_num : Int)
    (h0 : 0 ≤ indices_num) (hlen : indices_num ≤ (indices.length : Int)) :
    ∃ buf, fillIndexBuffer indices indices_num = some buf ∧
      buf.length = indices_num.toNat ∧
      ∀ i, i < indices_num.toNat → buf[i]? = (indices[i]?).map toInt32 := by
  unfold fillIndexBuffer
  rw [if_neg (not_lt.mpr h0)]
  obtain ⟨buf, hbuf, hl, hdone⟩ := foldlM_range_inv (indexCopyStep indices)
    (fun n cur => cur.length = indices_num.toNat ∧
      ∀ i, i < n → cur[i]? = (indices[i]?).map toInt32)
    (List.replicate indices_num.toNat 0) indices_num.toNat
    ⟨by simp, fun i hi => absurd hi (Nat.not_lt_zero i)⟩
    (by
      intro n cur hn ⟨hl, hdone⟩
      have hn' : n < indices.length := by omega
      refine ⟨cur.set n (toInt32 indices[n]), ?_, by simp [hl], ?_⟩
      · simp [indexCopyStep, List.getElem?_eq_getElem hn', hl, hn]
      · intro i hi
        rcases Nat.lt_succ_iff_lt_or_eq.mp hi with hlt | heq
        · rw [List.getElem?_set_ne (by omega)]
          exact hdone i hlt
        · subst heq
          rw [List.getElem?_set_self (by omega), List.getElem?_eq_getElem hn']
          rfl)
  exact ⟨buf, hbuf, hl, hdone⟩

/-- One iteration of the "fill initial points" loop succeeds on in-range data. -/
theorem initialPointStep_eq (pkt : FProceduralPackMeshRenderPacket) (startColorIn : FColor)
    (verts : List FDynamicMeshVertex) (i : Nat)
    (hc : i < verts.length) (hp : 3 * i + 2 < pkt.points.length)
    (hu : 2 * i + 1 < pkt.uvs.length) :
    ∃ new, InitialPointWritten pkt startColorIn new i ∧
      initialPointStep pkt startColorIn verts i = some (verts.set i new) := by
  have h0 : 3 * i < pkt.points.length := by omega
  have h1 : 3 * i + 1 < pkt.points.length := by omega
  have hu0 : 2 * i < pkt.uvs.length := by omega
  have e0 : i * 3 + x_id = 3 * i := by simp [x_id]; omega
  have e1 : i * 3 + y_id = 3 * i + 2 := by simp [y_id]; omega
  have e2 : i * 3 + z_id = 3 * i + 1 := by simp [z_id]; omega
  have e3 : i * 2 = 2 * i := by omega
  refine ⟨_, ⟨pkt.points[3 * i], pkt.points[3 * i + 2], pkt.points[3 * i + 1],
    pkt.uvs[2 * i], pkt.uvs[2 * i + 1],
    List.getElem?_eq_getElem h0, List.getElem?_eq_getElem hp, List.getElem?_eq_getElem h1,
    List.getElem?_eq_getElem hu0, List.getElem?_eq_getElem hu, rfl⟩, ?_⟩
  simp only [initialPointStep, e0, e1, e2, e3, List.getElem?_eq_getElem hc,
    List.getElem?_eq_getElem h0, List.getElem?_eq_getElem hp, List.getElem?_eq_getElem h1,
    List.getElem?_eq_getElem hu0, List.getElem?_eq_getElem hu]
  rfl

/-- The "fill initial points" loop returns on in-range data, keeps the length
and writes every entry as `InitialPointWritten` describes. -/
theorem initialPointLoop_spec (pkt : FProceduralPackMeshRenderPacket) (startColorIn : FColor)
    (verts : List FDynamicMeshVertex)
    (hc : verts.length = pkt.point_num.toNat)
    (hp : 3 * pkt.point_num.toNat ≤ pkt.points.length)
    (hu : 2 * pkt.point_num.toNat ≤ pkt.uvs.length) :
    ∃ verts', (List.range pkt.point_num.toNat).foldlM
        (initialPointStep pkt startColorIn) verts = some verts' ∧
      verts'.length = verts.length ∧
      ∀ i, i < verts.length → ∃ new, verts'[i]? = some new ∧
        InitialPointWritten pkt startColorIn new i := by
  obtain ⟨r, hr, hlen, hdone⟩ := foldlM_range_inv (initialPointStep pkt startColorIn)
    (fun n cur => cur.length = verts.length ∧
      ∀ i, i < n → ∃ new, cur[i]? = some new ∧ InitialPointWritten pkt startColorIn new i)
    verts pkt.point_num.toNat ⟨rfl, fun i hi => absurd hi (Nat.not_lt_zero i)⟩
    (by
      intro n cur hn ⟨hlen, hdone⟩
      obtain ⟨new, hw, hstep⟩ :=
        initialPointStep_eq pkt startColorIn cur n (by omega) (by omega) (by omega)
      refine ⟨_, hstep, by simp [hlen], ?_⟩
      intro i hi
      rcases Nat.lt_succ_iff_lt_or_eq.mp hi with hlt | heq
      · obtain ⟨nw, hn', hw'⟩ := hdone i hlt
        exact ⟨nw, by rw [List.getElem?_set_ne (by omega)]; exact hn', hw'⟩
      · subst heq
        exact ⟨new, List.getElem?_set_self (by omega), hw⟩)
  exact ⟨r, hr, hlen, fun i hi => hdone i (by omega)⟩


/-- The staging part of `AddRenderPacket` returns on a well-formed packet and
only replaces the two staged buffers. -/
theorem fillInitialBuffers_spec (E : Engine) (pkt : FProceduralPackMeshRenderPacket)
    (startColorIn : FColor) (hwf : WellFormed pkt) :
    ∃ Indices Vertices, fillInitialBuffers E pkt startColorIn =
        some { pkt with IndexBufferIndices := Indices, VertexBufferVertices := Vertices } ∧
      Indices.length = pkt.indices_num.toNat ∧
      Vertices.length = pkt.point_num.toNat := by
  obtain ⟨hN, hp, hu, ha, _, hidx⟩ := hwf.nat_bounds
  obtain ⟨h0, hm0, _, _, _, _, hml, _⟩ := hwf
  obtain ⟨Indices, hI, hIl, _⟩ := fillIndexBuffer_spec pkt.indices pkt.indices_num hm0 hml
  obtain ⟨V1, hV1, hV1l, _⟩ := initialPointLoop_spec pkt startColorIn
    ((List.range pkt.point_num.toNat).map E.Uninitialized) (by simp) hp hu
  obtain ⟨V2, hV2, hV2l, _⟩ := tangentLoop_spec E pkt.indices pkt.indices_num V1 (by
    intro k hk
    obtain ⟨v, hv, hvl⟩ := hidx k hk
    refine ⟨v, hv, ?_⟩
    rw [hV1l]
    simpa using hvl)
  refine ⟨Indices, V2, ?_, hIl, ?_⟩
  · simp [fillInitialBuffers, hI, not_lt.mpr h0, hV1, hV2]
  · rw [hV2l, hV1l]
    simp

/-- Full description of `AddRenderPacket` on a well-formed snapshot: it
returns; exactly one packet is appended; the active index becomes 0 when it
was `INDEX_NONE` and is kept otherwise; the pending flags are kept. -/
theorem AddRenderPacket_spec (E : Engine) (proxy : FCProceduralPackMeshSceneProxy)
    (targetTrisIn : FProceduralPackMeshTriData) (startColorIn : FColor)
    (hwf : WellFormed (bindTriData targetTrisIn)) :
    ∃ cur_packet, AddRenderPacket E proxy targetTrisIn startColorIn = some { proxy with
        renderPackets := proxy.renderPackets ++ [cur_packet],
        active_render_packet_idx :=
          if proxy.active_render_packet_idx = INDEX_NONE then 0
          else proxy.active_render_packet_idx } ∧
      cur_packet.points = targetTrisIn.points ∧
      cur_packet.point_num = targetTrisIn.point_num ∧
      cur_packet.indices = targetTrisIn.indices ∧
      cur_packet.indices_num = targetTrisIn.indices_num ∧
      cur_packet.should_release = true := by
  obtain ⟨pkt1, cache', _, hrun, _, _, _⟩ := CreateDirectVertexData_spec E _ hwf
  obtain ⟨fi, fp, fu, fn, fm, _, fa, _⟩ := CreateDirectVertexData_fields E _ _ hrun
  have hwf' : WellFormed { pkt1 with VertexCache := cache' } := hwf.congr fi fp fu fn fm fa
  obtain ⟨Indices, Vertices, hfill, _, _⟩ :=
    fillInitialBuffers_spec E { pkt1 with VertexCache := cache' } startColorIn hwf'
  refine ⟨InitForRender { pkt1 with
    VertexCache := cache', IndexBufferIndices := Indices, VertexBufferVertices := Vertices },
    ?_, ?_, ?_, ?_, ?_, rfl⟩
  · simp only [AddRenderPacket, newRenderPacket, hrun, hfill, Option.bind_eq_bind,
      Option.some_bind]
  · exact fp
  · exact fn
  · exact fi
  · exact fm

/-- Shape of any successful `AddRenderPacket` call, well-formed snapshot or
not: one packet is appended and the active index follows the `INDEX_NONE`
rule. -/
theorem AddRenderPacket_shape (E : Engine) (proxy proxy' : FCProceduralPackMeshSceneProxy)
    (targetTrisIn : FProceduralPackMeshTriData) (startColorIn : FColor)
    (h : AddRenderPacket E proxy targetTrisIn startColorIn = some proxy') :
    ∃ cur_packet, proxy'.renderPackets = proxy.renderPackets ++ [cur_packet] ∧
      proxy'.active_render_packet_idx =
        (if proxy.active_render_packet_idx = INDEX_NONE then 0
         else proxy.active_render_packet_idx) := by
  unfold AddRenderPacket at h
  cases h1 : newRenderPacket E targetTrisIn with
  | none => simp [h1] at h
  | some new_packet =>
    simp only [h1, Option.bind_eq_bind, Option.some_bind] at h
    cases h2 : fillInitialBuffers E new_packet startColorIn with
    | none => simp [h2] at h
    | some cur_packet =>
      simp only [h2, Option.some_bind, Option.some.injEq] at h
      subst h
      exact ⟨InitForRender cur_packet, rfl, rfl⟩

/-! ## Bounds lemmas -/

/-- The constant `FLT_MIN` is not zero. -/
theorem FLT_MIN_ne_zero : FLT_MIN ≠ 0 := by norm_num [FLT_MIN]

/-- The constant `FLT_MAX` is not zero. -/
theorem FLT_MAX_ne_zero : FLT_MAX ≠ 0 := by norm_num [FLT_MAX]

/-- The origin is not a sentinel point. -/
theorem isSentinelPoint_origin : isSentinelPoint ⟨0, 0, 0⟩ = false := by
  have h1 : (0 : ℚ) ≠ FLT_MIN := fun h => FLT_MIN_ne_zero h.symm
  have h2 : (0 : ℚ) ≠ FLT_MAX := fun h => FLT_MAX_ne_zero h.symm
  simp [isSentinelPoint, h1, h2]

/-- The scan's read of point `i` succeeds when three floats per point are
available. -/
theorem boundsPoint_isSome (cur_pts : List ℚ) (i : Nat) (h : 3 * i + 2 < cur_pts.length) :
    ∃ pos, boundsPoint cur_pts i = some pos := by
  have h0 : i * 3 + x_id < cur_pts.length := by simp [x_id]; omega
  have h1 : i * 3 + y_id < cur_pts.length := by simp [y_id]; omega
  have h2 : i * 3 + z_id < cur_pts.length := by simp [z_id]; omega
  refine ⟨⟨cur_pts[i * 3 + x_id], cur_pts[i * 3 + y_id], cur_pts[i * 3 + z_id]⟩, ?_⟩
  simp [boundsPoint, List.getElem?_eq_getElem h0, List.getElem?_eq_getElem h1,
    List.getElem?_eq_getElem h2]

/-- The bounds scan returns when the array holds three floats per point and
there is at least one point. -/
theorem boundsScan_returns (cur_pts : List ℚ) (point_num : Int) (hN : 0 < point_num)
    (hlen : 3 * point_num ≤ (cur_pts.length : Int)) :
    ∃ acc, boundsScan cur_pts point_num = some acc := by
  have h0 : x_id < cur_pts.length := by simp [x_id]; omega
  have h1 : y_id < cur_pts.length := by simp [y_id]; omega
  have h2 : z_id < cur_pts.length := by simp [z_id]; omega
  obtain ⟨init, hinit⟩ : ∃ init, boundsInit cur_pts = some init := by
    unfold boundsInit
    simp only [List.getElem?_eq_getElem h0, List.getElem?_eq_getElem h1,
      List.getElem?_eq_getElem h2, Option.bind_eq_bind, Option.some_bind]
    split
    · exact ⟨_, rfl⟩
    · exact ⟨_, rfl⟩
  obtain ⟨acc, hacc, _⟩ := foldlM_range_inv (boundsScanStep cur_pts) (fun _ _ => True)
    (init, init) point_num.toNat trivial (by
      intro n cur hn _
      obtain ⟨pos, hpos⟩ := boundsPoint_isSome cur_pts n (by omega)
      exact ⟨boundsAccumulate cur pos, by simp [boundsScanStep, hpos], trivial⟩)
  exact ⟨acc, by simp [boundsScan, hinit, hacc]⟩

/-- What `ProcessCalcBounds` does when the proxy is ready and has a valid
active packet with at least one point: the scanned corners are scaled and
cached. -/
theorem ProcessCalcBounds_active (comp : UCustomPackProceduralMeshComponent)
    (proxy : FCProceduralPackMeshSceneProxy) (pkt : FProceduralPackMeshRenderPacket)
    (hready : comp.render_proxy_ready = true)
    (hact : GetActiveRenderPacket proxy = some pkt) (hN : 0 < pkt.point_num) :
    ProcessCalcBounds comp (some proxy) =
      (boundsScan pkt.points pkt.point_num).map (fun acc =>
        { comp with
          calc_local_vec_min := (scaleBounds comp.bounds_scale acc).1,
          calc_local_vec_max := (scaleBounds comp.bounds_scale acc).2 }) := by
  simp only [ProcessCalcBounds, hready, if_true, Option.bind, hact, gt_iff_lt, hN, decide_True]
  cases boundsScan pkt.points pkt.point_num <;> rfl

/-- The `float` sum of two finite values does not depend on their order. -/
theorem FloatVal.add_finite_comm (a b : ℚ) :
    (FloatVal.finite a).add (.finite b) = (FloatVal.finite b).add (.finite a) := by
  simp only [FloatVal.add, add_comm]

/-- A numeral is the finite value of that number. -/
theorem FloatVal.ofNat_eq (n : Nat) : (OfNat.ofNat n : FloatVal) = .finite (n : ℚ) := rfl

/-- Negation of a finite value. -/
theorem FloatVal.neg_finite (q : ℚ) : -(FloatVal.finite q) = .finite (-q) := rfl

/-- Rounding keeps zero. -/
theorem roundToFloat_zero : roundToFloat 0 = .finite 0 := by
  simp [roundToFloat]

/-- The scaling step of the source computes the bound the spec words. -/
theorem scaleBounds_eq_specBounds (s : ℚ) (m M : FVector) :
    scaleBounds s (m, M) = specBounds s m M := by
  have hmid : ((FloatVector.ofFVector M).add (FloatVector.ofFVector m)).scale (.finite (1 / 2))
      = specMidpoint m M := by
    simp only [FloatVector.add, FloatVector.scale, FloatVector.ofFVector, specMidpoint, specMid,
      FloatVal.add_finite_comm M.X m.X, FloatVal.add_finite_comm M.Y m.Y,
      FloatVal.add_finite_comm M.Z m.Z]
  have hcorner : ∀ (p : FVector) (c : FloatVector),
      (((FloatVector.ofFVector p).sub c).mul ⟨.finite s, .finite s, .finite s⟩).add c
        = specScaledCorner p c s := by
    intro p c
    simp only [FloatVector.add, FloatVector.sub, FloatVector.mul, FloatVector.ofFVector,
      specScaledCorner, specScaled]
  have hcond : ∀ lo hi : FloatVector,
      touchesBoundsLimit lo hi = true ↔ SpecTouchesLimit lo hi := by
    intro lo hi
    simp only [touchesBoundsLimit, SpecTouchesLimit, bounds_max_scalar, Bool.or_eq_true,
      List.mem_cons, List.mem_singleton, List.not_mem_nil, or_false,
      exists_eq_or_imp, exists_eq_left]
    tauto
  simp only [scaleBounds, specBounds, hmid, hcorner]
  by_cases h : SpecTouchesLimit (specScaledCorner m (specMidpoint m M) s)
      (specScaledCorner M (specMidpoint m M) s)
  · rw [if_pos ((hcond _ _).mpr h), if_pos h]
    simp [fallbackCube, bounds_max_scalar]
  · rw [if_neg (fun hc => h ((hcond _ _).mp hc)), if_neg h]

/-- Reading point `i + 1` behind a leading point is reading point `i`. -/
theorem boundsPoint_cons (p : FVector) (rest : List ℚ) (i : Nat) :
    boundsPoint (p.X :: p.Z :: p.Y :: rest) (i + 1) = boundsPoint rest i := by
  have e0 : (i + 1) * 3 + x_id = (i * 3 + x_id) + 1 + 1 + 1 := by omega
  have e1 : (i + 1) * 3 + y_id = (i * 3 + y_id) + 1 + 1 + 1 := by omega
  have e2 : (i + 1) * 3 + z_id = (i * 3 + z_id) + 1 + 1 + 1 := by omega
  simp only [boundsPoint, e0, e1, e2, List.getElem?_cons_succ]

/-- On the raw layout of a list of positions the scan reads back position `i`. -/
theorem boundsPoint_flatten (ps : List FVector) (extra : List ℚ) (i : Nat)
    (h : i < ps.length) : boundsPoint (flattenPoints ps ++ extra) i = ps[i]? := by
  induction ps generalizing i with
  | nil => exact absurd h (Nat.not_lt_zero i)
  | cons p ps ih =>
    cases i with
    | zero => simp [boundsPoint, flattenPoints, x_id, y_id, z_id]
    | succ i =>
      have := ih i (by simpa using h)
      simp only [flattenPoints, List.cons_append, boundsPoint_cons, List.getElem?_cons_succ]
      exact this

/-- The scan loop over the raw layout of `ps` is the left fold of
`boundsAccumulate` over `ps`. -/
theorem boundsScanLoop_flatten (ps : List FVector) (extra : List ℚ) (a : FVector × FVector) :
    (List.range ps.length).foldlM (boundsScanStep (flattenPoints ps ++ extra)) a
      = some (ps.foldl boundsAccumulate a) := by
  obtain ⟨r, hr, hP⟩ := foldlM_range_inv (boundsScanStep (flattenPoints ps ++ extra))
    (fun n cur => n ≤ ps.length → cur = (ps.take n).foldl boundsAccumulate a)
    a ps.length (fun _ => by simp) (by
      intro n cur hn hcur
      refine ⟨boundsAccumulate cur ps[n], ?_, ?_⟩
      · simp [boundsScanStep, boundsPoint_flatten ps extra n hn, List.getElem?_eq_getElem hn]
      · intro _
        rw [List.take_succ, List.foldl_append, ← hcur (le_of_lt hn),
          List.getElem?_eq_getElem hn]
        rfl)
  rw [hr, hP (le_refl _), List.take_length]

/-- The initial corner on the raw layout of a non-empty list of positions:
the first position, or the origin when the first position is a sentinel. -/
theorem boundsInit_flatten (p : FVector) (ps : List FVector) (extra : List ℚ) :
    boundsInit (flattenPoints (p :: ps) ++ extra) =
      some (if isSentinelPoint p then ⟨0, 0, 0⟩ else p) := by
  simp only [boundsInit, flattenPoints, x_id, y_id, z_id, List.cons_append,
    List.getElem?_cons_zero, List.getElem?_cons_succ, Option.bind_eq_bind, Option.some_bind]
  split <;> rfl

/-- The whole scan on the raw layout of a non-empty list of positions. -/
theorem boundsScan_flatten (p : FVector) (ps : List FVector) (extra : List ℚ) :
    boundsScan (flattenPoints (p :: ps) ++ extra) (((p :: ps).length : Nat) : Int) =
      some ((p :: ps).foldl boundsAccumulate
        (if isSentinelPoint p then (⟨0, 0, 0⟩, ⟨0, 0, 0⟩) else (p, p))) := by
  have hloop := boundsScanLoop_flatten (p :: ps) extra
  simp only [boundsScan, boundsInit_flatten, Int.toNat_ofNat, Option.bind_eq_bind,
    Option.some_bind, hloop]
  split <;> rfl

/-- A sentinel position leaves the accumulated corners alone. -/
theorem boundsAccumulate_sentinel (acc : FVector × FVector) (p : FVector)
    (h : isSentinelPoint p = true) : boundsAccumulate acc p = acc := by
  simp [boundsAccumulate, h]

/-- A position equal to both corners leaves them alone. -/
theorem boundsAccumulate_self (p : FVector) : boundsAccumulate (p, p) p = (p, p) := by
  unfold boundsAccumulate
  split <;> simp

/-- Folding over positions that are all sentinels changes nothing. -/
theorem foldl_boundsAccumulate_sentinels (ps : List FVector) (acc : FVector × FVector)
    (h : ∀ p ∈ ps, isSentinelPoint p = true) : ps.foldl boundsAccumulate acc = acc := by
  induction ps generalizing acc with
  | nil => rfl
  | cons p ps ih =>
    rw [List.foldl_cons, boundsAccumulate_sentinel acc p (h p (List.mem_cons_self p ps))]
    exact ih acc (fun q hq => h q (List.mem_cons_of_mem p hq))

/-- Scaling the degenerate box at the origin gives the same box, whatever the
scale. -/
theorem scaleBounds_origin (s : ℚ) :
    scaleBounds s (⟨0, 0, 0⟩, ⟨0, 0, 0⟩) = (⟨0, 0, 0⟩, ⟨0, 0, 0⟩) := by
  simp [scaleBounds, FloatVector.add, FloatVector.sub, FloatVector.mul, FloatVector.scale,
    FloatVector.ofFVector, FloatVal.add, FloatVal.sub, FloatVal.neg, FloatVal.neg_finite,
    FloatVal.mul, roundToFloat_zero, touchesBoundsLimit, FloatVal.le, bounds_max_scalar,
    FloatVal.ofNat_eq]

/-! ## Bounds claims -/

/-- Rounding at the limit: for the corners `±33333.33203125` and scale 3 the
exact scaled corner `99999.99609375` is below the limit, the `float` product
is `100000`, and the cached bound is the fallback cube. -/
theorem scaleBounds_rounds_to_limit :
    (33333 + 85 / 256 : ℚ) * 3 < 100000 ∧
    roundToFloat ((33333 + 85 / 256) * 3) = .finite 100000 ∧
    scaleBounds 3 (⟨-(33333 + 85 / 256), -(33333 + 85 / 256), -(33333 + 85 / 256)⟩,
      ⟨33333 + 85 / 256, 33333 + 85 / 256, 33333 + 85 / 256⟩) = fallbackCube := by
  decide!

/-- Overflow: for a single point with the coordinates `3e38f` the sum
`vecMax + vecMin` is an infinity, each scaled corner is a NaN, no comparison
with the limit holds, and the NaN corners are cached. -/
theorem scaleBounds_overflow_nan :
    roundToFloat (3 * 10 ^ 38) = .finite 300000000549775575777803994281145270272 ∧
    scaleBounds 1
      (⟨300000000549775575777803994281145270272, 300000000549775575777803994281145270272,
        300000000549775575777803994281145270272⟩,
       ⟨300000000549775575777803994281145270272, 300000000549775575777803994281145270272,
        300000000549775575777803994281145270272⟩)
      = (⟨.nan, .nan, .nan⟩, ⟨.nan, .nan, .nan⟩) := by
  decide!

/-- C6 as stated fails when the invalid point is the first one: for the two
points `(FLT_MAX, 0, 0)` and `(5, 5, 5)` (raw layout) the cached minimum is the
origin, while the valid point alone gives the minimum `(5, 5, 5)`. -/
theorem invalid_first_point_counterexample :
    isSentinelPoint ⟨FLT_MAX, 0, 0⟩ = true ∧ isSentinelPoint ⟨5, 5, 5⟩ = false ∧
    (ProcessCalcBounds sampleComponent (some (boundsProxy [FLT_MAX, 0, 0, 5, 5, 5] 2))).map
      (fun r => (r.calc_local_vec_min, r.calc_local_vec_max))
      = some (⟨0, 0, 0⟩, ⟨5, 5, 5⟩) ∧
    (ProcessCalcBounds sampleComponent (some (boundsProxy [5, 5, 5] 1))).map
      (fun r => (r.calc_local_vec_min, r.calc_local_vec_max))
      = some (⟨5, 5, 5⟩, ⟨5, 5, 5⟩) := by
  decide!

/-- C6, amended: a point with a sentinel coordinate contributes nothing to the
cached corners when it is not the first point, and counts as the origin when
it is the first.  `ProcessCalcBounds` returns the same component for the
snapshot `pre ++ bad :: post` and for `remainingPoints pre post`. -/
theorem invalid_point_skipped (comp : UCustomPackProceduralMeshComponent)
    (proxy1 proxy2 : FCProceduralPackMeshSceneProxy)
    (pkt1 pkt2 : FProceduralPackMeshRenderPacket)
    (pre post : List FVector) (bad : FVector) (extra1 extra2 : List ℚ)
    (hready : comp.render_proxy_ready = true)
    (hact1 : GetActiveRenderPacket proxy1 = some pkt1)
    (hact2 : GetActiveRenderPacket proxy2 = some pkt2)
    (hpts1 : pkt1.points = flattenPoints (pre ++ bad :: post) ++ extra1)
    (hn1 : pkt1.point_num = (((pre ++ bad :: post).length : Nat) : Int))
    (hpts2 : pkt2.points = flattenPoints (remainingPoints pre post) ++ extra2)
    (hn2 : pkt2.point_num = (((remainingPoints pre post).length : Nat) : Int))
    (hbad : isSentinelPoint bad = true) :
    ∃ comp', ProcessCalcBounds comp (some proxy1) = some comp' ∧
      ProcessCalcBounds comp (some proxy2) = some comp' := by
  have hN1 : 0 < pkt1.point_num := by
    rw [hn1]
    simp
    omega
  have hN2 : 0 < pkt2.point_num := by
    rw [hn2]
    cases pre
    all_goals simp only [remainingPoints, List.length_cons, List.length_append, Nat.cast_add,
      Nat.cast_one]
    all_goals omega
  rw [ProcessCalcBounds_active comp proxy1 pkt1 hready hact1 hN1,
    ProcessCalcBounds_active comp proxy2 pkt2 hready hact2 hN2, hpts1, hn1, hpts2, hn2]
  cases pre with
  | nil =>
    have h1 := boundsScan_flatten bad post extra1
    have h2 := boundsScan_flatten ⟨0, 0, 0⟩ post extra2
    simp only [hbad, if_true, isSentinelPoint_origin, Bool.false_eq_true, if_false,
      List.foldl_cons, boundsAccumulate_sentinel _ bad hbad, boundsAccumulate_self] at h1 h2
    simp only [List.nil_append, remainingPoints, h1, h2, Option.map_some']
    exact ⟨_, rfl, rfl⟩
  | cons p rest =>
    have h1 := boundsScan_flatten p (rest ++ bad :: post) extra1
    have h2 := boundsScan_flatten p (rest ++ post) extra2
    simp only [List.foldl_cons, List.foldl_append,
      boundsAccumulate_sentinel _ bad hbad] at h1 h2
    simp only [List.cons_append, remainingPoints, h1, h2, Option.map_some']
    exact ⟨_, rfl, rfl⟩

/-- Witness for amended C6: the invalid point stands between two valid ones. -/
theorem invalid_point_skipped_witness :
    ∃ comp', ProcessCalcBounds sampleComponent
        (some (boundsProxy (flattenPoints ([sampleValidA] ++ sampleInvalidA :: [sampleValidB])) 3))
        = some comp' ∧
      ProcessCalcBounds sampleComponent
        (some (boundsProxy (flattenPoints (remainingPoints [sampleValidA] [sampleValidB])) 2))
        = some comp' :=
  invalid_point_skipped sampleComponent
    (boundsProxy (flattenPoints ([sampleValidA] ++ sampleInvalidA :: [sampleValidB])) 3)
    (boundsProxy (flattenPoints (remainingPoints [sampleValidA] [sampleValidB])) 2)
    { samplePacket with
      points := flattenPoints ([sampleValidA] ++ sampleInvalidA :: [sampleValidB])
      point_num := 3 }
    { samplePacket with
      points := flattenPoints (remainingPoints [sampleValidA] [sampleValidB])
      point_num := 2 }
    [sampleValidA] [sampleValidB] sampleInvalidA [] []
    rfl rfl rfl (by simp) rfl (by simp) rfl (by simp [isSentinelPoint, sampleInvalidA])

/-- C7 as stated fails: for the single invalid point `(FLT_MAX, 0, 0)` the
cached bound is the degenerate box at the origin, not the fallback cube. -/
theorem all_invalid_counterexample :
    (∀ p ∈ [(⟨FLT_MAX, 0, 0⟩ : FVector)], isSentinelPoint p = true) ∧
    (ProcessCalcBounds sampleComponent (some (boundsProxy [FLT_MAX, 0, 0] 1))).map
      (fun r => (r.calc_local_vec_min, r.calc_local_vec_max))
      = some (⟨0, 0, 0⟩, ⟨0, 0, 0⟩) ∧
    ((⟨0, 0, 0⟩, ⟨0, 0, 0⟩) : FloatVector × FloatVector) ≠ fallbackCube := by
  decide!

/-- C7, amended: when every point of a snapshot with `point_num > 0` has a
sentinel coordinate, `ProcessCalcBounds` returns and caches the degenerate box
`min = max = (0, 0, 0)`, for every bounds scale. -/
theorem all_invalid_gives_origin_box (comp : UCustomPackProceduralMeshComponent)
    (proxy : FCProceduralPackMeshSceneProxy) (pkt : FProceduralPackMeshRenderPacket)
    (ps : List FVector) (extra : List ℚ)
    (hready : comp.render_proxy_ready = true)
    (hact : GetActiveRenderPacket proxy = some pkt)
    (hpts : pkt.points = flattenPoints ps ++ extra)
    (hn : pkt.point_num = ((ps.length : Nat) : Int))
    (hN : 0 < pkt.point_num)
    (hall : ∀ p ∈ ps, isSentinelPoint p = true) :
    ProcessCalcBounds comp (some proxy) = some { comp with
      calc_local_vec_min := ⟨0, 0, 0⟩, calc_local_vec_max := ⟨0, 0, 0⟩ } := by
  rw [ProcessCalcBounds_active comp proxy pkt hready hact hN, hpts, hn]
  cases ps with
  | nil =>
    rw [hn] at hN
    simp at hN
  | cons p rest =>
    have h1 := boundsScan_flatten p rest extra
    rw [foldl_boundsAccumulate_sentinels (p :: rest) _ hall] at h1
    simp only [hall p (List.mem_cons_self p rest), if_true] at h1
    rw [h1]
    simp only [Option.map_some', scaleBounds_origin]

/-- Witness for amended C7: two points, both invalid. -/
theorem all_invalid_gives_origin_box_witness :
    ProcessCalcBounds sampleComponent
      (some (boundsProxy (flattenPoints [sampleInvalidA, sampleInvalidB]) 2))
      = some { sampleComponent with
          calc_local_vec_min := ⟨0, 0, 0⟩, calc_local_vec_max := ⟨0, 0, 0⟩ } :=
  all_invalid_gives_origin_box sampleComponent
    (boundsProxy (flattenPoints [sampleInvalidA, sampleInvalidB]) 2)
    { samplePacket with
      points := flattenPoints [sampleInvalidA, sampleInvalidB]
      point_num := 2 }
    [sampleInvalidA, sampleInvalidB] []
    rfl rfl (by simp) rfl (by decide)
    (by simp [isSentinelPoint, sampleInvalidA, sampleInvalidB])

/-! ## Scene proxy claims -/

/-- The part of C9 the code does implement: with a negative active index the
update, the commit and the draw assembly return at once; the proxy is unchanged
and no draw item is emitted. -/
theorem negative_active_index_noop (E : Engine) (proxy : FCProceduralPackMeshSceneProxy)
    (h : proxy.active_render_packet_idx < 0) :
    UpdateDynamicComponentData E proxy = some proxy ∧
    SetDynamicData_RenderThread proxy = some proxy ∧
    ∀ showFlag numViews VisibilityMap,
      GetDynamicMeshElements showFlag proxy numViews VisibilityMap = some [] := by
  refine ⟨by simp [UpdateDynamicComponentData, h], by simp [SetDynamicData_RenderThread, h], ?_⟩
  intro showFlag numViews VisibilityMap
  simp [GetDynamicMeshElements, h]

/-- C9 at a failing input: a proxy constructed over the sample snapshot has one
packet; after `SetActiveRenderPacketIdx(1)` the active index is past the end.
`GetActiveRenderPacket` answers "no packet", but the update, the commit and the
draw assembly all go on to `renderPackets[1]`, an out-of-range access; so does
`ForceAnUpdate(1)` on a component that owns the proxy. -/
theorem out_of_range_active_index_fails :
    (newSceneProxy sampleEngine (some sampleTriData) sampleColor).map (fun proxy =>
      (proxy.renderPackets.length,
       (GetActiveRenderPacket (SetActiveRenderPacketIdx proxy 1)).isNone,
       (UpdateDynamicComponentData sampleEngine (SetActiveRenderPacketIdx proxy 1)).isNone,
       (SetDynamicData_RenderThread (SetActiveRenderPacketIdx proxy 1)).isNone,
       (GetDynamicMeshElements 1 (SetActiveRenderPacketIdx proxy 1) 1 1).isNone,
       (ForceAnUpdate sampleEngine { sampleComponent with SceneProxy := some proxy }
         1 true).isNone))
    = some (1, true, true, true, true, true) := by
  decide!

/-- C10 as stated fails: with one packet present and the active index set back
to `INDEX_NONE`, `AddRenderPacket` makes index 0 active, which is the old
packet (4 points) and not the newly appended one (3 points, at index 1). -/
theorem add_packet_active_counterexample :
    ((newSceneProxy sampleEngine (some sampleTriData) sampleColor).bind (fun p =>
      AddRenderPacket sampleEngine (SetActiveRenderPacketIdx p INDEX_NONE)
        sampleTriData2 sampleColor)).map
      (fun p' => (p'.renderPackets.length, p'.active_render_packet_idx,
        (GetActiveRenderPacket p').map (fun q => q.point_num),
        (p'.renderPackets[1]?).map (fun q => q.point_num)))
    = some (2, 0, some 4, some 3) := by
  decide!

/-- C10, amended: on a well-formed snapshot `AddRenderPacket` returns and
appends exactly one packet, bound to the snapshot, behind the unchanged
earlier packets.  If the active index was `INDEX_NONE` it becomes 0, which is
the appended packet when the sequence was empty before the call; otherwise
the active index is unchanged. -/
theorem add_packet_appends (E : Engine) (proxy : FCProceduralPackMeshSceneProxy)
    (targetTrisIn : FProceduralPackMeshTriData) (startColorIn : FColor)
    (hwf : WellFormed (bindTriData targetTrisIn)) :
    ∃ cur_packet proxy', AddRenderPacket E proxy targetTrisIn startColorIn = some proxy' ∧
      proxy'.renderPackets = proxy.renderPackets ++ [cur_packet] ∧
      cur_packet.points = targetTrisIn.points ∧
      cur_packet.point_num = targetTrisIn.point_num ∧
      cur_packet.indices = targetTrisIn.indices ∧
      cur_packet.indices_num = targetTrisIn.indices_num ∧
      (proxy.active_render_packet_idx = INDEX_NONE →
        proxy'.active_render_packet_idx = 0 ∧
        (proxy.renderPackets = [] → GetActiveRenderPacket proxy' = some cur_packet)) ∧
      (proxy.active_render_packet_idx ≠ INDEX_NONE →
        proxy'.active_render_packet_idx = proxy.active_render_packet_idx) := by
  obtain ⟨cur_packet, hadd, hp, hn, hi, hm, _⟩ :=
    AddRenderPacket_spec E proxy targetTrisIn startColorIn hwf
  refine ⟨cur_packet, _, hadd, rfl, hp, hn, hi, hm, ?_, ?_⟩
  · intro hnone
    refine ⟨by simp [hnone], ?_⟩
    intro hempty
    simp [GetActiveRenderPacket, IsValidIndex, packetAt, hnone, hempty]
  · intro hsome
    simp [hsome]

/-- Witness for amended C10: the first packet added to an empty proxy. -/
theorem add_packet_appends_witness :
    ∃ cur_packet proxy', AddRenderPacket sampleEngine emptyProxy sampleTriData sampleColor
        = some proxy' ∧
      proxy'.renderPackets = emptyProxy.renderPackets ++ [cur_packet] ∧
      cur_packet.points = sampleTriData.points ∧
      cur_packet.point_num = sampleTriData.point_num ∧
      cur_packet.indices = sampleTriData.indices ∧
      cur_packet.indices_num = sampleTriData.indices_num ∧
      (emptyProxy.active_render_packet_idx = INDEX_NONE →
        proxy'.active_render_packet_idx = 0 ∧
        (emptyProxy.renderPackets = [] → GetActiveRenderPacket proxy' = some cur_packet)) ∧
      (emptyProxy.active_render_packet_idx ≠ INDEX_NONE →
        proxy'.active_render_packet_idx = emptyProxy.active_render_packet_idx) :=
  add_packet_appends sampleEngine emptyProxy sampleTriData sampleColor (by decide)

/-! ## Draw batch and index range -/

/-- A valid active packet is the packet the range-checked access yields, and
the active index is not negative. -/
theorem GetActiveRenderPacket_eq_some (proxy : FCProceduralPackMeshSceneProxy)
    (pkt : FProceduralPackMeshRenderPacket) (h : GetActiveRenderPacket proxy = some pkt) :
    0 ≤ proxy.active_render_packet_idx ∧
    proxy.active_render_packet_idx < (proxy.renderPackets.length : Int) ∧
    packetAt proxy.renderPackets proxy.active_render_packet_idx = some pkt := by
  unfold GetActiveRenderPacket at h
  by_cases hv : IsValidIndex proxy.renderPackets proxy.active_render_packet_idx = true
  · simp only [hv, Bool.not_true, Bool.false_eq_true, if_false] at h
    simp only [IsValidIndex, decide_eq_true_eq] at hv
    exact ⟨hv.1, hv.2, h⟩
  · simp [hv] at h

/-- The per-view loop collects one draw item per view index `i` with bit
`i % 32` of the mask set, in view order. -/
theorem viewLoop_items (pkt : FProceduralPackMeshRenderPacket) (numViews VisibilityMap : Nat) :
    (List.range numViews).foldlM (viewStep pkt VisibilityMap) []
      = some (((List.range numViews).filter (fun i => VisibilityMap.testBit (i % 32))).map
          (specDrawItem pkt.real_indices_num (pkt.VertexBufferVertices.length : Int))) := by
  obtain ⟨r, hr, hP⟩ := foldlM_range_inv (viewStep pkt VisibilityMap)
    (fun n cur => cur = ((List.range n).filter (fun i => VisibilityMap.testBit (i % 32))).map
      (specDrawItem pkt.real_indices_num (pkt.VertexBufferVertices.length : Int)))
    [] numViews rfl (by
      intro n cur hn hcur
      subst hcur
      by_cases hbit : VisibilityMap.testBit (n % 32) = true
      · refine ⟨((List.range n).filter (fun i => VisibilityMap.testBit (i % 32))).map
            (specDrawItem pkt.real_indices_num (pkt.VertexBufferVertices.length : Int)) ++
          [specDrawItem pkt.real_indices_num (pkt.VertexBufferVertices.length : Int) n], ?_, ?_⟩
        · simp [viewStep, viewVisible, hbit, specDrawItem]
        · simp [hbit, List.range_succ, List.filter_append]
      · refine ⟨((List.range n).filter (fun i => VisibilityMap.testBit (i % 32))).map
            (specDrawItem pkt.real_indices_num (pkt.VertexBufferVertices.length : Int)), ?_, ?_⟩
        · simp [viewStep, viewVisible, hbit]
        · simp [hbit, List.range_succ, List.filter_append])
  rw [hr, hP]

/-- The per-view loop over at most 32 views collects the spec-worded batch. -/
theorem viewLoop_spec (pkt : FProceduralPackMeshRenderPacket) (numViews VisibilityMap : Nat)
    (h32 : numViews ≤ 32) :
    (List.range numViews).foldlM (viewStep pkt VisibilityMap) []
      = some (specDrawBatch pkt numViews VisibilityMap) := by
  obtain ⟨r, hr, hP⟩ := foldlM_range_inv (viewStep pkt VisibilityMap)
    (fun n cur => cur = specDrawBatch pkt n VisibilityMap) [] numViews rfl (by
      intro n cur hn hcur
      have hlt : n < 32 := by omega
      subst hcur
      by_cases hbit : VisibilityMap.testBit n = true
      · refine ⟨specDrawBatch pkt n VisibilityMap ++
          [specDrawItem pkt.real_indices_num (pkt.VertexBufferVertices.length : Int) n], ?_, ?_⟩
        · simp [viewStep, viewVisible, Nat.mod_eq_of_lt hlt, hbit, specDrawItem]
        · simp [specDrawBatch, List.range_succ, List.filter_append, hbit]
      · refine ⟨specDrawBatch pkt n VisibilityMap, ?_, ?_⟩
        · simp [viewStep, viewVisible, Nat.mod_eq_of_lt hlt, hbit]
        · simp [specDrawBatch, List.range_succ, List.filter_append, hbit])
  rw [hr, hP]

/-- C11: with a valid active packet, `GetDynamicMeshElements` emits no draw
item when the show flag is 0 or the packet's point count is `≤ 0`; otherwise,
for the views a 32-bit visibility mask addresses (`numViews ≤ 32`), it emits
exactly one draw item per view index whose bit is set in the mask, in view
order, each with first index 0, primitive count `real_indices_num / 3`,
minimum vertex index 0 and maximum vertex index `staged vertex count - 1`.
The two computed fields are the plain quotient and difference when
`real_indices_num` is not negative and a vertex is staged.  For any number of
views, view `i` is tested against bit `i % 32` of the mask. -/
theorem draw_batch_per_visible_view (showFlag : Int) (proxy : FCProceduralPackMeshSceneProxy)
    (pkt : FProceduralPackMeshRenderPacket) (numViews VisibilityMap : Nat)
    (hact : GetActiveRenderPacket proxy = some pkt) :
    ((showFlag = 0 ∨ pkt.point_num ≤ 0) →
      GetDynamicMeshElements showFlag proxy numViews VisibilityMap = some []) ∧
    (showFlag ≠ 0 → 0 < pkt.point_num → numViews ≤ 32 →
      GetDynamicMeshElements showFlag proxy numViews VisibilityMap
        = some (specDrawBatch pkt numViews VisibilityMap)) ∧
    ((specDrawBatch pkt numViews VisibilityMap).map (fun item => item.ViewIndex)
      = (List.range numViews).filter (fun i => VisibilityMap.testBit i)) ∧
    (0 ≤ pkt.real_indices_num → pkt.real_indices_num < 2 ^ 32 →
      toUInt32 (Int.tdiv pkt.real_indices_num 3) = pkt.real_indices_num.toNat / 3) ∧
    (0 < pkt.VertexBufferVertices.length → pkt.VertexBufferVertices.length < 2 ^ 32 →
      toUInt32 ((pkt.VertexBufferVertices.length : Int) - 1)
        = pkt.VertexBufferVertices.length - 1) ∧
    (showFlag ≠ 0 → 0 < pkt.point_num →
      GetDynamicMeshElements showFlag proxy numViews VisibilityMap
        = some (((List.range numViews).filter (fun i => VisibilityMap.testBit (i % 32))).map
            (specDrawItem pkt.real_indices_num (pkt.VertexBufferVertices.length : Int)))) := by
  obtain ⟨h0, _, hpk⟩ := GetActiveRenderPacket_eq_some proxy pkt hact
  refine ⟨?_, ?_, ?_, ?_, ?_, ?_⟩
  rotate_left 5
  · intro hs hp
    unfold GetDynamicMeshElements
    simp only [hs, if_false, not_lt.mpr h0, hpk, Option.bind_eq_bind, Option.some_bind,
      not_le.mpr hp]
    exact viewLoop_items pkt numViews VisibilityMap
  · intro h
    unfold GetDynamicMeshElements
    by_cases hs : showFlag = 0
    · simp [hs]
    · have hp : pkt.point_num ≤ 0 := h.resolve_left hs
      simp [hs, not_lt.mpr h0, hpk, hp]
  · intro hs hp h32
    unfold GetDynamicMeshElements
    simp only [hs, if_false, not_lt.mpr h0, hpk, Option.bind_eq_bind, Option.some_bind,
      not_le.mpr hp]
    exact viewLoop_spec pkt numViews VisibilityMap h32
  · simp [specDrawBatch, specDrawItem, List.map_map, Function.comp_def]
  · intro hr0 hr1
    unfold toUInt32
    rw [Int.tdiv_eq_ediv hr0 (by decide)]
    omega
  · intro hl0 hl1
    unfold toUInt32
    omega

/-- Witness for C11: three views, mask `0b101`, on the sample proxy. -/
theorem draw_batch_per_visible_view_witness :
    (((1 : Int) = 0 ∨ sampleStagedPacket.point_num ≤ 0) →
      GetDynamicMeshElements 1 sampleProxy 3 5 = some []) ∧
    ((1 : Int) ≠ 0 → 0 < sampleStagedPacket.point_num → 3 ≤ 32 →
      GetDynamicMeshElements 1 sampleProxy 3 5 = some (specDrawBatch sampleStagedPacket 3 5)) ∧
    ((specDrawBatch sampleStagedPacket 3 5).map (fun item => item.ViewIndex)
      = (List.range 3).filter (fun i => (5 : Nat).testBit i)) ∧
    (0 ≤ sampleStagedPacket.real_indices_num → sampleStagedPacket.real_indices_num < 2 ^ 32 →
      toUInt32 (Int.tdiv sampleStagedPacket.real_indices_num 3)
        = sampleStagedPacket.real_indices_num.toNat / 3) ∧
    (0 < sampleStagedPacket.VertexBufferVertices.length →
      sampleStagedPacket.VertexBufferVertices.length < 2 ^ 32 →
      toUInt32 ((sampleStagedPacket.VertexBufferVertices.length : Int) - 1)
        = sampleStagedPacket.VertexBufferVertices.length - 1) ∧
    ((1 : Int) ≠ 0 → 0 < sampleStagedPacket.point_num →
      GetDynamicMeshElements 1 sampleProxy 3 5
        = some (((List.range 3).filter (fun i => (5 : Nat).testBit (i % 32))).map
            (specDrawItem sampleStagedPacket.real_indices_num
              (sampleStagedPacket.VertexBufferVertices.length : Int)))) :=
  draw_batch_per_visible_view 1 sampleProxy sampleStagedPacket 3 5 (by decide)

/-- With a valid active packet of positive point count, the show flag on and
at most 32 views, the draw assembly returns the spec-worded batch. -/
theorem GetDynamicMeshElements_active (showFlag : Int) (proxy : FCProceduralPackMeshSceneProxy)
    (pkt : FProceduralPackMeshRenderPacket) (numViews VisibilityMap : Nat)
    (hact : GetActiveRenderPacket proxy = some pkt) (hs : showFlag ≠ 0)
    (hp : 0 < pkt.point_num) (h32 : numViews ≤ 32) :
    GetDynamicMeshElements showFlag proxy numViews VisibilityMap
      = some (specDrawBatch pkt numViews VisibilityMap) := by
  obtain ⟨h0, _, hpk⟩ := GetActiveRenderPacket_eq_some proxy pkt hact
  unfold GetDynamicMeshElements
  simp only [hs, if_false, not_lt.mpr h0, hpk, Option.bind_eq_bind, Option.some_bind,
    not_le.mpr hp]
  exact viewLoop_spec pkt numViews VisibilityMap h32

/-- Replacing the active packet of a proxy makes the replacement the active
packet. -/
theorem GetActiveRenderPacket_set (proxy : FCProceduralPackMeshSceneProxy)
    (pkt pkt' : FProceduralPackMeshRenderPacket)
    (needs_index_updating needs_material_updating : Bool) (needs_index_update_num : Int)
    (hact : GetActiveRenderPacket proxy = some pkt) :
    GetActiveRenderPacket
      { renderPackets := proxy.renderPackets.set proxy.active_render_packet_idx.toNat pkt'
        active_render_packet_idx := proxy.active_render_packet_idx
        needs_index_updating := needs_index_updating
        needs_index_update_num := needs_index_update_num
        needs_material_updating := needs_material_updating } = some pkt' := by
  obtain ⟨h0, h1, _⟩ := GetActiveRenderPacket_eq_some proxy pkt hact
  have hlt : proxy.active_render_packet_idx.toNat < proxy.renderPackets.length := by omega
  simp [GetActiveRenderPacket, IsValidIndex, packetAt, h0, h1, not_lt.mpr h0,
    List.getElem?_set_self hlt]

/-- C12: `setRealIndicesNum(n)` sets the renderable index count to `n` when
`n > 0` and to the full count `indices_num` otherwise.  When an index update
with count `n` is pending, `SetDynamicData_RenderThread` on a valid active
packet (cache length equal to `point_num`, `indices_num` source indices
readable) returns, applies it and clears the pending flag; the source indices,
their count and the staged index data are unchanged, and every draw item
emitted afterwards has primitive count "that value divided by 3". -/
theorem index_range_applied (proxy : FCProceduralPackMeshSceneProxy)
    (pkt : FProceduralPackMeshRenderPacket) (n : Int)
    (hact : GetActiveRenderPacket proxy = some pkt)
    (hpend : proxy.needs_index_updating = true)
    (hn : proxy.needs_index_update_num = n)
    (hcache : (pkt.VertexCache.length : Int) = pkt.point_num)
    (hM0 : 0 ≤ pkt.indices_num) (hMl : pkt.indices_num ≤ (pkt.indices.length : Int)) :
    (setRealIndicesNum pkt n).real_indices_num = (if n > 0 then n else pkt.indices_num) ∧
    (setRealIndicesNum pkt n).indices = pkt.indices ∧
    ∃ proxy' pkt', SetDynamicData_RenderThread proxy = some proxy' ∧
      GetActiveRenderPacket proxy' = some pkt' ∧
      pkt'.real_indices_num = (if n > 0 then n else pkt.indices_num) ∧
      proxy'.needs_index_updating = false ∧ proxy'.needs_index_update_num = -1 ∧
      pkt'.indices = pkt.indices ∧ pkt'.indices_num = pkt.indices_num ∧
      pkt'.IndexBufferIndices = pkt.IndexBufferIndices ∧
      ∀ (showFlag : Int) (numViews VisibilityMap : Nat), showFlag ≠ 0 → 0 < pkt.point_num →
        numViews ≤ 32 →
        ∃ items, GetDynamicMeshElements showFlag proxy' numViews VisibilityMap = some items ∧
          ∀ item ∈ items, item.NumPrimitives =
            toUInt32 (Int.tdiv (if n > 0 then n else pkt.indices_num) 3) := by
  obtain ⟨h0, h1, hpk⟩ := GetActiveRenderPacket_eq_some proxy pkt hact
  refine ⟨rfl, rfl, ?_⟩
  have hact' := GetActiveRenderPacket_set proxy pkt
    (setRealIndicesNum { pkt with VertexBufferVertices := pkt.VertexCache } n)
    false proxy.needs_material_updating (-1) hact
  refine ⟨_, setRealIndicesNum { pkt with VertexBufferVertices := pkt.VertexCache } n,
    ?_, hact', rfl, rfl, rfl, rfl, rfl, rfl, ?_⟩
  · simp [SetDynamicData_RenderThread, not_lt.mpr h0, hpk, UpdateDirectVertexData, hcache,
      hpend, hn, UpdateDirectIndexData, setRealIndicesNum, hM0, hMl]
  · intro showFlag numViews VisibilityMap hs hp h32
    refine ⟨_, GetDynamicMeshElements_active showFlag _ _ numViews VisibilityMap hact' hs hp h32,
      ?_⟩
    intro item hitem
    simp only [specDrawBatch, List.mem_map] at hitem
    obtain ⟨i, _, hi⟩ := hitem
    rw [← hi]
    rfl

/-- Witness for C12: a pending update with count 3 on the sample proxy. -/
theorem index_range_applied_witness :
    (setRealIndicesNum sampleStagedPacket 3).real_indices_num
      = (if (3 : Int) > 0 then 3 else sampleStagedPacket.indices_num) ∧
    (setRealIndicesNum sampleStagedPacket 3).indices = sampleStagedPacket.indices ∧
    ∃ proxy' pkt', SetDynamicData_RenderThread (SetNeedsIndexUpdate sampleProxy true 3)
        = some proxy' ∧
      GetActiveRenderPacket proxy' = some pkt' ∧
      pkt'.real_indices_num = (if (3 : Int) > 0 then 3 else sampleStagedPacket.indices_num) ∧
      proxy'.needs_index_updating = false ∧ proxy'.needs_index_update_num = -1 ∧
      pkt'.indices = sampleStagedPacket.indices ∧
      pkt'.indices_num = sampleStagedPacket.indices_num ∧
      pkt'.IndexBufferIndices = sampleStagedPacket.IndexBufferIndices ∧
      ∀ (showFlag : Int) (numViews VisibilityMap : Nat), showFlag ≠ 0 →
        0 < sampleStagedPacket.point_num → numViews ≤ 32 →
        ∃ items, GetDynamicMeshElements showFlag proxy' numViews VisibilityMap = some items ∧
          ∀ item ∈ items, item.NumPrimitives =
            toUInt32 (Int.tdiv (if (3 : Int) > 0 then 3 else sampleStagedPacket.indices_num) 3) :=
  index_range_applied (SetNeedsIndexUpdate sampleProxy true 3) sampleStagedPacket 3
    (by decide) rfl rfl (by decide) (by decide) (by decide)

/-! ## Idempotence of the build -/

/-- Two vertices with the same six fields are equal. -/
theorem vertex_ext (a b : FDynamicMeshVertex) (hP : a.Position = b.Position)
    (hT : a.TextureCoordinate = b.TextureCoordinate) (hX : a.TangentX = b.TangentX)
    (hY : a.TangentY = b.TangentY) (hZ : a.TangentZ = b.TangentZ) (hC : a.Color = b.Color) :
    a = b := by
  cases a
  cases b
  simp_all

/-- What the per-point loop writes is determined by the source arrays; the
tangent fields are those of the vertex it overwrites. -/
theorem PointWritten_fields {pkt : FProceduralPackMeshRenderPacket}
    {old1 old2 mid1 mid2 : FDynamicMeshVertex} {i : Nat}
    (h1 : PointWritten pkt old1 mid1 i) (h2 : PointWritten pkt old2 mid2 i) :
    mid1.Position = mid2.Position ∧ mid1.Color = mid2.Color ∧
    mid1.TextureCoordinate = mid2.TextureCoordinate ∧
    tangentsOf mid1 = tangentsOf old1 := by
  obtain ⟨px, py, pz, a, u, v, e0, e2, e1, ea, eu0, eu1, hm1⟩ := h1
  obtain ⟨px', py', pz', a', u', v', f0, f2, f1, fa, fu0, fu1, hm2⟩ := h2
  rw [e0] at f0
  rw [e2] at f2
  rw [e1] at f1
  rw [ea] at fa
  rw [eu0] at fu0
  rw [eu1] at fu1
  simp only [Option.some.injEq] at f0 f2 f1 fa fu0 fu1
  subst f0 f2 f1 fa fu0 fu1
  subst hm1 hm2
  exact ⟨rfl, rfl, rfl, rfl⟩

/-- Among the first `n` triangles either none uses vertex `j` or there is a
last one that does. -/
theorem last_use_cases (indices : List Nat) (j n : Nat) :
    (∀ t, t < n → ¬ triangleUses indices t j) ∨
    ∃ t, t < n ∧ triangleUses indices t j ∧
      ∀ t', t < t' → t' < n → ¬ triangleUses indices t' j := by
  induction n with
  | zero => exact Or.inl (fun t ht => absurd ht (Nat.not_lt_zero t))
  | succ k ih =>
    by_cases hk : triangleUses indices k j
    · exact Or.inr ⟨k, Nat.lt_succ_self k, hk, fun t' h1 h2 => by omega⟩
    · rcases ih with hno | ⟨t, ht, hut, hlater⟩
      · left
        intro t ht
        rcases Nat.lt_succ_iff_lt_or_eq.mp ht with h | h
        · exact hno t h
        · subst h
          exact hk
      · right
        refine ⟨t, Nat.lt_succ_of_lt ht, hut, ?_⟩
        intro t' h1 h2
        rcases Nat.lt_succ_iff_lt_or_eq.mp h2 with h | h
        · exact hlater t' h1 h
        · subst h
          exact hk

/-- A second build of a freshly built packet changes nothing: on a well-formed
packet, if the build returns `pkt'` then the build of `pkt'` returns `pkt'`. -/
theorem CreateDirectVertexData_idempotent (E : Engine)
    (pkt pkt' : FProceduralPackMeshRenderPacket) (hwf : WellFormed pkt)
    (hrun : CreateDirectVertexData E pkt = some pkt') :
    CreateDirectVertexData E pkt' = some pkt' := by
  obtain ⟨pkt1, cache1, hres1, hrun1, _, hlen1, hall1⟩ := CreateDirectVertexData_spec E pkt hwf
  rw [hrun] at hrun1
  have hpk : pkt' = { pkt1 with VertexCache := cache1 } := Option.some.inj hrun1
  obtain ⟨fi, fp, fu, fn, fm, _, fa, _⟩ := CreateDirectVertexData_fields E pkt pkt' hrun
  have hwf' : WellFormed pkt' := hwf.congr fi fp fu fn fm fa
  obtain ⟨hcast, _⟩ := hwf.nat_bounds
  have hc' : pkt'.VertexCache = cache1 := by rw [hpk]
  obtain ⟨pkt2, cache2, hres2, hrun2, _, hlen2, hall2⟩ := CreateDirectVertexData_spec E pkt' hwf'
  obtain ⟨pkt2', hres2', _, hsame, _⟩ := resizeVertexCache_spec E pkt' hwf'.1
  have h22 : pkt2 = pkt' := by
    rw [hres2] at hres2'
    rw [Option.some.inj hres2']
    apply hsame
    rw [hc', hlen1, fn]
    exact hcast
  subst h22
  rw [fn] at hlen2 hall2
  -- entry by entry, the second cache has the fields of the first
  have hfields : ∀ j, j < pkt.point_num.toNat → ∃ new1 new2 mid2,
      cache1[j]? = some new1 ∧ cache2[j]? = some new2 ∧
      new2.Position = new1.Position ∧ new2.Color = new1.Color ∧
      new2.TextureCoordinate = new1.TextureCoordinate ∧
      SameButTangents mid2 new2 ∧ tangentsOf mid2 = tangentsOf new1 ∧
      ((∀ t, t < triangleIterations pkt.indices_num → ¬ triangleUses pkt.indices t j) →
        new2 = mid2) := by
    intro j hj
    obtain ⟨old1, mid1, new1, _, hw1, hn1, hs1, _, _⟩ := hall1 j hj
    obtain ⟨old2, mid2, new2, ho2, hw2, hn2, hs2, hu2, _⟩ := hall2 j hj
    rw [hc', hn1] at ho2
    have ho : old2 = new1 := (Option.some.inj ho2).symm
    subst ho
    have hw2' : PointWritten pkt old2 mid2 j := by
      obtain ⟨px, py, pz, a, u, v, e0, e2, e1, ea, eu0, eu1, hm⟩ := hw2
      exact ⟨px, py, pz, a, u, v, by rw [← fp]; exact e0, by rw [← fp]; exact e2,
        by rw [← fp]; exact e1, by rw [← fa]; exact ea, by rw [← fu]; exact eu0,
        by rw [← fu]; exact eu1, hm⟩
    obtain ⟨gP, gC, gT, gtan⟩ := PointWritten_fields hw2' hw1
    refine ⟨old2, new2, mid2, hn1, hn2, ?_, ?_, ?_, hs2, gtan, ?_⟩
    · rw [hs2.1, gP, hs1.1]
    · rw [hs2.2.1, gC, hs1.2.1]
    · rw [hs2.2.2, gT, hs1.2.2]
    · intro hno
      exact hu2 (by rw [fm, fi]; exact hno)
  have hpos : ∀ j : Nat, (cache2[j]?).map (fun v => v.Position)
      = (cache1[j]?).map (fun v => v.Position) := by
    intro j
    by_cases hj : j < pkt.point_num.toNat
    · obtain ⟨new1, new2, _, h1, h2, hP, _⟩ := hfields j hj
      rw [h1, h2]
      simp [hP]
    · rw [List.getElem?_eq_none (by omega), List.getElem?_eq_none (by omega)]
  have hcache : cache2 = cache1 := by
    apply List.ext_getElem?
    intro j
    by_cases hj : j < pkt.point_num.toNat
    · obtain ⟨old1, mid1, new1', _, _, hn1', _, hu1, hl1⟩ := hall1 j hj
      obtain ⟨_, _, new2', _, _, hn2', _, _, hl2⟩ := hall2 j hj
      obtain ⟨new1, new2, mid2, h1, h2, hP, hC, hT, hs2, gtan, hu2⟩ := hfields j hj
      rw [h1] at hn1'
      rw [h2] at hn2'
      have e1 : new1' = new1 := (Option.some.inj hn1').symm
      have e2 : new2' = new2 := (Option.some.inj hn2').symm
      subst e1 e2
      rw [h1, h2]
      have htan : tangentsOf new2' = tangentsOf new1' := by
        rcases last_use_cases pkt.indices j (triangleIterations pkt.indices_num) with
          hno | ⟨t, ht, hut, hlater⟩
        · rw [hu2 hno]
          exact gtan
        · have b1 := hl1 t ht hut hlater
          have b2 := hl2 t (by rw [fm]; exact ht) (by rw [fi]; exact hut)
            (by rw [fm, fi]; exact hlater)
          rw [fi, triangleBasisAt_congr E pkt.indices cache2 cache1 t hpos, b1] at b2
          exact (Option.some.inj b2).symm
      simp only [tangentsOf, Prod.mk.injEq] at htan
      exact congrArg some (vertex_ext _ _ hP hT htan.1 htan.2.1 htan.2.2 hC)
    · rw [List.getElem?_eq_none (by omega), List.getElem?_eq_none (by omega)]
  rw [hrun2, hcache, ← hc']

/-- The bounds refresh only touches the two cached corners. -/
theorem ProcessCalcBounds_shape (comp comp' : UCustomPackProceduralMeshComponent)
    (localRenderProxy : Option FCProceduralPackMeshSceneProxy)
    (h : ProcessCalcBounds comp localRenderProxy = some comp') :
    comp' = { comp with
      calc_local_vec_min := comp'.calc_local_vec_min,
      calc_local_vec_max := comp'.calc_local_vec_max } := by
  unfold ProcessCalcBounds at h
  simp only at h
  split at h
  · rename_i p _ _
    cases hs : boundsScan p.points p.point_num with
    | none => simp [hs] at h
    | some acc =>
      simp only [hs, Option.bind_eq_bind, Option.some_bind, Option.some.injEq] at h
      rw [← h]
  · simp only [Option.some.injEq] at h
    rw [← h]

/-- The bounds refresh returns when the active packet has three floats per
point. -/
theorem ProcessCalcBounds_returns (comp : UCustomPackProceduralMeshComponent)
    (proxy : FCProceduralPackMeshSceneProxy) (pkt : FProceduralPackMeshRenderPacket)
    (hact : GetActiveRenderPacket proxy = some pkt)
    (hlen : 3 * pkt.point_num ≤ (pkt.points.length : Int)) :
    ∃ comp', ProcessCalcBounds comp (some proxy) = some comp' := by
  by_cases hready : comp.render_proxy_ready = true
  · by_cases hN : 0 < pkt.point_num
    · rw [ProcessCalcBounds_active comp proxy pkt hready hact hN]
      obtain ⟨acc, hacc⟩ := boundsScan_returns pkt.points pkt.point_num hN hlen
      exact ⟨_, by rw [hacc]; rfl⟩
    · refine ⟨{ comp with
        calc_local_vec_min := ⟨.finite (-bounds_max_scalar), .finite (-bounds_max_scalar),
          .finite (-bounds_max_scalar)⟩,
        calc_local_vec_max := ⟨.finite bounds_max_scalar, .finite bounds_max_scalar,
          .finite bounds_max_scalar⟩ }, ?_⟩
      simp only [ProcessCalcBounds, hready, if_true, Option.bind, hact, gt_iff_lt, hN,
        decide_False]
  · refine ⟨{ comp with
      calc_local_vec_min := ⟨.finite (-bounds_max_scalar), .finite (-bounds_max_scalar),
        .finite (-bounds_max_scalar)⟩,
      calc_local_vec_max := ⟨.finite bounds_max_scalar, .finite bounds_max_scalar,
        .finite bounds_max_scalar⟩ }, ?_⟩
    simp only [ProcessCalcBounds, hready, Bool.false_eq_true, if_false]

/-- The per-frame refresh of a proxy with a well-formed valid active packet:
the build of that packet returns and its result replaces the packet. -/
theorem UpdateDynamicComponentData_active (E : Engine) (proxy : FCProceduralPackMeshSceneProxy)
    (pkt : FProceduralPackMeshRenderPacket)
    (hact : GetActiveRenderPacket proxy = some pkt) (hwf : WellFormed pkt) :
    ∃ pkt', CreateDirectVertexData E pkt = some pkt' ∧
      UpdateDynamicComponentData E proxy = some
        { renderPackets := proxy.renderPackets.set proxy.active_render_packet_idx.toNat pkt'
          active_render_packet_idx := proxy.active_render_packet_idx
          needs_index_updating := proxy.needs_index_updating
          needs_index_update_num := proxy.needs_index_update_num
          needs_material_updating := false } := by
  obtain ⟨h0, _, hpk⟩ := GetActiveRenderPacket_eq_some proxy pkt hact
  obtain ⟨pkt1, cache', _, hrun, _⟩ := CreateDirectVertexData_spec E pkt hwf
  refine ⟨_, hrun, ?_⟩
  unfold UpdateDynamicComponentData
  by_cases hm : proxy.needs_material_updating = true
  · simp [not_lt.mpr h0, hm, UpdateMaterial, hpk, hrun]
  · simp only [Bool.not_eq_true] at hm
    simp [not_lt.mpr h0, hm, hpk, hrun]

/-- Switching to the index that is already active changes nothing. -/
theorem proxyAfterSwitch_same (proxy other : FCProceduralPackMeshSceneProxy) (idx : Int)
    (h : other.active_render_packet_idx = (proxyAfterSwitch proxy idx).active_render_packet_idx) :
    proxyAfterSwitch other idx = other := by
  unfold proxyAfterSwitch at h ⊢
  by_cases hi : idx ≥ 0
  · simp only [hi, if_true, SetActiveRenderPacketIdx] at h ⊢
    cases other
    simp_all
  · simp only [hi, if_false]

/-- One `ForceAnUpdate` with no recreation pending, a ready proxy and a
well-formed valid active packet after the optional switch: it returns, the
built packet replaces the active one, and the two flags stay as they were. -/
theorem ForceAnUpdate_active (E : Engine) (comp : UCustomPackProceduralMeshComponent)
    (render_packet_idx : Int) (markDirty : Bool) (proxy : FCProceduralPackMeshSceneProxy)
    (pkt : FProceduralPackMeshRenderPacket)
    (hrec : comp.recreate_render_proxy = false) (hready : comp.render_proxy_ready = true)
    (hproxy : comp.SceneProxy = some proxy)
    (hact : GetActiveRenderPacket (proxyAfterSwitch proxy render_packet_idx) = some pkt)
    (hwf : WellFormed pkt) :
    ∃ pkt' comp1 proxy2, CreateDirectVertexData E pkt = some pkt' ∧
      ForceAnUpdate E comp render_packet_idx markDirty = some comp1 ∧
      comp1.SceneProxy = some proxy2 ∧
      GetActiveRenderPacket proxy2 = some pkt' ∧
      proxy2.active_render_packet_idx =
        (proxyAfterSwitch proxy render_packet_idx).active_render_packet_idx ∧
      comp1.recreate_render_proxy = false ∧ comp1.render_proxy_ready = true := by
  obtain ⟨pkt', hrun, hupd⟩ :=
    UpdateDynamicComponentData_active E (proxyAfterSwitch proxy render_packet_idx) pkt hact hwf
  have hact2 := GetActiveRenderPacket_set (proxyAfterSwitch proxy render_packet_idx) pkt pkt'
    (proxyAfterSwitch proxy render_packet_idx).needs_index_updating false
    (proxyAfterSwitch proxy render_packet_idx).needs_index_update_num hact
  obtain ⟨_, fp, _, fn, _⟩ := CreateDirectVertexData_fields E pkt pkt' hrun
  obtain ⟨comp', hpcb⟩ := ProcessCalcBounds_returns comp _ pkt' hact2
    (by rw [fp, fn]; exact hwf.2.2.2.1)
  have hshape := ProcessCalcBounds_shape comp comp' _ hpcb
  have hrec' : comp'.recreate_render_proxy = false := by rw [hshape]; exact hrec
  have hready' : comp'.render_proxy_ready = true := by rw [hshape]; exact hready
  unfold proxyAfterSwitch at hupd hpcb
  cases markDirty with
  | true =>
    refine ⟨pkt', { comp' with
        SceneProxy := some _, renderTransformDirty := true, renderDynamicDataDirty := true },
      _, hrun, ?_, rfl, hact2, rfl, hrec', hready'⟩
    simp only [ForceAnUpdate, hrec, Bool.false_eq_true, if_false, hproxy, hready, if_true,
      hupd, Option.bind_eq_bind, Option.some_bind, hpcb]
    rfl
  | false =>
    refine ⟨pkt', { comp' with SceneProxy := some _ }, _, hrun, ?_, rfl, hact2, rfl,
      hrec', hready'⟩
    simp only [ForceAnUpdate, hrec, Bool.false_eq_true, if_false, hproxy, hready, if_true,
      hupd, Option.bind_eq_bind, Option.some_bind, hpcb]
    rfl

/-! ## Component claims -/

/-- C13: idempotence of the per-frame refresh.  With no recreation pending, a
ready proxy and a well-formed valid active packet (after the optional switch
to `render_packet_idx`), two consecutive `ForceAnUpdate` calls with the same
index both return, and the active packet's vertex cache after the second call
is the one after the first call: same length, same vertices. -/
theorem frame_update_idempotent (E : Engine) (comp : UCustomPackProceduralMeshComponent)
    (render_packet_idx : Int) (markDirty1 markDirty2 : Bool)
    (proxy : FCProceduralPackMeshSceneProxy) (pkt : FProceduralPackMeshRenderPacket)
    (hrec : comp.recreate_render_proxy = false) (hready : comp.render_proxy_ready = true)
    (hproxy : comp.SceneProxy = some proxy)
    (hact : GetActiveRenderPacket (proxyAfterSwitch proxy render_packet_idx) = some pkt)
    (hwf : WellFormed pkt) :
    ∃ comp1 comp2 proxy1 proxy2 pkt1 pkt2,
      ForceAnUpdate E comp render_packet_idx markDirty1 = some comp1 ∧
      ForceAnUpdate E comp1 render_packet_idx markDirty2 = some comp2 ∧
      comp1.SceneProxy = some proxy1 ∧ comp2.SceneProxy = some proxy2 ∧
      GetActiveRenderPacket proxy1 = some pkt1 ∧ GetActiveRenderPacket proxy2 = some pkt2 ∧
      pkt2.VertexCache = pkt1.VertexCache ∧
      (pkt1.VertexCache.length : Int) = pkt.point_num := by
  obtain ⟨pkt1, comp1, proxy1, hrun1, hf1, hp1, ha1, hidx1, hrec1, hready1⟩ :=
    ForceAnUpdate_active E comp render_packet_idx markDirty1 proxy pkt hrec hready hproxy hact hwf
  obtain ⟨fi, fp, fu, fn, fm, _, fa, _⟩ := CreateDirectVertexData_fields E pkt pkt1 hrun1
  have hwf1 : WellFormed pkt1 := hwf.congr fi fp fu fn fm fa
  have hsw : proxyAfterSwitch proxy1 render_packet_idx = proxy1 :=
    proxyAfterSwitch_same proxy proxy1 render_packet_idx hidx1
  obtain ⟨pkt2, comp2, proxy2, hrun2, hf2, hp2, ha2, _, _, _⟩ :=
    ForceAnUpdate_active E comp1 render_packet_idx markDirty2 proxy1 pkt1 hrec1 hready1 hp1
      (by rw [hsw]; exact ha1) hwf1
  have hidem := CreateDirectVertexData_idempotent E pkt pkt1 hwf hrun1
  rw [hidem] at hrun2
  have h21 : pkt2 = pkt1 := (Option.some.inj hrun2).symm
  obtain ⟨_, cache', _, hrun', _, hlen, _⟩ := CreateDirectVertexData_spec E pkt hwf
  rw [hrun1] at hrun'
  have hc : pkt1.VertexCache = cache' := by rw [Option.some.inj hrun']
  refine ⟨comp1, comp2, proxy1, proxy2, pkt1, pkt2, hf1, hf2, hp1, hp2, ha1, ha2,
    by rw [h21], ?_⟩
  rw [hc, hlen]
  exact hwf.nat_bounds.1

/-- Witness for C13: two refreshes of the sample component with packet index 0. -/
theorem frame_update_idempotent_witness :
    ∃ comp1 comp2 proxy1 proxy2 pkt1 pkt2,
      ForceAnUpdate sampleEngine sampleReadyComponent 0 true = some comp1 ∧
      ForceAnUpdate sampleEngine comp1 0 true = some comp2 ∧
      comp1.SceneProxy = some proxy1 ∧ comp2.SceneProxy = some proxy2 ∧
      GetActiveRenderPacket proxy1 = some pkt1 ∧ GetActiveRenderPacket proxy2 = some pkt2 ∧
      pkt2.VertexCache = pkt1.VertexCache ∧
      (pkt1.VertexCache.length : Int) = sampleStagedPacket.point_num :=
  frame_update_idempotent sampleEngine sampleReadyComponent 0 true true sampleProxy
    sampleStagedPacket rfl rfl rfl (by decide) (by decide)

/-- C14: `CreateSceneProxy` returns the null proxy exactly when the stored
snapshot has `point_num ≤ 0`; in that case the component, in particular
`render_proxy_ready` and the cached bounds, is unchanged.  With `point_num > 0`
and a well-formed snapshot it returns a proxy and marks the proxy ready. -/
theorem create_proxy_null_iff (E : Engine) (comp : UCustomPackProceduralMeshComponent)
    (not_editor_mode : Bool) :
    ((∃ comp', CreateSceneProxy E comp not_editor_mode = some (comp', none)) ↔
      comp.defaultTriData.point_num ≤ 0) ∧
    (comp.defaultTriData.point_num ≤ 0 →
      CreateSceneProxy E comp not_editor_mode = some (comp, none)) ∧
    (0 < comp.defaultTriData.point_num → WellFormed (bindTriData comp.defaultTriData) →
      ∃ comp' Proxy, CreateSceneProxy E comp not_editor_mode = some (comp', some Proxy) ∧
        comp'.render_proxy_ready = true) := by
  have hnull : comp.defaultTriData.point_num ≤ 0 →
      CreateSceneProxy E comp not_editor_mode = some (comp, none) := by
    intro h
    simp [CreateSceneProxy, not_lt.mpr h]
  refine ⟨⟨?_, fun h => ⟨comp, hnull h⟩⟩, hnull, ?_⟩
  · rintro ⟨comp', h⟩
    by_contra hpos
    have hpos' : 0 < comp.defaultTriData.point_num := not_le.mp hpos
    simp only [CreateSceneProxy, gt_iff_lt, hpos', if_true, Option.bind_eq_bind] at h
    cases h1 : newSceneProxy E (some comp.defaultTriData)
        (if not_editor_mode = true then ⟨0, 0, 0, 0⟩ else ⟨255, 255, 255, 255⟩) with
    | none => simp [h1] at h
    | some Proxy =>
      simp only [h1, Option.some_bind] at h
      cases h2 : ProcessCalcBounds { comp with render_proxy_ready := true } (some Proxy) with
      | none => simp [h2] at h
      | some comp1 => simp [h2] at h
  · intro hpos hwf
    obtain ⟨cur_packet, hadd, hp, hn, _⟩ := AddRenderPacket_spec E (UpdateMaterial emptyProxy)
      comp.defaultTriData (if not_editor_mode = true then ⟨0, 0, 0, 0⟩ else ⟨255, 255, 255, 255⟩)
      hwf
    obtain ⟨Proxy, hProxy⟩ : ∃ Proxy : FCProceduralPackMeshSceneProxy, Proxy =
        { UpdateMaterial emptyProxy with
          renderPackets := (UpdateMaterial emptyProxy).renderPackets ++ [cur_packet],
          active_render_packet_idx :=
            if (UpdateMaterial emptyProxy).active_render_packet_idx = INDEX_NONE then 0
            else (UpdateMaterial emptyProxy).active_render_packet_idx } := ⟨_, rfl⟩
    rw [← hProxy] at hadd
    have hact : GetActiveRenderPacket Proxy = some cur_packet := by
      rw [hProxy]
      simp [GetActiveRenderPacket, IsValidIndex, packetAt, UpdateMaterial, emptyProxy]
    obtain ⟨comp', hpcb⟩ := ProcessCalcBounds_returns { comp with render_proxy_ready := true }
      Proxy cur_packet hact (by
        rw [hp, hn]
        exact hwf.2.2.2.1)
    have hshape := ProcessCalcBounds_shape _ comp' _ hpcb
    refine ⟨comp', Proxy, ?_, by rw [hshape]⟩
    simp only [CreateSceneProxy, gt_iff_lt, hpos, if_true, newSceneProxy, hadd,
      Option.bind_eq_bind, Option.some_bind, hpcb]

/-- Witness for C14 on a component whose snapshot has no points: the null
proxy is returned and the component is unchanged. -/
theorem create_proxy_null_iff_witness :
    ((∃ comp', CreateSceneProxy sampleEngine sampleEmptyComponent true = some (comp', none)) ↔
      sampleEmptyComponent.defaultTriData.point_num ≤ 0) ∧
    (sampleEmptyComponent.defaultTriData.point_num ≤ 0 →
      CreateSceneProxy sampleEngine sampleEmptyComponent true
        = some (sampleEmptyComponent, none)) ∧
    (0 < sampleEmptyComponent.defaultTriData.point_num →
      WellFormed (bindTriData sampleEmptyComponent.defaultTriData) →
      ∃ comp' Proxy, CreateSceneProxy sampleEngine sampleEmptyComponent true
          = some (comp', some Proxy) ∧
        comp'.render_proxy_ready = true) :=
  create_proxy_null_iff sampleEngine sampleEmptyComponent true

/-! ## Lock discipline -/

/-- The traced `AddRenderPacket` ends in the proxy the method computes. -/
theorem AddRenderPacket_traced_proxy (E : Engine) (proxy : FCProceduralPackMeshSceneProxy)
    (targetTrisIn : FProceduralPackMeshTriData) (startColorIn : FColor) :
    (AddRenderPacket_traced E (startRun proxy) targetTrisIn startColorIn).map (fun r => r.proxy)
      = AddRenderPacket E proxy targetTrisIn startColorIn := by
  unfold AddRenderPacket_traced AddRenderPacket
  cases hn : newRenderPacket E targetTrisIn with
  | none => rfl
  | some new_packet =>
    cases hf : fillInitialBuffers E new_packet startColorIn with
    | none =>
      simp [hf, startRun, ProxyRun.lock, ProxyRun.record, ProxyRun.addPacket,
        ProxyRun.lastPacket]
    | some cur_packet =>
      by_cases hi : proxy.active_render_packet_idx = INDEX_NONE <;>
      simp [hf, hi, startRun, ProxyRun.lock, ProxyRun.record, ProxyRun.addPacket,
        ProxyRun.lastPacket, ProxyRun.setLastPacket, ProxyRun.enqueue, ProxyRun.getActiveIndex,
        ProxyRun.setActiveIndex, ProxyRun.unlock]

/-- The events of a run of `AddRenderPacket` that returns. -/
theorem AddRenderPacket_traced_trace (E : Engine) (proxy : FCProceduralPackMeshSceneProxy)
    (targetTrisIn : FProceduralPackMeshTriData) (startColorIn : FColor) (r : ProxyRun)
    (h : AddRenderPacket_traced E (startRun proxy) targetTrisIn startColorIn = some r) :
    r.trace = [.Lock, .WritePackets, .ReadPackets, .WritePackets, .Enqueue, .Enqueue, .Enqueue,
        .Enqueue, .WritePackets, .ReadActiveIndex]
      ++ (if proxy.active_render_packet_idx = INDEX_NONE then [.WriteActiveIndex] else [])
      ++ [.Unlock] := by
  unfold AddRenderPacket_traced at h
  cases hn : newRenderPacket E targetTrisIn with
  | none => simp [hn] at h
  | some new_packet =>
    cases hf : fillInitialBuffers E new_packet startColorIn with
    | none =>
      simp [hn, hf, startRun, ProxyRun.lock, ProxyRun.record, ProxyRun.addPacket,
        ProxyRun.lastPacket] at h
    | some cur_packet =>
      by_cases hi : proxy.active_render_packet_idx = INDEX_NONE <;>
      simp [hn, hf, hi, startRun, ProxyRun.lock, ProxyRun.record, ProxyRun.addPacket,
        ProxyRun.lastPacket, ProxyRun.setLastPacket, ProxyRun.enqueue, ProxyRun.getActiveIndex,
        ProxyRun.setActiveIndex, ProxyRun.unlock] at h <;>
      subst h <;> simp [hi]

/-- The traced `ResetAllRenderPackets` ends in the proxy the method computes. -/
theorem ResetAllRenderPackets_traced_proxy (proxy : FCProceduralPackMeshSceneProxy) :
    (ResetAllRenderPackets_traced (startRun proxy)).proxy = ResetAllRenderPackets proxy := rfl

/-- The events of `ResetAllRenderPackets`. -/
theorem ResetAllRenderPackets_traced_trace (proxy : FCProceduralPackMeshSceneProxy) :
    (ResetAllRenderPackets_traced (startRun proxy)).trace
      = [.Lock, .WritePackets, .WriteActiveIndex, .Unlock] := rfl

/-- The events of `SetActiveRenderPacketIdx`. -/
theorem SetActiveRenderPacketIdx_traced_trace (proxy : FCProceduralPackMeshSceneProxy)
    (idxIn : Int) :
    (SetActiveRenderPacketIdx_traced (startRun proxy) idxIn).trace
      = [.Lock, .WriteActiveIndex, .Unlock] := rfl

/-- The traced `SetActiveRenderPacketIdx` ends in the proxy the method computes. -/
theorem SetActiveRenderPacketIdx_traced_proxy (proxy : FCProceduralPackMeshSceneProxy)
    (idxIn : Int) :
    (SetActiveRenderPacketIdx_traced (startRun proxy) idxIn).proxy
      = SetActiveRenderPacketIdx proxy idxIn := rfl

/-- The traced `UpdateDynamicComponentData` ends in the proxy the method
computes. -/
theorem UpdateDynamicComponentData_traced_proxy (E : Engine)
    (proxy : FCProceduralPackMeshSceneProxy) :
    (UpdateDynamicComponentData_traced E (startRun proxy)).map (fun r => r.proxy)
      = UpdateDynamicComponentData E proxy := by
  unfold UpdateDynamicComponentData_traced UpdateDynamicComponentData
  by_cases h : proxy.active_render_packet_idx < 0
  · simp [h, startRun, ProxyRun.getActiveIndex, ProxyRun.record]
  · by_cases hm : proxy.needs_material_updating = true <;>
    cases hp : packetAt proxy.renderPackets proxy.active_render_packet_idx <;>
    simp [h, hm, hp, startRun, ProxyRun.getActiveIndex, ProxyRun.record, ProxyRun.lock,
        ProxyRun.setFlags, ProxyRun.getPacket, ProxyRun.setPacket, ProxyRun.unlock,
        UpdateMaterial]

/-- The events of a run of `UpdateDynamicComponentData` that returns. -/
theorem UpdateDynamicComponentData_traced_trace (E : Engine)
    (proxy : FCProceduralPackMeshSceneProxy) (r : ProxyRun)
    (h : UpdateDynamicComponentData_traced E (startRun proxy) = some r) :
    r.trace = if proxy.active_render_packet_idx < 0 then [.ReadActiveIndex]
      else [.ReadActiveIndex, .Lock, .ReadActiveIndex, .ReadPackets, .WritePackets, .Unlock] := by
  unfold UpdateDynamicComponentData_traced at h
  by_cases h0 : proxy.active_render_packet_idx < 0
  · simp [h0, startRun, ProxyRun.getActiveIndex, ProxyRun.record] at h
    subst h
    simp [h0]
  · by_cases hm : proxy.needs_material_updating = true <;>
    cases hp : packetAt proxy.renderPackets proxy.active_render_packet_idx <;>
    simp [h0, hm, hp, startRun, ProxyRun.getActiveIndex, ProxyRun.record, ProxyRun.lock,
        ProxyRun.setFlags, ProxyRun.getPacket, ProxyRun.setPacket, ProxyRun.unlock] at h <;>
    rename_i pkt <;>
    cases hc : CreateDirectVertexData E pkt <;> simp [hc] at h <;>
    subst h <;> simp [h0]

/-- The traced `SetDynamicData_RenderThread` ends in the proxy the method
computes. -/
theorem SetDynamicData_RenderThread_traced_proxy (proxy : FCProceduralPackMeshSceneProxy) :
    (SetDynamicData_RenderThread_traced (startRun proxy)).map (fun r => r.proxy)
      = SetDynamicData_RenderThread proxy := by
  unfold SetDynamicData_RenderThread_traced SetDynamicData_RenderThread
  by_cases h : proxy.active_render_packet_idx < 0
  · simp [h, startRun, ProxyRun.getActiveIndex, ProxyRun.record, ProxyRun.lock, ProxyRun.unlock]
  · cases hp : packetAt proxy.renderPackets proxy.active_render_packet_idx with
    | none =>
      simp [h, hp, startRun, ProxyRun.getActiveIndex, ProxyRun.record, ProxyRun.lock,
        ProxyRun.getPacket]
    | some pkt =>
      cases hv : UpdateDirectVertexData pkt with
      | none =>
        simp [h, hp, hv, startRun, ProxyRun.getActiveIndex, ProxyRun.record, ProxyRun.lock,
          ProxyRun.getPacket]
      | some pkt1 =>
        by_cases hx : proxy.needs_index_updating = true
        · cases hd : UpdateDirectIndexData (setRealIndicesNum pkt1 proxy.needs_index_update_num) <;>
          simp [h, hp, hv, hx, hd, startRun, ProxyRun.getActiveIndex, ProxyRun.record,
            ProxyRun.lock, ProxyRun.getPacket, ProxyRun.setPacket, ProxyRun.setFlags,
            ProxyRun.unlock]
        · simp [h, hp, hv, hx, startRun, ProxyRun.getActiveIndex, ProxyRun.record,
            ProxyRun.lock, ProxyRun.getPacket, ProxyRun.setPacket, ProxyRun.setFlags,
            ProxyRun.unlock]

/-- The events of a run of `SetDynamicData_RenderThread` that returns. -/
theorem SetDynamicData_RenderThread_traced_trace (proxy : FCProceduralPackMeshSceneProxy)
    (r : ProxyRun) (h : SetDynamicData_RenderThread_traced (startRun proxy) = some r) :
    r.trace = if proxy.active_render_packet_idx < 0 then [.Lock, .ReadActiveIndex, .Unlock]
      else [.Lock, .ReadActiveIndex, .ReadActiveIndex, .ReadPackets, .WritePackets]
        ++ (if proxy.needs_index_updating then [.WritePackets] else []) ++ [.Unlock] := by
  unfold SetDynamicData_RenderThread_traced at h
  by_cases h0 : proxy.active_render_packet_idx < 0
  · simp [h0, startRun, ProxyRun.getActiveIndex, ProxyRun.record, ProxyRun.lock,
      ProxyRun.unlock] at h
    subst h
    simp [h0]
  · cases hp : packetAt proxy.renderPackets proxy.active_render_packet_idx with
    | none =>
      simp [h0, hp, startRun, ProxyRun.getActiveIndex, ProxyRun.record, ProxyRun.lock,
        ProxyRun.getPacket] at h
    | some pkt =>
      cases hv : UpdateDirectVertexData pkt with
      | none =>
        simp [h0, hp, hv, startRun, ProxyRun.getActiveIndex, ProxyRun.record, ProxyRun.lock,
          ProxyRun.getPacket] at h
      | some pkt1 =>
        by_cases hx : proxy.needs_index_updating = true
        · cases hd : UpdateDirectIndexData (setRealIndicesNum pkt1 proxy.needs_index_update_num) <;>
          simp [h0, hp, hv, hx, hd, startRun, ProxyRun.getActiveIndex, ProxyRun.record,
            ProxyRun.lock, ProxyRun.getPacket, ProxyRun.setPacket, ProxyRun.setFlags,
            ProxyRun.unlock] at h
          subst h
          simp [h0, hx]
        · simp [h0, hp, hv, hx, startRun, ProxyRun.getActiveIndex, ProxyRun.record,
            ProxyRun.lock, ProxyRun.getPacket, ProxyRun.setPacket, ProxyRun.setFlags,
            ProxyRun.unlock] at h
          subst h
          simp [h0, hx]

/-- The traced `GetDynamicMeshElements` emits the draw items the method
computes. -/
theorem GetDynamicMeshElements_traced_items (showFlag : Int)
    (proxy : FCProceduralPackMeshSceneProxy) (numViews VisibilityMap : Nat) :
    (GetDynamicMeshElements_traced showFlag (startRun proxy) numViews VisibilityMap).map
        (fun x => x.1)
      = GetDynamicMeshElements showFlag proxy numViews VisibilityMap := by
  unfold GetDynamicMeshElements_traced GetDynamicMeshElements
  by_cases hs : showFlag = 0
  · simp [hs]
  · by_cases h : proxy.active_render_packet_idx < 0
    · simp [hs, h, startRun, ProxyRun.getActiveIndex, ProxyRun.record]
    · cases hp : packetAt proxy.renderPackets proxy.active_render_packet_idx with
      | none =>
        simp [hs, h, hp, startRun, ProxyRun.getActiveIndex, ProxyRun.record, ProxyRun.lock,
          ProxyRun.getPacket]
      | some pkt =>
        by_cases hn : pkt.point_num ≤ 0
        · simp [hs, h, hp, hn, startRun, ProxyRun.getActiveIndex, ProxyRun.record,
            ProxyRun.lock, ProxyRun.getPacket, ProxyRun.unlock]
        · cases hl : (List.range numViews).foldlM (viewStep pkt VisibilityMap) [] <;>
          simp [hs, h, hp, hn, hl, startRun, ProxyRun.getActiveIndex, ProxyRun.record,
            ProxyRun.lock, ProxyRun.getPacket, ProxyRun.unlock]

/-- The events of a run of `GetDynamicMeshElements` that returns; the proxy is
left as it was. -/
theorem GetDynamicMeshElements_traced_trace (showFlag : Int)
    (proxy : FCProceduralPackMeshSceneProxy) (numViews VisibilityMap : Nat)
    (items : List FMeshBatchElement) (r : ProxyRun)
    (h : GetDynamicMeshElements_traced showFlag (startRun proxy) numViews VisibilityMap
      = some (items, r)) :
    r.proxy = proxy ∧
    r.trace = if showFlag = 0 then []
      else if proxy.active_render_packet_idx < 0 then [.ReadActiveIndex]
      else [.ReadActiveIndex, .Lock, .ReadActiveIndex, .ReadPackets, .Unlock] := by
  unfold GetDynamicMeshElements_traced at h
  by_cases hs : showFlag = 0
  · simp [hs, startRun] at h
    obtain ⟨_, h⟩ := h
    subst h
    simp [hs]
  · by_cases h0 : proxy.active_render_packet_idx < 0
    · simp [hs, h0, startRun, ProxyRun.getActiveIndex, ProxyRun.record] at h
      obtain ⟨_, h⟩ := h
      subst h
      simp [hs, h0]
    · cases hp : packetAt proxy.renderPackets proxy.active_render_packet_idx with
      | none =>
        simp [hs, h0, hp, startRun, ProxyRun.getActiveIndex, ProxyRun.record, ProxyRun.lock,
          ProxyRun.getPacket] at h
      | some pkt =>
        by_cases hn : pkt.point_num ≤ 0
        · simp [hs, h0, hp, hn, startRun, ProxyRun.getActiveIndex, ProxyRun.record,
            ProxyRun.lock, ProxyRun.getPacket, ProxyRun.unlock] at h
          obtain ⟨_, h⟩ := h
          subst h
          simp [hs, h0]
        · cases hl : (List.range numViews).foldlM (viewStep pkt VisibilityMap) [] <;>
          simp [hs, h0, hp, hn, hl, startRun, ProxyRun.getActiveIndex, ProxyRun.record,
            ProxyRun.lock, ProxyRun.getPacket, ProxyRun.unlock] at h
          obtain ⟨_, h⟩ := h
          subst h
          simp [hs, h0]

/-- C15 as stated fails.  On the sample proxy, `UpdateDynamicComponentData`
and `GetDynamicMeshElements` test `active_render_packet_idx` before they
construct the scope lock, and `AddRenderPacket` enqueues its four render
commands inside the scope of the lock. -/
theorem lock_discipline_counterexample :
    (UpdateDynamicComponentData_traced sampleEngine (startRun sampleProxy)).map
        (fun r => r.trace)
      = some [.ReadActiveIndex, .Lock, .ReadActiveIndex, .ReadPackets, .WritePackets,
          .Unlock] ∧
    ¬ AccessesUnderLock [.ReadActiveIndex, .Lock, .ReadActiveIndex, .ReadPackets,
      .WritePackets, .Unlock] ∧
    (GetDynamicMeshElements_traced 1 (startRun sampleProxy) 1 1).map (fun x => x.2.trace)
      = some [.ReadActiveIndex, .Lock, .ReadActiveIndex, .ReadPackets, .Unlock] ∧
    ¬ AccessesUnderLock [.ReadActiveIndex, .Lock, .ReadActiveIndex, .ReadPackets, .Unlock] ∧
    (AddRenderPacket_traced sampleEngine (startRun sampleProxy) sampleTriData2
        sampleColor).map (fun r => r.trace)
      = some [.Lock, .WritePackets, .ReadPackets, .WritePackets, .Enqueue, .Enqueue,
          .Enqueue, .Enqueue, .WritePackets, .ReadActiveIndex, .Unlock] ∧
    ¬ NoEnqueueUnderLock [.Lock, .WritePackets, .ReadPackets, .WritePackets, .Enqueue,
      .Enqueue, .Enqueue, .Enqueue, .WritePackets, .ReadActiveIndex, .Unlock] := by
  decide!

/-- C15, amended: the traced operations compute what the proxy methods compute,
and in every proxy state, for every run that returns: `AddRenderPacket`,
`ResetAllRenderPackets`, `SetActiveRenderPacketIdx` and
`SetDynamicData_RenderThread` hold the lock at every read or write of the
active index and of the packet sequence; `UpdateDynamicComponentData` and
`GetDynamicMeshElements` hold it at every access to the packet sequence, but
`UpdateDynamicComponentData`, and `GetDynamicMeshElements` when the show flag
is not 0, start with a read of the active index outside the lock; every
operation that takes the lock releases it before it returns;
only `AddRenderPacket` enqueues render commands, four of them, all while
holding the lock. -/
theorem lock_discipline (E : Engine) (proxy : FCProceduralPackMeshSceneProxy)
    (targetTrisIn : FProceduralPackMeshTriData) (startColorIn : FColor) (idxIn showFlag : Int)
    (numViews VisibilityMap : Nat) :
    ((AddRenderPacket_traced E (startRun proxy) targetTrisIn startColorIn).map
          (fun r => r.proxy) = AddRenderPacket E proxy targetTrisIn startColorIn ∧
      (ResetAllRenderPackets_traced (startRun proxy)).proxy = ResetAllRenderPackets proxy ∧
      (SetActiveRenderPacketIdx_traced (startRun proxy) idxIn).proxy
        = SetActiveRenderPacketIdx proxy idxIn ∧
      (UpdateDynamicComponentData_traced E (startRun proxy)).map (fun r => r.proxy)
        = UpdateDynamicComponentData E proxy ∧
      (SetDynamicData_RenderThread_traced (startRun proxy)).map (fun r => r.proxy)
        = SetDynamicData_RenderThread proxy ∧
      (GetDynamicMeshElements_traced showFlag (startRun proxy) numViews VisibilityMap).map
          (fun x => x.1) = GetDynamicMeshElements showFlag proxy numViews VisibilityMap) ∧
    (∀ r, AddRenderPacket_traced E (startRun proxy) targetTrisIn startColorIn = some r →
      AccessesUnderLock r.trace ∧ lockFreeAfter false r.trace = true ∧
      r.trace.count ProxyEvent.Enqueue = 4 ∧
      ∀ x ∈ withLockState false r.trace, x.2 = ProxyEvent.Enqueue → x.1 = true) ∧
    (AccessesUnderLock (ResetAllRenderPackets_traced (startRun proxy)).trace ∧
      lockFreeAfter false (ResetAllRenderPackets_traced (startRun proxy)).trace = true ∧
      ProxyEvent.Enqueue ∉ (ResetAllRenderPackets_traced (startRun proxy)).trace) ∧
    (AccessesUnderLock (SetActiveRenderPacketIdx_traced (startRun proxy) idxIn).trace ∧
      lockFreeAfter false (SetActiveRenderPacketIdx_traced (startRun proxy) idxIn).trace = true ∧
      ProxyEvent.Enqueue ∉ (SetActiveRenderPacketIdx_traced (startRun proxy) idxIn).trace) ∧
    (∀ r, SetDynamicData_RenderThread_traced (startRun proxy) = some r →
      AccessesUnderLock r.trace ∧ lockFreeAfter false r.trace = true ∧
      ProxyEvent.Enqueue ∉ r.trace) ∧
    (∀ r, UpdateDynamicComponentData_traced E (startRun proxy) = some r →
      PacketsUnderLock r.trace ∧ lockFreeAfter false r.trace = true ∧
      ProxyEvent.Enqueue ∉ r.trace ∧ r.trace.head? = some ProxyEvent.ReadActiveIndex) ∧
    (∀ items r,
      GetDynamicMeshElements_traced showFlag (startRun proxy) numViews VisibilityMap
        = some (items, r) →
      PacketsUnderLock r.trace ∧ lockFreeAfter false r.trace = true ∧
      ProxyEvent.Enqueue ∉ r.trace ∧
      (showFlag ≠ 0 → r.trace.head? = some ProxyEvent.ReadActiveIndex)) := by
  refine ⟨⟨AddRenderPacket_traced_proxy E proxy targetTrisIn startColorIn,
    ResetAllRenderPackets_traced_proxy proxy, SetActiveRenderPacketIdx_traced_proxy proxy idxIn,
    UpdateDynamicComponentData_traced_proxy E proxy,
    SetDynamicData_RenderThread_traced_proxy proxy,
    GetDynamicMeshElements_traced_items showFlag proxy numViews VisibilityMap⟩,
    ?_, ?_, ?_, ?_, ?_, ?_⟩
  · intro r h
    rw [AddRenderPacket_traced_trace E proxy targetTrisIn startColorIn r h]
    by_cases h1 : proxy.active_render_packet_idx = INDEX_NONE <;>
    simp only [h1, if_true, if_false] <;> decide
  · rw [ResetAllRenderPackets_traced_trace]
    decide
  · rw [SetActiveRenderPacketIdx_traced_trace]
    decide
  · intro r h
    rw [SetDynamicData_RenderThread_traced_trace proxy r h]
    by_cases h2 : proxy.active_render_packet_idx < 0 <;>
    by_cases h3 : proxy.needs_index_updating = true <;>
    simp only [h2, h3, if_true, if_false] <;> decide
  · intro r h
    rw [UpdateDynamicComponentData_traced_trace E proxy r h]
    by_cases h2 : proxy.active_render_packet_idx < 0 <;>
    simp only [h2, if_true, if_false] <;> decide
  · intro items r h
    rw [(GetDynamicMeshElements_traced_trace showFlag proxy numViews VisibilityMap items r h).2]
    by_cases h4 : showFlag = 0 <;>
    by_cases h2 : proxy.active_render_packet_idx < 0 <;>
    simp only [h2, h4, if_true, if_false] <;>
    refine ⟨by decide, by decide, by decide, ?_⟩ <;>
    intro h5
    · exact absurd rfl h5
    · exact absurd rfl h5
    · rfl
    · rfl

/-- Witness for amended C15: on the sample proxy the six operations return,
and their runs have the stated properties. -/
theorem lock_discipline_witness :
    (∃ r, AddRenderPacket_traced sampleEngine (startRun sampleProxy) sampleTriData2 sampleColor
        = some r ∧
      AccessesUnderLock r.trace ∧ lockFreeAfter false r.trace = true ∧
      r.trace.count ProxyEvent.Enqueue = 4 ∧
      ∀ x ∈ withLockState false r.trace, x.2 = ProxyEvent.Enqueue → x.1 = true) ∧
    (∃ r, SetDynamicData_RenderThread_traced (startRun sampleProxy) = some r ∧
      AccessesUnderLock r.trace ∧ lockFreeAfter false r.trace = true ∧
      ProxyEvent.Enqueue ∉ r.trace) ∧
    (∃ r, UpdateDynamicComponentData_traced sampleEngine (startRun sampleProxy) = some r ∧
      PacketsUnderLock r.trace ∧ lockFreeAfter false r.trace = true ∧
      ProxyEvent.Enqueue ∉ r.trace ∧ r.trace.head? = some ProxyEvent.ReadActiveIndex) ∧
    (∃ items r, GetDynamicMeshElements_traced 1 (startRun sampleProxy) 3 5 = some (items, r) ∧
      PacketsUnderLock r.trace ∧ lockFreeAfter false r.trace = true ∧
      ProxyEvent.Enqueue ∉ r.trace ∧
      ((1 : Int) ≠ 0 → r.trace.head? = some ProxyEvent.ReadActiveIndex)) := by
  have h := lock_discipline sampleEngine sampleProxy sampleTriData2 sampleColor 0 1 3 5
  obtain ⟨_, hadd, _, _, hset, hupd, hget⟩ := h
  have e1 : (AddRenderPacket_traced sampleEngine (startRun sampleProxy) sampleTriData2
      sampleColor).isSome = true := by decide!
  have e2 : (SetDynamicData_RenderThread_traced (startRun sampleProxy)).isSome = true := by
    decide!
  have e3 : (UpdateDynamicComponentData_traced sampleEngine (startRun sampleProxy)).isSome
      = true := by decide!
  have e4 : (GetDynamicMeshElements_traced 1 (startRun sampleProxy) 3 5).isSome = true := by
    decide!
  obtain ⟨r1, h1⟩ := Option.isSome_iff_exists.mp e1
  obtain ⟨r2, h2⟩ := Option.isSome_iff_exists.mp e2
  obtain ⟨r3, h3⟩ := Option.isSome_iff_exists.mp e3
  obtain ⟨⟨items, r4⟩, h4⟩ := Option.isSome_iff_exists.mp e4
  exact ⟨⟨r1, h1, hadd r1 h1⟩, ⟨r2, h2, hset r2 h2⟩, ⟨r3, h3, hupd r3 h3⟩,
    ⟨items, r4, h4, hget items r4 h4⟩⟩

/-! ## Staged vertices of a new packet -/

/-- What the per-point loop of the build writes: the colour is the alpha of
the point in all four channels. -/
theorem PointWritten_color {pkt : FProceduralPackMeshRenderPacket}
    {old mid : FDynamicMeshVertex} {i : Nat} (h : PointWritten pkt old mid i) :
    ∃ a, pkt.region_alphas[i]? = some a ∧ mid.Color = ⟨a, a, a, a⟩ := by
  obtain ⟨px, py, pz, a, u, v, _, _, _, ea, _, _, hm⟩ := h
  exact ⟨a, ea, by rw [hm]⟩

/-- The build and the "fill initial points" loop write the same position and
texture coordinates; the staged vertex gets the start colour and the unit
basis. -/
theorem InitialPointWritten_fields {pkt : FProceduralPackMeshRenderPacket}
    {startColorIn : FColor} {old mid init : FDynamicMeshVertex} {i : Nat}
    (h1 : PointWritten pkt old mid i) (h2 : InitialPointWritten pkt startColorIn init i) :
    init.Position = mid.Position ∧ init.TextureCoordinate = mid.TextureCoordinate ∧
    init.Color = startColorIn ∧
    tangentsOf init = (⟨1, 0, 0⟩, ⟨0, 1, 0⟩, ⟨0, 0, 1⟩) := by
  obtain ⟨px, py, pz, a, u, v, e0, e2, e1, _, eu0, eu1, hm1⟩ := h1
  obtain ⟨px', py', pz', u', v', f0, f2, f1, fu0, fu1, hm2⟩ := h2
  rw [e0] at f0
  rw [e2] at f2
  rw [e1] at f1
  rw [eu0] at fu0
  rw [eu1] at fu1
  simp only [Option.some.injEq] at f0 f2 f1 fu0 fu1
  subst f0 f2 f1 fu0 fu1
  subst hm1 hm2
  exact ⟨rfl, rfl, rfl, rfl⟩

/-- Entry by entry description of the vertices `AddRenderPacket` stages for a
well-formed packet: what the "fill initial points" loop writes, then the basis
of the last triangle using the vertex, if any. -/
theorem fillInitialBuffers_vertices (E : Engine) (pkt : FProceduralPackMeshRenderPacket)
    (startColorIn : FColor) (hwf : WellFormed pkt) :
    ∃ Indices Vertices, fillInitialBuffers E pkt startColorIn =
        some { pkt with IndexBufferIndices := Indices, VertexBufferVertices := Vertices } ∧
      Vertices.length = pkt.point_num.toNat ∧
      ∀ j, j < pkt.point_num.toNat → ∃ init new,
        InitialPointWritten pkt startColorIn init j ∧ Vertices[j]? = some new ∧
        SameButTangents init new ∧
        ((∀ t, t < triangleIterations pkt.indices_num → ¬ triangleUses pkt.indices t j) →
          new = init) ∧
        (∀ t, t < triangleIterations pkt.indices_num → triangleUses pkt.indices t j →
          (∀ t', t < t' → t' < triangleIterations pkt.indices_num →
            ¬ triangleUses pkt.indices t' j) →
          triangleBasisAt E pkt.indices Vertices t = some (tangentsOf new)) := by
  obtain ⟨hN, hp, hu, ha, _, hidx⟩ := hwf.nat_bounds
  obtain ⟨h0, hm0, _, _, _, _, hml, _⟩ := hwf
  obtain ⟨Indices, hI, _, _⟩ := fillIndexBuffer_spec pkt.indices pkt.indices_num hm0 hml
  obtain ⟨V1, hV1, hV1l, hV1w⟩ := initialPointLoop_spec pkt startColorIn
    ((List.range pkt.point_num.toNat).map E.Uninitialized) (by simp) hp hu
  have hV1len : V1.length = pkt.point_num.toNat := by
    rw [hV1l]
    simp
  obtain ⟨V2, hV2, hV2l, htan⟩ := tangentLoop_spec E pkt.indices pkt.indices_num V1 (by
    intro k hk
    obtain ⟨v, hv, hvl⟩ := hidx k hk
    exact ⟨v, hv, by omega⟩)
  have hpos := position_eq_of_same V1 V2 hV2l
    (fun j old hj => by
      obtain ⟨new, h1, h2, _⟩ := htan j old hj
      exact ⟨new, h1, h2⟩)
  refine ⟨Indices, V2, ?_, by omega, ?_⟩
  · simp [fillInitialBuffers, hI, not_lt.mpr h0, hV1, hV2]
  · intro j hj
    obtain ⟨init, hinit, hw⟩ := hV1w j (by simpa using hj)
    obtain ⟨new, hnew, hsame, hunused, hlast⟩ := htan j init hinit
    refine ⟨init, new, hw, hnew, hsame, hunused, ?_⟩
    intro t ht hut hlater
    rw [triangleBasisAt_congr E pkt.indices V2 V1 t hpos]
    exact hlast t ht hut hlater

/-- C16 as stated fails: for the sample snapshot and the start colour
`(0,0,0,0)` the staged vertices of the new packet differ from its vertex
cache; staged vertex 0 has the start colour, cached vertex 0 has alpha 255 in
every channel. -/
theorem staged_colour_counterexample :
    (AddRenderPacket sampleEngine emptyProxy sampleTriData sampleColor).map (fun p =>
      p.renderPackets.map (fun q =>
        (decide (q.VertexBufferVertices = q.VertexCache),
         (q.VertexBufferVertices[0]?).map (fun v => v.Color),
         (q.VertexCache[0]?).map (fun v => v.Color))))
    = some [(false, some ⟨0, 0, 0, 0⟩, some ⟨255, 255, 255, 255⟩)] := by
  decide!

/-- C16, amended: on a well-formed snapshot `AddRenderPacket` returns and the
packet it appends carries the vertex cache `CreateDirectVertexData` builds
from the snapshot and as many staged vertices.  Vertex for vertex the staged
vertex and the cached vertex have the same position and texture coordinates;
the staged colour is the start colour while the cached colour is the point's
alpha in all four channels; the tangent bases agree for every vertex some
triangle uses, and for a vertex no triangle uses the staged basis is the unit
basis while the cached one is whatever the uninitialised slot held. -/
theorem staged_vertices_vs_cache (E : Engine) (proxy : FCProceduralPackMeshSceneProxy)
    (targetTrisIn : FProceduralPackMeshTriData) (startColorIn : FColor)
    (hwf : WellFormed (bindTriData targetTrisIn)) :
    ∃ proxy' pkt built,
      AddRenderPacket E proxy targetTrisIn startColorIn = some proxy' ∧
      proxy'.renderPackets = proxy.renderPackets ++ [pkt] ∧
      CreateDirectVertexData E (bindTriData targetTrisIn) = some built ∧
      pkt.VertexCache = built.VertexCache ∧
      pkt.VertexBufferVertices.length = built.VertexCache.length ∧
      ∀ j : Nat, (j : Int) < targetTrisIn.point_num → ∃ staged cached a,
        pkt.VertexBufferVertices[j]? = some staged ∧ built.VertexCache[j]? = some cached ∧
        targetTrisIn.region_alphas[j]? = some a ∧
        staged.Position = cached.Position ∧
        staged.TextureCoordinate = cached.TextureCoordinate ∧
        staged.Color = startColorIn ∧ cached.Color = ⟨a, a, a, a⟩ ∧
        ((∃ t, t < triangleIterations targetTrisIn.indices_num ∧
            triangleUses targetTrisIn.indices t j) →
          tangentsOf staged = tangentsOf cached) ∧
        ((∀ t, t < triangleIterations targetTrisIn.indices_num →
            ¬ triangleUses targetTrisIn.indices t j) →
          tangentsOf staged = (⟨1, 0, 0⟩, ⟨0, 1, 0⟩, ⟨0, 0, 1⟩) ∧
          tangentsOf cached = tangentsOf (E.Uninitialized j)) := by
  obtain ⟨hcast, _⟩ := hwf.nat_bounds
  obtain ⟨pkt1, cache', hres, hrun, hlen1, hlenc, hall⟩ :=
    CreateDirectVertexData_spec E (bindTriData targetTrisIn) hwf
  obtain ⟨fi, fp, fu, fn, fm, _, fa, _⟩ := CreateDirectVertexData_fields E _ _ hrun
  have hwf' : WellFormed { pkt1 with VertexCache := cache' } := hwf.congr fi fp fu fn fm fa
  obtain ⟨Indices, Vertices, hfill, hVl, hVall⟩ :=
    fillInitialBuffers_vertices E { pkt1 with VertexCache := cache' } startColorIn hwf'
  have hNeq : pkt1.point_num.toNat = targetTrisIn.point_num.toNat := by
    have : pkt1.point_num = targetTrisIn.point_num := fn
    rw [this]
  have hcastT : (targetTrisIn.point_num.toNat : Int) = targetTrisIn.point_num := hcast
  have hlencT : cache'.length = targetTrisIn.point_num.toNat := hlenc
  have hVlT : Vertices.length = targetTrisIn.point_num.toNat := by
    rw [hVl]
    exact hNeq
  -- the fields that do not depend on the triangles
  have hfields : ∀ j, j < targetTrisIn.point_num.toNat → ∃ old mid new init snew,
      pkt1.VertexCache[j]? = some old ∧ PointWritten (bindTriData targetTrisIn) old mid j ∧
      cache'[j]? = some new ∧ SameButTangents mid new ∧
      Vertices[j]? = some snew ∧ SameButTangents init snew ∧
      init.Position = mid.Position ∧ init.TextureCoordinate = mid.TextureCoordinate ∧
      init.Color = startColorIn ∧
      tangentsOf init = (⟨1, 0, 0⟩, ⟨0, 1, 0⟩, ⟨0, 0, 1⟩) ∧
      ((∀ t, t < triangleIterations targetTrisIn.indices_num →
          ¬ triangleUses targetTrisIn.indices t j) → new = mid ∧ snew = init) ∧
      (∀ t, t < triangleIterations targetTrisIn.indices_num →
        triangleUses targetTrisIn.indices t j →
        (∀ t', t < t' → t' < triangleIterations targetTrisIn.indices_num →
          ¬ triangleUses targetTrisIn.indices t' j) →
        triangleBasisAt E targetTrisIn.indices cache' t = some (tangentsOf new) ∧
        triangleBasisAt E targetTrisIn.indices Vertices t = some (tangentsOf snew)) := by
    intro j hj
    obtain ⟨old, mid, new, hold, hw, hnew, hsame, hun, hl⟩ := hall j hj
    obtain ⟨init, snew, hiw, hsn, hssame, hsun, hsl⟩ := hVall j (by rw [hNeq]; exact hj)
    have hiw' : InitialPointWritten (bindTriData targetTrisIn) startColorIn init j := by
      obtain ⟨px, py, pz, u, v, e0, e2, e1, eu0, eu1, hm⟩ := hiw
      exact ⟨px, py, pz, u, v, by rw [← fp]; exact e0, by rw [← fp]; exact e2,
        by rw [← fp]; exact e1, by rw [← fu]; exact eu0, by rw [← fu]; exact eu1, hm⟩
    obtain ⟨gP, gT, gC, gtan⟩ := InitialPointWritten_fields hw hiw'
    refine ⟨old, mid, new, init, snew, hold, hw, hnew, hsame, hsn, hssame, gP, gT, gC, gtan,
      ?_, ?_⟩
    · intro hno
      exact ⟨hun hno, hsun (by rw [fm, fi]; exact hno)⟩
    · intro t ht hut hlater
      refine ⟨hl t ht hut hlater, ?_⟩
      have := hsl t (by rw [fm]; exact ht) (by rw [fi]; exact hut)
        (by rw [fm, fi]; exact hlater)
      rw [fi] at this
      exact this
  have hpos : ∀ j : Nat, (Vertices[j]?).map (fun v => v.Position)
      = (cache'[j]?).map (fun v => v.Position) := by
    intro j
    by_cases hj : j < targetTrisIn.point_num.toNat
    · obtain ⟨old, mid, new, init, snew, _, _, hnew, hsame, hsn, hssame, gP, _⟩ := hfields j hj
      rw [hnew, hsn]
      simp [hssame.1, gP, hsame.1]
    · rw [List.getElem?_eq_none (by omega), List.getElem?_eq_none (by omega)]
  obtain ⟨built, hbuilt⟩ : ∃ built : FProceduralPackMeshRenderPacket,
      built = { pkt1 with VertexCache := cache' } := ⟨_, rfl⟩
  refine ⟨{ proxy with
      renderPackets := proxy.renderPackets ++ [InitForRender { built with
        IndexBufferIndices := Indices, VertexBufferVertices := Vertices }],
      active_render_packet_idx :=
        if proxy.active_render_packet_idx = INDEX_NONE then 0
        else proxy.active_render_packet_idx },
    InitForRender { built with
      IndexBufferIndices := Indices, VertexBufferVertices := Vertices }, built, ?_, rfl,
    by rw [hbuilt]; exact hrun, by rw [hbuilt]; rfl, ?_, ?_⟩
  · rw [hbuilt]
    simp only [AddRenderPacket, newRenderPacket, hrun, hfill, Option.bind_eq_bind,
      Option.some_bind]
  · rw [hbuilt]
    show Vertices.length = cache'.length
    omega
  · intro j hjI
    have hj : j < targetTrisIn.point_num.toNat := by omega
    obtain ⟨old, mid, new, init, snew, hold, hw, hnew, hsame, hsn, hssame, gP, gT, gC, gtan,
      hunused, hlast⟩ := hfields j hj
    obtain ⟨a, ha, hcol⟩ := PointWritten_color hw
    refine ⟨snew, new, a, hsn, by rw [hbuilt]; exact hnew, ha, ?_, ?_, ?_, ?_, ?_, ?_⟩
    · rw [hssame.1, gP, hsame.1]
    · rw [hssame.2.2, gT, hsame.2.2]
    · rw [hssame.2.1, gC]
    · rw [hsame.2.1, hcol]
    · rintro ⟨t0, ht0, hut0⟩
      rcases last_use_cases targetTrisIn.indices j
          (triangleIterations targetTrisIn.indices_num) with hno | ⟨t, ht, hut, hlater⟩
      · exact absurd hut0 (hno t0 ht0)
      · obtain ⟨b1, b2⟩ := hlast t ht hut hlater
        rw [triangleBasisAt_congr E targetTrisIn.indices Vertices cache' t hpos, b1] at b2
        exact (Option.some.inj b2).symm
    · intro hno
      obtain ⟨e1, e2⟩ := hunused hno
      refine ⟨by rw [e2]; exact gtan, ?_⟩
      rw [e1, (PointWritten_fields hw hw).2.2.2]
      obtain ⟨pkt2, hres2, _, _, hdiff⟩ :=
        resizeVertexCache_spec E (bindTriData targetTrisIn) hwf.1
      rw [hres] at hres2
      have h12 : pkt1 = pkt2 := Option.some.inj hres2
      have hne : ((bindTriData targetTrisIn).VertexCache.length : Int)
          ≠ (bindTriData targetTrisIn).point_num := by
        show ((0 : Nat) : Int) ≠ targetTrisIn.point_num
        omega
      rw [h12, hdiff hne] at hold
      simp only [List.getElem?_map] at hold
      rw [List.getElem?_range (by exact hj)] at hold
      simp only [Option.map_some', Option.some.injEq] at hold
      rw [← hold]

/-- Witness for amended C16: the sample snapshot added to an empty proxy. -/
theorem staged_vertices_vs_cache_witness :
    ∃ proxy' pkt built,
      AddRenderPacket sampleEngine emptyProxy sampleTriData sampleColor = some proxy' ∧
      proxy'.renderPackets = emptyProxy.renderPackets ++ [pkt] ∧
      CreateDirectVertexData sampleEngine (bindTriData sampleTriData) = some built ∧
      pkt.VertexCache = built.VertexCache ∧
      pkt.VertexBufferVertices.length = built.VertexCache.length ∧
      ∀ j : Nat, (j : Int) < sampleTriData.point_num → ∃ staged cached a,
        pkt.VertexBufferVertices[j]? = some staged ∧ built.VertexCache[j]? = some cached ∧
        sampleTriData.region_alphas[j]? = some a ∧
        staged.Position = cached.Position ∧
        staged.TextureCoordinate = cached.TextureCoordinate ∧
        staged.Color = sampleColor ∧ cached.Color = ⟨a, a, a, a⟩ ∧
        ((∃ t, t < triangleIterations sampleTriData.indices_num ∧
            triangleUses sampleTriData.indices t j) →
          tangentsOf staged = tangentsOf cached) ∧
        ((∀ t, t < triangleIterations sampleTriData.indices_num →
            ¬ triangleUses sampleTriData.indices t j) →
          tangentsOf staged = (⟨1, 0, 0⟩, ⟨0, 1, 0⟩, ⟨0, 0, 1⟩) ∧
          tangentsOf cached = tangentsOf (sampleEngine.Uninitialized j)) :=
  staged_vertices_vs_cache sampleEngine emptyProxy sampleTriData sampleColor (by decide)

/-! ## Index safety of the build -/

/-- A fallible loop over `0, 1, ..., N-1` fails when its body fails at some
`k < N` whatever the state. -/
theorem foldlM_range_fail {α : Type} (f : α → Nat → Option α) (a : α) (N k : Nat)
    (hk : k < N) (hfail : ∀ c, f c k = none) :
    (List.range N).foldlM f a = none := by
  induction N with
  | zero => exact absurd hk (Nat.not_lt_zero k)
  | succ n ih =>
    rw [List.range_succ, List.foldlM_append]
    rcases Nat.lt_succ_iff_lt_or_eq.mp hk with hlt | heq
    · rw [ih hlt]
      rfl
    · subst heq
      cases (List.range k).foldlM f a with
      | none => rfl
      | some c => simp [hfail c]

/-- At point `715827882` the index `pos_idx + y_id` is `2 ^ 31`, which wraps to
`-2 ^ 31`: the read of the second position component is out of range whatever
the arrays hold. -/
theorem pointStep_overflow (pkt : FProceduralPackMeshRenderPacket)
    (cache : List FDynamicMeshVertex) : pointStep pkt cache 715827882 = none := by
  have e : wrapInt32 (wrapInt32 (((715827882 : Nat) : Int) * 3) + (y_id : Nat))
      = -2147483648 := by decide
  have r : readAt pkt.points (-2147483648) = none := by
    unfold readAt
    rw [if_pos (by decide)]
  simp only [pointStep, e, r]
  cases cache[715827882]? with
  | none => rfl
  | some cur =>
    cases readAt pkt.points (wrapInt32 (wrapInt32 (((715827882 : Nat) : Int) * 3) + (x_id : Nat))) with
    | none => rfl
    | some px => rfl

/-- The build fails on every packet of more than `715827882` points. -/
theorem CreateDirectVertexData_overflow (E : Engine) (pkt : FProceduralPackMeshRenderPacket)
    (h : 715827882 < pkt.point_num) : CreateDirectVertexData E pkt = none := by
  unfold CreateDirectVertexData
  cases hres : resizeVertexCache E pkt with
  | none => rfl
  | some pkt1 =>
    obtain ⟨_, _, _, fn, _⟩ := resizeVertexCache_fields E pkt pkt1 hres
    have hloop : pointLoop pkt1 pkt1.VertexCache = none := by
      unfold pointLoop
      exact foldlM_range_fail (pointStep pkt1) pkt1.VertexCache pkt1.point_num.toNat 715827882
        (by rw [fn]; omega) (pointStep_overflow pkt1)
    simp [hloop]

/-- C17, counterexample: the packet `hugePacket` has `N = 715827883` points, no
triangles and arrays of `3N`, `2N`, `N` and `0` entries, so it meets every
premise of the claim; the build reads the second position component of point
`715827882` at the `int` index `715827882 * 3 + 2`, which is `-2 ^ 31` after
wrap-around, and fails. -/
theorem build_index_overflow_counterexample :
    0 ≤ hugePacket.point_num ∧ hugePacket.indices_num % 3 = 0 ∧
    (∀ x ∈ hugePacket.indices.take hugePacket.indices_num.toNat,
      (x : Int) < hugePacket.point_num) ∧
    3 * hugePacket.point_num ≤ (hugePacket.points.length : Int) ∧
    2 * hugePacket.point_num ≤ (hugePacket.uvs.length : Int) ∧
    hugePacket.point_num ≤ (hugePacket.region_alphas.length : Int) ∧
    hugePacket.indices_num ≤ (hugePacket.indices.length : Int) ∧
    wrapInt32 (wrapInt32 (715827882 * 3) + (y_id : Nat)) = -2147483648 ∧
    CreateDirectVertexData sampleEngine hugePacket = none := by
  have hn : hugePacket.point_num = 715827883 := rfl
  have hp : hugePacket.points.length = 2147483649 := List.length_replicate _ _
  have hu : hugePacket.uvs.length = 1431655766 := List.length_replicate _ _
  have ha : hugePacket.region_alphas.length = 715827883 := List.length_replicate _ _
  refine ⟨by decide, by decide, fun x hx => absurd hx (List.not_mem_nil x), ?_, ?_, ?_,
    by decide, by decide, CreateDirectVertexData_overflow sampleEngine hugePacket (by decide)⟩
  · rw [hn, hp]
    decide
  · rw [hn, hu]
    decide
  · rw [hn, ha]
    decide

/-- C17, amended: for a packet with `point_num = N ≥ 0`, `3 * N ≤ 2 ^ 31`, and
`indices_num = M` with `M % 3 = 0`, `indices[i] < N` for all `i < M`, and
arrays of at least `3N` positions, `2N` texture floats, `N` alphas and `M`
indices, the build returns: no array access of the per-point pass or of the
per-triangle pass is out of range.  In particular every read of the per-point
pass and every index read and vertex access of the per-triangle pass is in
range, and every index of the per-point pass is an `int` value. -/
theorem build_index_safe (E : Engine) (pkt : FProceduralPackMeshRenderPacket)
    (hN : 0 ≤ pkt.point_num) (hM3 : pkt.indices_num % 3 = 0)
    (hidx : ∀ x ∈ pkt.indices.take pkt.indices_num.toNat, (x : Int) < pkt.point_num)
    (hp : 3 * pkt.point_num ≤ (pkt.points.length : Int))
    (hu : 2 * pkt.point_num ≤ (pkt.uvs.length : Int))
    (ha : pkt.point_num ≤ (pkt.region_alphas.length : Int))
    (hm : pkt.indices_num ≤ (pkt.indices.length : Int))
    (h32 : 3 * pkt.point_num ≤ 2 ^ 31) :
    (∃ pkt', CreateDirectVertexData E pkt = some pkt' ∧
      (pkt'.VertexCache.length : Int) = pkt.point_num) ∧
    (∀ i : Nat, (i : Int) < pkt.point_num →
      3 * i + 2 < pkt.points.length ∧ 2 * i + 1 < pkt.uvs.length ∧
      i < pkt.region_alphas.length ∧
      wrapInt32 (wrapInt32 ((i : Int) * 3) + (y_id : Nat)) = ((3 * i + 2 : Nat) : Int) ∧
      wrapInt32 (wrapInt32 ((i : Int) * 2) + 1) = ((2 * i + 1 : Nat) : Int)) ∧
    (∀ k : Nat, k < 3 * triangleIterations pkt.indices_num →
      ∃ v, pkt.indices[k]? = some v ∧ (v : Int) < pkt.point_num) := by
  have hk : ∀ k : Nat, k < 3 * triangleIterations pkt.indices_num →
      ∃ v, pkt.indices[k]? = some v ∧ (v : Int) < pkt.point_num := by
    intro k hk
    have hkM : k < pkt.indices_num.toNat := by
      unfold triangleIterations at hk
      omega
    have hkl : k < pkt.indices.length := by omega
    refine ⟨pkt.indices[k], List.getElem?_eq_getElem hkl, ?_⟩
    apply hidx
    rw [List.mem_take_iff_getElem]
    exact ⟨k, by simp; omega, rfl⟩
  refine ⟨?_, fun i hi => ⟨by omega, by omega, by omega, ?_, ?_⟩, hk⟩
  · obtain ⟨pkt1, hres, hlen1, _, _⟩ := resizeVertexCache_spec E pkt hN
    obtain ⟨fi, fp, fu, fn, fm, _, fa, _⟩ := resizeVertexCache_fields E pkt pkt1 hres
    obtain ⟨cache1, hloop1, hlen2, _⟩ := pointLoop_spec pkt1 pkt1.VertexCache
      (by rw [fn]; exact hlen1) (by rw [fn, fp]; omega) (by rw [fn, fa]; omega)
      (by rw [fn, fu]; omega) (by rw [fn]; omega)
    obtain ⟨cache2, hloop2, hlen3, _⟩ := tangentLoop_spec E pkt1.indices pkt1.indices_num cache1
      (by
        intro k hk'
        rw [fm] at hk'
        obtain ⟨v, hv, hvN⟩ := hk k hk'
        exact ⟨v, by rw [fi]; exact hv, by omega⟩)
    refine ⟨{ pkt1 with VertexCache := cache2 }, ?_, ?_⟩
    · simp [CreateDirectVertexData, hres, hloop1, hloop2]
    · show (cache2.length : Int) = pkt.point_num
      omega
  · unfold wrapInt32 y_id
    omega
  · unfold wrapInt32
    omega

/-- Witness for C17 on the sample packet. -/
theorem build_index_safe_witness :
    (∃ pkt', CreateDirectVertexData sampleEngine samplePacket = some pkt' ∧
      (pkt'.VertexCache.length : Int) = samplePacket.point_num) ∧
    (∀ i : Nat, (i : Int) < samplePacket.point_num →
      3 * i + 2 < samplePacket.points.length ∧ 2 * i + 1 < samplePacket.uvs.length ∧
      i < samplePacket.region_alphas.length ∧
      wrapInt32 (wrapInt32 ((i : Int) * 3) + (y_id : Nat)) = ((3 * i + 2 : Nat) : Int) ∧
      wrapInt32 (wrapInt32 ((i : Int) * 2) + 1) = ((2 * i + 1 : Nat) : Int)) ∧
    (∀ k : Nat, k < 3 * triangleIterations samplePacket.indices_num →
      ∃ v, samplePacket.indices[k]? = some v ∧ (v : Int) < samplePacket.point_num) :=
  build_index_safe sampleEngine samplePacket (by decide) (by decide) (by decide) (by decide)
    (by decide) (by decide) (by decide) (by decide)

/-! ## Tangent basis -/

/-- A vector is orthogonal to its cross product with any vector. -/
theorem FVector.dot_cross_left (a b : FVector) : a.dot (a.cross b) = 0 := by
  simp only [FVector.dot, FVector.cross]
  ring

/-- A cross product is orthogonal to its second factor. -/
theorem FVector.cross_dot_right (a b : FVector) : (a.cross b).dot b = 0 := by
  simp only [FVector.dot, FVector.cross]
  ring

/-- Scaling the second argument scales the dot product. -/
theorem FVector.dot_scale (a b : FVector) (k : ℚ) : a.dot (b.scale k) = k * a.dot b := by
  simp only [FVector.dot, FVector.scale]
  ring

/-- Scaling the first argument scales the dot product. -/
theorem FVector.scale_dot (a b : FVector) (k : ℚ) : (a.scale k).dot b = k * a.dot b := by
  simp only [FVector.dot, FVector.scale]
  ring

/-- A unit multiple of a vector exists only for a non-zero vector. -/
theorem IsUnitMultipleOf.ne_zero {r v : FVector} (h : IsUnitMultipleOf r v) :
    v ≠ ⟨0, 0, 0⟩ := by
  obtain ⟨k, hk, hu⟩ := h
  intro hv
  rw [hk, hv] at hu
  simp [FVector.dot, FVector.scale] at hu

end CreaturePack
